import Mathlib

/-!
Shallow embedding of the dinit service-supervision core (src/service.cc):
the service record state machine, the dependency-edge model, the
propagation and transition queues, and the activation accounting.

Services are identified by their index into `World.svcs`; dependency edges
live in the single list `World.edges`, each edge naming its dependent
(`efrom`) and its dependency (`eto`).  A service's `depends_on` sequence is
the sublist of edges with `efrom = i`, its `dependents` sequence the
sublist with `eto = i`, both in list order.

Functions of the source that form call cycles (the console grant chain,
chain-starting from `stopped()`, and queue draining) take an explicit fuel
argument; fuel `0` returns the state unchanged.  All other functions are
plain state transformers.
-/

set_option maxHeartbeats 4000000

namespace Dinit

/-- Service lifecycle states (spec §3). -/
inductive service_state_t
  | STOPPED
  | STARTING
  | STARTED
  | STOPPING
deriving DecidableEq, Repr

/-- Reasons a service stopped (spec §3; the list is open-ended in the spec,
these are the members the core manipulates). -/
inductive stopped_reason_t
  | NORMAL
  | DEPFAILED
  | TERMINATED
  | FAILED
deriving DecidableEq, Repr

/-- Dependency edge kinds (spec §3). -/
inductive dependency_type
  | REGULAR
  | MILESTONE
  | WAITS_FOR
  | SOFT
deriving DecidableEq, Repr

/-- Modelled from the spec (§3, the `is_hard` predicate of service.h is not
part of the sources given): REGULAR and MILESTONE are hard edge kinds,
WAITS_FOR and SOFT are soft. -/
def dependency_type.is_hard : dependency_type → Bool
  | .REGULAR => true
  | .MILESTONE => true
  | .WAITS_FOR => false
  | .SOFT => false

/-- Events emitted to listeners (spec §6). -/
inductive service_event_t
  | STARTED
  | STOPPED
  | FAILEDSTART
  | STARTCANCELLED
  | STOPCANCELLED
deriving DecidableEq, Repr

/-- Start-time flags of a service (spec §3). -/
structure onstart_flags_t where
  starts_on_console : Bool := false
  runs_on_console : Bool := false
  rw_ready : Bool := false
  log_ready : Bool := false
deriving DecidableEq, Repr

/-- A dependency edge: the dependent `efrom` depends on the dependency
`eto` (spec §3, and the `dependents` / `depends_on` traversals of
service.cc). -/
structure dep_edge where
  efrom : Nat
  eto : Nat
  dep_type : dependency_type
  waiting_on : Bool := false
  holding_acq : Bool := false
deriving DecidableEq, Repr

/-- The per-service record fields manipulated by service.cc.  The field
declarations themselves are in service.h which is not among the sources;
the field set and types follow the spec (§3).  `required_by` is the
non-negative activation count. -/
structure service where
  name : String := ""
  service_state : service_state_t := .STOPPED
  desired_state : service_state_t := .STOPPED
  required_by : Nat := 0
  start_explicit : Bool := false
  pinned_started : Bool := false
  pinned_stopped : Bool := false
  auto_restart : Bool := false
  restarting : Bool := false
  force_stop : Bool := false
  waiting_for_deps : Bool := false
  waiting_for_console : Bool := false
  have_console : Bool := false
  start_failed : Bool := false
  start_skipped : Bool := false
  stop_reason : stopped_reason_t := .NORMAL
  start_on_completion : String := ""
  onstart_flags : onstart_flags_t := {}
  exit_status : Int := 0
  prop_require : Bool := false
  prop_release : Bool := false
  prop_start : Bool := false
  prop_stop : Bool := false
  prop_failure : Bool := false
deriving DecidableEq, Repr

/-- The service set (spec §4.2) plus the global edge arena and the event
trace observed by listeners. -/
structure World where
  svcs : List service := []
  edges : List dep_edge := []
  prop_queue : List Nat := []
  transition_queue : List Nat := []
  console_queue : List Nat := []
  active_services : Int := 0
  shutting_down : Bool := false
  events : List (Nat × service_event_t) := []
deriving DecidableEq, Repr

/-- Read service `i` (an out-of-range index reads a default record). -/
def getS (w : World) (i : Nat) : service := w.svcs.getD i {}

/-- Write service `i` (no effect out of range, mirroring that such an index
addresses no record). -/
def setS (w : World) (i : Nat) (s : service) : World :=
  { w with svcs := w.svcs.set i s }

/-- Update service `i` in place. -/
def updS (w : World) (i : Nat) (f : service → service) : World :=
  setS w i (f (getS w i))

/-- Read edge `j`. -/
def getE (w : World) (j : Nat) : dep_edge :=
  w.edges.getD j { efrom := 0, eto := 0, dep_type := .REGULAR }

/-- Write edge `j`. -/
def setE (w : World) (j : Nat) (e : dep_edge) : World :=
  { w with edges := w.edges.set j e }

/-- Update edge `j` in place. -/
def updE (w : World) (j : Nat) (f : dep_edge → dep_edge) : World :=
  setE w j (f (getE w j))

/-- Modelled from the spec (§4.2, service_set's queue bookkeeping is not in
the sources): idempotent enqueue onto the propagation queue, insertion
order. -/
def add_prop_queue (w : World) (i : Nat) : World :=
  if i ∈ w.prop_queue then w else { w with prop_queue := w.prop_queue ++ [i] }

/-- Modelled from the spec (§4.2): idempotent enqueue onto the transition
queue. -/
def add_transition_queue (w : World) (i : Nat) : World :=
  if i ∈ w.transition_queue then w
  else { w with transition_queue := w.transition_queue ++ [i] }

/-- Modelled from the spec (§4.3): append to the console queue unless
already present. -/
def append_console_queue (w : World) (i : Nat) : World :=
  if i ∈ w.console_queue then w
  else { w with console_queue := w.console_queue ++ [i] }

/-- Modelled from the spec (§4.3): remove from the console queue without
granting. -/
def unqueue_console (w : World) (i : Nat) : World :=
  { w with console_queue := w.console_queue.filter (fun j => j != i) }

/-- Synchronous event emission to service `i`'s listeners (spec §6),
recorded as a trace. -/
def notify_listeners (w : World) (i : Nat) (ev : service_event_t) : World :=
  { w with events := w.events ++ [(i, ev)] }

/-- service_set::service_active (service.cc): bump the active count. -/
def service_active (w : World) (_i : Nat) : World :=
  { w with active_services := w.active_services + 1 }

/-- service_set::service_inactive (service.cc): drop the active count. -/
def service_inactive (w : World) (_i : Nat) : World :=
  { w with active_services := w.active_services - 1 }

/-- Modelled from the spec (§6): `is_shutting_down` service-set
observable. -/
def is_shutting_down (w : World) : Bool := w.shutting_down

/-- Modelled from the spec (§6, §2): `can_interrupt_stop` policy hook,
default implementation returns true. -/
def can_interrupt_stop (_w : World) (_i : Nat) : Bool := true

/-- Modelled from the spec (§6): `can_interrupt_start` policy hook, default
true. -/
def can_interrupt_start (_w : World) (_i : Nat) : Bool := true

/-- Modelled from the spec (§6): `can_proceed_to_start` policy hook,
default true. -/
def can_proceed_to_start (_w : World) (_i : Nat) : Bool := true

/-- service_record::interrupt_start (service.cc): default implementation
returns true. -/
def interrupt_start (_w : World) (_i : Nat) : Bool := true

/-- Modelled from the spec (§6): `did_finish` is exposed by process-style
services for chain-start decisions; the core (default, process-less)
record reports false. -/
def did_finish (_r : stopped_reason_t) : Bool := false

/-- Modelled from the spec (§6): exit status of the most recent process,
a field of the process-runner; the default record reports its stored
status. -/
def get_exit_status (w : World) (i : Nat) : Int := (getS w i).exit_status

/-- Modelled from the spec (§3, service.h's `is_stopped` accessor is not in
the sources): the service is in the STOPPED state. -/
def is_stopped (w : World) (i : Nat) : Bool :=
  (getS w i).service_state == .STOPPED

/-- Modelled from the spec (§4.1 `stopped()`: "mark the service as becoming
inactive"): a per-kind hook, a no-op for the core record. -/
def becoming_inactive (w : World) (_i : Nat) : World := w

/-- service_set::find_service (service.cc): look up a record by name. -/
def find_service (w : World) (n : String) : Option Nat :=
  (List.range w.svcs.length).find? fun j => (getS w j).name == n

/-- service_record::dependency_started (service.cc): if the receiver is
STARTING (or STARTED in smooth recovery) and waiting on dependencies,
enqueue it for a transition step. -/
def dependency_started (w : World) (i : Nat) : World :=
  let s := getS w i
  if (s.service_state == .STARTING || s.service_state == .STARTED)
      && s.waiting_for_deps then
    add_transition_queue w i
  else w

/-- service_record::dependent_stopped (service.cc). -/
def dependent_stopped (w : World) (i : Nat) : World :=
  let s := getS w i
  if s.service_state == .STOPPING && s.waiting_for_deps then
    add_transition_queue w i
  else w

/-- service_record::require (service.cc): `if (required_by++ == 0)` then,
when not already STARTING/STARTED, flag `prop_start` and enqueue. -/
def require (w : World) (i : Nat) : World :=
  let s := getS w i
  let w1 := setS w i { s with required_by := s.required_by + 1 }
  if s.required_by == 0 then
    if s.service_state != .STARTING && s.service_state != .STARTED then
      add_prop_queue (updS w1 i fun t => { t with prop_start := true }) i
    else w1
  else w1

/-- The body of service_record::release with `issue_stop = false`
(service.cc): decrement `required_by`; on reaching zero emit
STARTCANCELLED if a restart was pending, set desired state STOPPED,
and (unless pinned started) flag `prop_release = !prop_require`, clear
`prop_require`, and enqueue when the release must propagate.  The
`issue_stop` branch calls do_stop and is appended in `release` below,
after do_stop is available. -/
def release_core (w : World) (i : Nat) : World :=
  let s := getS w i
  let rb := s.required_by - 1
  let w1 := setS w i { s with required_by := rb }
  if rb == 0 then
    let w2 := if s.service_state == .STOPPING && s.desired_state == .STARTED
        then notify_listeners w1 i .STARTCANCELLED else w1
    let w3 := updS w2 i fun t => { t with desired_state := .STOPPED }
    if s.pinned_started then w3
    else
      let pr := !s.prop_require
      let w4 := updS w3 i fun t => { t with prop_release := pr, prop_require := false }
      if pr && s.service_state != .STOPPED then add_prop_queue w4 i else w4
  else w1

/-- Clear an incoming edge's `holding_acq` and then `release(false)` the
service — the "clear before release" pairing the source uses at every
release site (service.cc lines 67-72, 182-185, 476-479, 662-668). -/
def breakHold (w : World) (j : Nat) (i : Nat) : World :=
  release_core (updE w j fun e => { e with holding_acq := false }) i

/-- The `if (start_explicit) { start_explicit = false; release(false); }`
pairing (service.cc lines 92-97, 448-451, 265-268). -/
def releaseExplicit (w : World) (i : Nat) : World :=
  if (getS w i).start_explicit then
    release_core (updS w i fun t => { t with start_explicit := false }) i
  else w

/-- service_record::forced_stop (service.cc). -/
def forced_stop (w : World) (i : Nat) : World :=
  let s := getS w i
  if s.service_state != .STOPPED then
    let w1 := setS w i { s with force_stop := true }
    if !s.pinned_started then
      add_prop_queue (updS w1 i fun t => { t with prop_stop := true }) i
    else w1
  else w

/-- One iteration of the service_record::stop_dependents loop (service.cc
lines 633-671) for edge `j`, on behalf of stopping service `i`. -/
def stop_dependents_step (i : Nat) (acc : World × Bool) (j : Nat) : World × Bool :=
  let w := acc.1
  let all := acc.2
  let e := getE w j
  if e.eto != i then acc
  else
    let s := getS w i
    if e.dep_type.is_hard && e.holding_acq then
      let all2 := if !(is_stopped w e.efrom) then false else all
      let w1 := if s.force_stop then forced_stop w e.efrom else w
      let w2 := add_prop_queue (updS w1 e.efrom fun t => { t with prop_stop := true }) e.efrom
      (w2, all2)
    else if !s.auto_restart && !s.restarting && !e.dep_type.is_hard && e.holding_acq then
      if e.waiting_on then
        let w1 := updE w j fun e2 => { e2 with waiting_on := false }
        if e.dep_type == .MILESTONE then
          (add_prop_queue (updS w1 e.efrom fun t => { t with prop_stop := true }) e.efrom, all)
        else
          (breakHold (dependency_started w1 e.efrom) j i, all)
      else
        (breakHold w j i, all)
    else acc

/-- service_record::stop_dependents (service.cc): walk the incoming edges;
returns the updated world and whether all hard dependents were already
stopped. -/
def stop_dependents (w : World) (i : Nat) : World × Bool :=
  (List.range w.edges.length).foldl (stop_dependents_step i) (w, true)

/-- service_record::stop_check_dependents (service.cc). -/
def stop_check_dependents (w : World) (i : Nat) : Bool :=
  (List.range w.edges.length).all fun j =>
    let e := getE w j
    !(e.eto == i && e.dep_type.is_hard && e.holding_acq)

/-- service_record::do_stop (service.cc): no-op when pinned started;
otherwise stop dependents, interrupt a start in progress if permitted,
move to STOPPING and enqueue for transition once dependents are down. -/
def do_stop (w : World) (i : Nat) : World :=
  if (getS w i).pinned_started then w
  else
    let p := stop_dependents w i
    let w1 := p.1
    let all_deps_stopped := p.2
    let proceed := fun (wx : World) =>
      let w4 := updS wx i fun t =>
        { t with service_state := .STOPPING, waiting_for_deps := true }
      if all_deps_stopped then add_transition_queue w4 i else w4
    let s := getS w1 i
    if s.service_state != .STARTED then
      if s.service_state == .STARTING then
        if !s.waiting_for_deps && !s.waiting_for_console then
          if !(can_interrupt_start w1 i) then w1
          else if !(interrupt_start w1 i) then
            notify_listeners w1 i .STARTCANCELLED
          else proceed (notify_listeners w1 i .STARTCANCELLED)
        else
          let w2 := if s.waiting_for_console then
              updS (unqueue_console w1 i) i fun t => { t with waiting_for_console := false }
            else w1
          proceed (notify_listeners w2 i .STARTCANCELLED)
      else w1
    else proceed w1

/-- service_record::release (service.cc): `release_core` plus, when the
count reached zero, not pinned, the service still active and `issue_stop`
requested, set stop reason NORMAL and do_stop. -/
def release (w : World) (i : Nat) (issue_stop : Bool) : World :=
  let s := getS w i
  let rb := s.required_by - 1
  let w1 := setS w i { s with required_by := rb }
  if rb == 0 then
    let w2 := if s.service_state == .STOPPING && s.desired_state == .STARTED
        then notify_listeners w1 i .STARTCANCELLED else w1
    let w3 := updS w2 i fun t => { t with desired_state := .STOPPED }
    if s.pinned_started then w3
    else
      let pr := !s.prop_require
      let w4 := updS w3 i fun t => { t with prop_release := pr, prop_require := false }
      let w5 := if pr && s.service_state != .STOPPED then add_prop_queue w4 i else w4
      if s.service_state != .STOPPED && s.service_state != .STOPPING && issue_stop then
        do_stop (updS w5 i fun t => { t with stop_reason := .NORMAL }) i
      else w5
  else w1

/-- One iteration of service_record::release_dependencies (service.cc):
clear `holding_acq` before releasing the dependency (the re-entrancy
rule), then `release()` with the default `issue_stop = true`. -/
def release_dependencies_step (i : Nat) (w : World) (j : Nat) : World :=
  let e := getE w j
  if e.efrom == i && e.holding_acq then
    release (updE w j fun e2 => { e2 with holding_acq := false }) e.eto true
  else w

/-- service_record::release_dependencies (service.cc). -/
def release_dependencies (w : World) (i : Nat) : World :=
  (List.range w.edges.length).foldl (release_dependencies_step i) w

/-- service_record::stop (service.cc). -/
def stop (w : World) (i : Nat) (bring_down_arg : Bool) : World :=
  let s := getS w i
  let w1 := if s.start_explicit then
      setS w i { s with start_explicit := false, required_by := s.required_by - 1 }
    else w
  let w2 := updS w1 i fun t => { t with desired_state := .STOPPED }
  let s2 := getS w2 i
  if s2.pinned_started then w2
  else
    let bd := if s2.required_by == 0 then true else bring_down_arg
    let w3 := if s2.required_by == 0 then
        let pr := !s2.prop_require
        let w3a := updS w2 i fun t => { t with prop_release := pr }
        if pr then add_prop_queue w3a i else w3a
      else w2
    let s3 := getS w3 i
    if bd && s3.service_state != .STOPPED && s3.service_state != .STOPPING then
      do_stop (updS w3 i fun t => { t with stop_reason := .NORMAL }) i
    else w3

/-- service_record::restart (service.cc): valid only from STARTED. -/
def restart (w : World) (i : Nat) : World × Bool :=
  let s := getS w i
  if s.service_state == .STARTED then
    (do_stop (updS w i fun t => { t with restarting := true, stop_reason := .NORMAL }) i, true)
  else (w, false)

/-- One iteration of service_record::start_check_dependencies (service.cc
lines 331-341) for outgoing edge `j` of starting service `i`. -/
def start_check_dependencies_step (i : Nat) (acc : World × Bool) (j : Nat) : World × Bool :=
  let w := acc.1
  let e := getE w j
  if e.efrom != i then acc
  else if (getS w e.eto).service_state != .STARTED then
    let w1 := if (getS w e.eto).service_state != .STARTING then
        add_prop_queue (updS w e.eto fun t => { t with prop_start := true }) e.eto
      else w
    (updE w1 j fun e2 => { e2 with waiting_on := true }, false)
  else acc

/-- service_record::start_check_dependencies (service.cc). -/
def start_check_dependencies (w : World) (i : Nat) : World × Bool :=
  (List.range w.edges.length).foldl (start_check_dependencies_step i) (w, true)

/-- service_record::check_deps_started (service.cc). -/
def check_deps_started (w : World) (i : Nat) : Bool :=
  (List.range w.edges.length).all fun j =>
    let e := getE w j
    !(e.efrom == i && e.waiting_on)

/-- service_record::initiate_start (service.cc). -/
def initiate_start (w : World) (i : Nat) : World :=
  let w1 := updS w i fun t =>
    { t with start_failed := false, start_skipped := false,
             service_state := .STARTING, waiting_for_deps := true }
  let p := start_check_dependencies w1 i
  if p.2 then add_transition_queue p.1 i else p.1

/-- service_record::queue_for_console (service.cc). -/
def queue_for_console (w : World) (i : Nat) : World :=
  append_console_queue (updS w i fun t => { t with waiting_for_console := true }) i

/-- One iteration of the dependent-cancellation loop of
service_record::failed_to_start (service.cc lines 454-480) for edge `j`:
hard dependents in STARTING get `prop_failure`; waiting soft dependents
are notified as started; any held acquisition is released. -/
def fts_dept_step (i : Nat) (w : World) (j : Nat) : World :=
  let e := getE w j
  if e.eto != i then w
  else
    let w1 := match e.dep_type with
      | .REGULAR | .MILESTONE =>
          if (getS w e.efrom).service_state == .STARTING then
            add_prop_queue (updS w e.efrom fun t => { t with prop_failure := true }) e.efrom
          else w
      | .WAITS_FOR | .SOFT =>
          if e.waiting_on then
            dependency_started (updE w j fun e2 => { e2 with waiting_on := false }) e.efrom
          else w
    if (getE w1 j).holding_acq then breakHold w1 j i else w1

/-- One iteration of the soft-dependency breaking loop of
service_record::stopped (service.cc lines 60-74) for edge `j`. -/
def stopped_softbreak_step (i : Nat) (w : World) (j : Nat) : World :=
  let e := getE w j
  if e.eto != i || e.dep_type.is_hard then w
  else
    let w1 := if e.waiting_on then
        dependency_started (updE w j fun e2 => { e2 with waiting_on := false }) e.efrom
      else w
    if (getE w1 j).holding_acq then breakHold w1 j i else w1

/-- One iteration of the dependency notification loop of
service_record::stopped (service.cc lines 77-80). -/
def stopped_depstop_step (i : Nat) (w : World) (j : Nat) : World :=
  let e := getE w j
  if e.efrom == i then dependent_stopped w e.eto else w

/-- One iteration of the dependent notification loop of
service_record::started (service.cc lines 435-438). -/
def started_notify_step (i : Nat) (w : World) (j : Nat) : World :=
  let e := getE w j
  if e.eto == i then
    updE (dependency_started w e.efrom) j fun e2 => { e2 with waiting_on := false }
  else w

/-- One iteration of the soft-dependent re-attachment loop of
service_record::all_deps_started (service.cc lines 375-384). -/
def reattach_step (i : Nat) (w : World) (j : Nat) : World :=
  let e := getE w j
  if e.eto != i || e.dep_type.is_hard then w
  else
    let st := (getS w e.efrom).service_state
    if !e.holding_acq && (st == .STARTED || st == .STARTING) then
      updS (updE w j fun e2 => { e2 with holding_acq := true }) i
        fun t => { t with required_by := t.required_by + 1 }
    else w

/-- The entry phase of service_record::failed_to_start (service.cc lines
443-451): leave the console queue and release the explicit hold. -/
def fts_prelude (w : World) (i : Nat) : World :=
  let w1 := if (getS w i).waiting_for_console then
      updS (unqueue_console w i) i fun t => { t with waiting_for_console := false }
    else w
  releaseExplicit w1 i

/-- The outcome phase of service_record::failed_to_start (service.cc lines
482-484): set `start_failed` and emit FAILEDSTART. -/
def fts_mark_failed (w : World) (i : Nat) : World :=
  notify_listeners (updS w i fun t => { t with start_failed := true }) i .FAILEDSTART

/-- The dependency-breaking phase of service_record::stopped (service.cc
lines 56-82): clear `restarting`, break soft incoming edges unless
restarting, signal outgoing dependencies, and enter STOPPED. -/
def stopped_break_deps (w : World) (i : Nat) (will_restart : Bool) : World :=
  let w3 := updS w i fun t => { t with restarting := false }
  let w4 := if !will_restart then
      (List.range w3.edges.length).foldl (stopped_softbreak_step i) w3
    else w3
  let w5 := (List.range w4.edges.length).foldl (stopped_depstop_step i) w4
  updS w5 i fun t => { t with service_state := .STOPPED }

/-- The deactivation phase of service_record::stopped (service.cc lines
89-104), taken when the service will not restart. -/
def stopped_deactivate (w : World) (i : Nat) : World :=
  let w6a := becoming_inactive w i
  if (getS w6a i).start_explicit then
    release_core (updS w6a i fun t => { t with start_explicit := false }) i
  else if (getS w6a i).required_by == 0 then service_inactive w6a i
  else w6a

mutual

/-- service_record::start (service.cc): record the explicit user hold and
do_start; bails out early when STOPPED and pinned stopped. -/
def start : Nat → World → Nat → World
  | 0, w, _ => w
  | fuel+1, w, i =>
    let s := getS w i
    if s.service_state == .STOPPED && s.pinned_stopped then w
    else
      let w1 := if !s.start_explicit then
          setS w i { s with required_by := s.required_by + 1, start_explicit := true }
        else w
      do_start fuel w1 i
termination_by structural fuel => fuel

/-- service_record::do_start (service.cc). -/
def do_start : Nat → World → Nat → World
  | 0, w, _ => w
  | fuel+1, w, i =>
    let s := getS w i
    let was_active := s.service_state != .STOPPED
    let w1 := setS w i { s with desired_state := .STARTED }
    if s.pinned_stopped then
      if !was_active then failed_to_start fuel w1 i false false else w1
    else if was_active then
      if s.service_state != .STOPPING then w1
      else if !(can_interrupt_stop w1 i) then
        updS w1 i fun t => { t with restarting := true }
      else
        initiate_start (notify_listeners w1 i .STOPCANCELLED) i
    else
      let w2 := service_active w1 i
      let pr := !s.prop_release
      let w3 := updS w2 i fun t => { t with prop_require := pr, prop_release := false }
      let w4 := if pr then add_prop_queue w3 i else w3
      initiate_start w4 i
termination_by structural fuel => fuel

/-- service_record::failed_to_start (service.cc): release the console
slot and the explicit hold, cancel the start of dependents, flag the
failure, and (when `immediate_stop`) run `stopped`. -/
def failed_to_start : Nat → World → Nat → Bool → Bool → World
  | 0, w, _, _, _ => w
  | fuel+1, w, i, _depfailed, immediate_stop =>
    let w2 := fts_prelude w i
    let w3 := (List.range w2.edges.length).foldl (fts_dept_step i) w2
    let w4 := fts_mark_failed w3 i
    if immediate_stop then stopped fuel w4 i else w4
termination_by structural fuel => fuel

/-- service_record::stopped (service.cc). -/
def stopped : Nat → World → Nat → World
  | 0, w, _ => w
  | fuel+1, w, i =>
    let w1 := if (getS w i).have_console then release_console fuel w i else w
    let w2 := updS w1 i fun t => { t with force_stop := false }
    let s2 := getS w2 i
    let will_restart := s2.desired_state == .STARTED && !s2.pinned_stopped
    let w6 := stopped_break_deps w2 i will_restart
    let w7 := if will_restart then
        initiate_start (updS w6 i fun t => { t with restarting := true }) i
      else stopped_deactivate w6 i
    let w8 := if !(getS w7 i).start_failed then
        -- chain start: only when the service self-terminated successfully
        if did_finish (getS w7 i).stop_reason && get_exit_status w7 i == 0
            && !will_restart && (getS w7 i).start_on_completion != ""
            && !(is_shutting_down w7) then
          match find_service w7 (getS w7 i).start_on_completion with
          | some j => start fuel w7 j
          | none => w7   -- load failure is logged and swallowed (spec §7)
        else w7
      else w7
    notify_listeners w8 i .STOPPED
termination_by structural fuel => fuel

/-- service_record::started (service.cc). -/
def started : Nat → World → Nat → World
  | 0, w, _ => w
  | fuel+1, w, i =>
    let s := getS w i
    let w1 := if s.have_console && !s.onstart_flags.runs_on_console then
        release_console fuel w i
      else w
    let w2 := notify_listeners
      (updS w1 i fun t => { t with service_state := .STARTED }) i .STARTED
    -- rootfs_is_rw / setup_external_log are global-setup hooks outside the
    -- core state (spec §1); they leave the model state unchanged.
    let s2 := getS w2 i
    if s2.force_stop || s2.desired_state == .STOPPED then do_stop w2 i
    else (List.range w2.edges.length).foldl (started_notify_step i) w2
termination_by structural fuel => fuel

/-- service_record::bring_up (service.cc): the default implementation has
no process, so it reports started immediately and returns success. -/
def bring_up : Nat → World → Nat → World × Bool
  | 0, w, _ => (w, true)
  | fuel+1, w, i => (started fuel w i, true)
termination_by structural fuel => fuel

/-- service_record::all_deps_started (service.cc). -/
def all_deps_started : Nat → World → Nat → World
  | 0, w, _ => w
  | fuel+1, w, i =>
    let s := getS w i
    if s.onstart_flags.starts_on_console && !s.have_console then
      queue_for_console w i
    else
      let w1 := updS w i fun t => { t with waiting_for_deps := false }
      if !(can_proceed_to_start w1 i) then
        updS w1 i fun t => { t with waiting_for_deps := true }
      else
        let p := bring_up fuel w1 i
        let w2 := updS p.1 i fun t => { t with restarting := false }
        if p.2 then
          (List.range w2.edges.length).foldl (reattach_step i) w2
        else failed_to_start fuel w2 i false true
termination_by structural fuel => fuel

/-- service_record::acquired_console (service.cc). -/
def acquired_console : Nat → World → Nat → World
  | 0, w, _ => w
  | fuel+1, w, i =>
    let w1 := updS w i fun t => { t with waiting_for_console := false, have_console := true }
    if (getS w1 i).service_state != .STARTING then release_console fuel w1 i
    else if check_deps_started w1 i then all_deps_started fuel w1 i
    else release_console fuel w1 i
termination_by structural fuel => fuel

/-- service_record::release_console (service.cc). -/
def release_console : Nat → World → Nat → World
  | 0, w, _ => w
  | fuel+1, w, i =>
    pull_console_queue fuel (updS w i fun t => { t with have_console := false }) i
termination_by structural fuel => fuel

/-- Modelled from the spec (§4.3, service_set's console queue is not in
the sources): dequeue the head of the console queue and invoke
acquired_console on it. -/
def pull_console_queue : Nat → World → Nat → World
  | 0, w, _ => w
  | fuel+1, w, _i =>
    match w.console_queue with
    | [] => w
    | h :: rest => acquired_console fuel { w with console_queue := rest } h
termination_by structural fuel => fuel

end

/-- service_record::bring_down (service.cc): the default implementation
has no process, so stopping completes immediately. -/
def bring_down (fuel : Nat) (w : World) (i : Nat) : World :=
  stopped fuel (updS w i fun t => { t with waiting_for_deps := false }) i

/-- service_record::execute_transition (service.cc). -/
def execute_transition (fuel : Nat) (w : World) (i : Nat) : World :=
  let s := getS w i
  if s.service_state == .STARTING
      || (s.service_state == .STARTED && s.restarting) then
    if check_deps_started w i then all_deps_started fuel w i else w
  else if s.service_state == .STOPPING then
    if stop_check_dependents w i then
      let w1 := updS w i fun t => { t with waiting_for_deps := false }
      let s1 := getS w1 i
      let w2 := if s1.start_explicit && !s1.auto_restart && !s1.restarting then
          release_core (updS w1 i fun t => { t with start_explicit := false }) i
        else w1
      bring_down fuel w2 i
    else w
  else w

/-- One iteration of the `prop_require` consumption loop of
service_record::do_propagation (service.cc lines 219-226): require each
dependency and take hold of the edge. -/
def do_propagation_require_step (i : Nat) (w : World) (j : Nat) : World :=
  let e := getE w j
  if e.efrom == i then
    updE (require w e.eto) j fun e2 => { e2 with holding_acq := true }
  else w

/-- service_record::do_propagation (service.cc): consume the pending
propagation bits in the order require, release, failure, start, stop. -/
def do_propagation (fuel : Nat) (w : World) (i : Nat) : World :=
  let w1 := if (getS w i).prop_require then
      updS ((List.range w.edges.length).foldl (do_propagation_require_step i) w) i
        fun t => { t with prop_require := false }
    else w
  let w2 := if (getS w1 i).prop_release then
      updS (release_dependencies w1 i) i fun t => { t with prop_release := false }
    else w1
  let w3 := if (getS w2 i).prop_failure then
      failed_to_start fuel
        (updS w2 i fun t => { t with prop_failure := false, stop_reason := .DEPFAILED })
        i true true
    else w2
  let w4 := if (getS w3 i).prop_start then
      do_start fuel (updS w3 i fun t => { t with prop_start := false }) i
    else w3
  if (getS w4 i).prop_stop then
    do_stop (updS w4 i fun t => { t with prop_stop := false }) i
  else w4

/-- Modelled from the spec (§4.2, service_set::process_queues is not in
the sources): drain the propagation queue first, then the transition
queue, repeating until both are empty. -/
def process_queues : Nat → World → World
  | 0, w => w
  | fuel+1, w =>
    match w.prop_queue with
    | i :: rest => process_queues fuel (do_propagation fuel { w with prop_queue := rest } i)
    | [] =>
      match w.transition_queue with
      | i :: rest =>
          process_queues fuel (execute_transition fuel { w with transition_queue := rest } i)
      | [] => w

/-- service_record::unpin (service.cc). -/
def unpin (fuel : Nat) (w : World) (i : Nat) : World :=
  let w1 := if (getS w i).pinned_started then
      let w1a := updS w i fun t => { t with pinned_started := false }
      if (getS w1a i).service_state == .STARTED then
        let w1b := if (getS w1a i).required_by == 0 then
            add_prop_queue (updS w1a i fun t => { t with prop_release := true }) i
          else w1a
        if (getS w1b i).desired_state == .STOPPED || (getS w1b i).force_stop then
          process_queues fuel (do_stop w1b i)
        else w1b
      else w1a
    else w
  if (getS w1 i).pinned_stopped then
    let w2 := updS w1 i fun t => { t with pinned_stopped := false }
    if (getS w2 i).service_state == .STOPPED then
      if (getS w2 i).desired_state == .STARTED then
        process_queues fuel
          (add_prop_queue
            (updS w2 i fun t => { t with prop_require := true, prop_start := true }) i)
      else w2
    else w2
  else w1

/-! ### The activation-accounting invariant (spec §3 invariant 1) -/

/-- Number of incoming edges of service `i` whose dependent currently
holds an acquisition. -/
def cntHold (w : World) (i : Nat) : Nat :=
  w.edges.countP fun e => e.eto == i && e.holding_acq

/-- Spec §3 invariant 1: `required_by = |{e ∈ dependents : e.holding_acq}|
+ (start_explicit ? 1 : 0)` for every service. -/
def inv1 (w : World) : Prop :=
  ∀ i, i < w.svcs.length →
    (getS w i).required_by
      = cntHold w i + (if (getS w i).start_explicit then 1 else 0)

/-! ### Basic lemmas about the state accessors -/

theorem svcs_setS (w : World) (i : Nat) (s : service) :
    (setS w i s).svcs = w.svcs.set i s := rfl

@[simp] theorem edges_setS (w : World) (i : Nat) (s : service) :
    (setS w i s).edges = w.edges := rfl

@[simp] theorem svcs_setE (w : World) (j : Nat) (e : dep_edge) :
    (setE w j e).svcs = w.svcs := rfl

theorem edges_setE (w : World) (j : Nat) (e : dep_edge) :
    (setE w j e).edges = w.edges.set j e := rfl

@[simp] theorem length_svcs_setS (w : World) (i : Nat) (s : service) :
    (setS w i s).svcs.length = w.svcs.length := by
  simp [setS]

@[simp] theorem length_edges_setE (w : World) (j : Nat) (e : dep_edge) :
    (setE w j e).edges.length = w.edges.length := by
  simp [setE]

theorem getS_eq (w : World) (i : Nat) : getS w i = (w.svcs[i]?).getD {} := by
  simp [getS]

theorem getE_eq (w : World) (j : Nat) :
    getE w j = (w.edges[j]?).getD { efrom := 0, eto := 0, dep_type := .REGULAR } := by
  simp [getE]

theorem getS_setS_self (w : World) (i : Nat) (s : service) (h : i < w.svcs.length) :
    getS (setS w i s) i = s := by
  simp [getS_eq, setS, List.getElem?_set_self h]

theorem getS_setS_ne (w : World) (i k : Nat) (s : service) (h : i ≠ k) :
    getS (setS w i s) k = getS w k := by
  simp [getS_eq, setS, List.getElem?_set_ne h]

theorem setS_oob (w : World) (i : Nat) (s : service) (h : w.svcs.length ≤ i) :
    setS w i s = w := by
  simp [setS, List.set_eq_of_length_le h]

theorem getE_setE_self (w : World) (j : Nat) (e : dep_edge) (h : j < w.edges.length) :
    getE (setE w j e) j = e := by
  simp [getE_eq, setE, List.getElem?_set_self h]

theorem getE_setE_ne (w : World) (j k : Nat) (e : dep_edge) (h : j ≠ k) :
    getE (setE w j e) k = getE w k := by
  simp [getE_eq, setE, List.getElem?_set_ne h]

theorem setE_oob (w : World) (j : Nat) (e : dep_edge) (h : w.edges.length ≤ j) :
    setE w j e = w := by
  simp [setE, List.set_eq_of_length_le h]

theorem getS_updS_self (w : World) (i : Nat) (f : service → service) (h : i < w.svcs.length) :
    getS (updS w i f) i = f (getS w i) :=
  getS_setS_self w i _ h

theorem getS_updS_ne (w : World) (i k : Nat) (f : service → service) (h : i ≠ k) :
    getS (updS w i f) k = getS w k :=
  getS_setS_ne w i k _ h

theorem getE_updE_self (w : World) (j : Nat) (f : dep_edge → dep_edge) (h : j < w.edges.length) :
    getE (updE w j f) j = f (getE w j) :=
  getE_setE_self w j _ h

theorem getE_updE_ne (w : World) (j k : Nat) (f : dep_edge → dep_edge) (h : j ≠ k) :
    getE (updE w j f) k = getE w k :=
  getE_setE_ne w j k _ h

/-- Two worlds with the same services and edges satisfy the same
activation invariant: queues, counters and the event trace are
irrelevant to it. -/
theorem inv1_congr {w w' : World} (hs : w'.svcs = w.svcs) (he : w'.edges = w.edges) :
    inv1 w' ↔ inv1 w := by
  unfold inv1 cntHold getS
  rw [hs, he]

@[simp] theorem svcs_add_prop_queue (w : World) (i : Nat) :
    (add_prop_queue w i).svcs = w.svcs := by
  unfold add_prop_queue; split <;> rfl

@[simp] theorem edges_add_prop_queue (w : World) (i : Nat) :
    (add_prop_queue w i).edges = w.edges := by
  unfold add_prop_queue; split <;> rfl

@[simp] theorem svcs_add_transition_queue (w : World) (i : Nat) :
    (add_transition_queue w i).svcs = w.svcs := by
  unfold add_transition_queue; split <;> rfl

@[simp] theorem edges_add_transition_queue (w : World) (i : Nat) :
    (add_transition_queue w i).edges = w.edges := by
  unfold add_transition_queue; split <;> rfl

@[simp] theorem svcs_append_console_queue (w : World) (i : Nat) :
    (append_console_queue w i).svcs = w.svcs := by
  unfold append_console_queue; split <;> rfl

@[simp] theorem edges_append_console_queue (w : World) (i : Nat) :
    (append_console_queue w i).edges = w.edges := by
  unfold append_console_queue; split <;> rfl

@[simp] theorem svcs_unqueue_console (w : World) (i : Nat) :
    (unqueue_console w i).svcs = w.svcs := rfl

@[simp] theorem edges_unqueue_console (w : World) (i : Nat) :
    (unqueue_console w i).edges = w.edges := rfl

@[simp] theorem svcs_notify_listeners (w : World) (i : Nat) (ev : service_event_t) :
    (notify_listeners w i ev).svcs = w.svcs := rfl

@[simp] theorem edges_notify_listeners (w : World) (i : Nat) (ev : service_event_t) :
    (notify_listeners w i ev).edges = w.edges := rfl

@[simp] theorem svcs_service_active (w : World) (i : Nat) :
    (service_active w i).svcs = w.svcs := rfl

@[simp] theorem edges_service_active (w : World) (i : Nat) :
    (service_active w i).edges = w.edges := rfl

@[simp] theorem svcs_service_inactive (w : World) (i : Nat) :
    (service_inactive w i).svcs = w.svcs := rfl

@[simp] theorem edges_service_inactive (w : World) (i : Nat) :
    (service_inactive w i).edges = w.edges := rfl

@[simp] theorem svcs_dependency_started (w : World) (i : Nat) :
    (dependency_started w i).svcs = w.svcs := by
  unfold dependency_started; dsimp only; split <;> simp

@[simp] theorem edges_dependency_started (w : World) (i : Nat) :
    (dependency_started w i).edges = w.edges := by
  unfold dependency_started; dsimp only; split <;> simp

@[simp] theorem svcs_dependent_stopped (w : World) (i : Nat) :
    (dependent_stopped w i).svcs = w.svcs := by
  unfold dependent_stopped; dsimp only; split <;> simp

@[simp] theorem edges_dependent_stopped (w : World) (i : Nat) :
    (dependent_stopped w i).edges = w.edges := by
  unfold dependent_stopped; dsimp only; split <;> simp

theorem inv1_dependency_started (w : World) (i : Nat) :
    inv1 (dependency_started w i) ↔ inv1 w :=
  inv1_congr (by simp) (by simp)

theorem inv1_dependent_stopped (w : World) (i : Nat) :
    inv1 (dependent_stopped w i) ↔ inv1 w :=
  inv1_congr (by simp) (by simp)

/-- A service update that does not touch `required_by` or `start_explicit`
leaves the activation invariant intact. -/
theorem inv1_updS_frame (w : World) (i : Nat) (f : service → service)
    (hrb : ∀ s, (f s).required_by = s.required_by)
    (hex : ∀ s, (f s).start_explicit = s.start_explicit) :
    inv1 (updS w i f) ↔ inv1 w := by
  by_cases hi : i < w.svcs.length
  · have hs : ∀ k, k < w.svcs.length →
        (getS (updS w i f) k).required_by = (getS w k).required_by ∧
        (getS (updS w i f) k).start_explicit = (getS w k).start_explicit := by
      intro k _
      by_cases hik : i = k
      · subst hik
        rw [getS_updS_self w i f hi]
        exact ⟨hrb _, hex _⟩
      · rw [getS_updS_ne w i k f hik]
        exact ⟨rfl, rfl⟩
    have hc : ∀ k, cntHold (updS w i f) k = cntHold w k := by
      intro k; simp [cntHold, updS]
    have hl : (updS w i f).svcs.length = w.svcs.length := by simp [updS]
    unfold inv1
    rw [hl]
    constructor
    · intro h k hk
      have h2 := h k hk
      rw [(hs k hk).1, (hs k hk).2, hc k] at h2
      exact h2
    · intro h k hk
      rw [(hs k hk).1, (hs k hk).2, hc k]
      exact h k hk
  · rw [updS, setS_oob w i _ (Nat.le_of_not_lt hi)]

/-- Counting incoming holds after overwriting one edge. -/
theorem cntHold_setE (w : World) (j : Nat) (e' : dep_edge) (hj : j < w.edges.length)
    (k : Nat) :
    cntHold (setE w j e') k
      = cntHold w k - (if (getE w j).eto == k && (getE w j).holding_acq then 1 else 0)
        + (if e'.eto == k && e'.holding_acq then 1 else 0) := by
  have hg : getE w j = w.edges[j] := by
    simp [getE_eq, List.getElem?_eq_getElem hj]
  unfold cntHold setE
  rw [List.countP_set _ _ _ _ hj, hg]

/-- An edge update preserving `eto` and `holding_acq` leaves the
activation invariant intact. -/
theorem inv1_updE_frame (w : World) (j : Nat) (f : dep_edge → dep_edge)
    (hto : ∀ e, (f e).eto = e.eto)
    (hha : ∀ e, (f e).holding_acq = e.holding_acq) :
    inv1 (updE w j f) ↔ inv1 w := by
  by_cases hj : j < w.edges.length
  · have hc : ∀ k, cntHold (updE w j f) k = cntHold w k := by
      intro k
      rw [updE, cntHold_setE w j _ hj k, hto, hha]
      have hb : (if (getE w j).eto == k && (getE w j).holding_acq then 1 else 0)
          ≤ cntHold w k := by
        have hg : getE w j = w.edges[j] := by
          simp [getE_eq, List.getElem?_eq_getElem hj]
        rw [hg]
        unfold cntHold
        exact List.boole_getElem_le_countP (fun e => e.eto == k && e.holding_acq) w.edges j hj
      omega
    have hs : ∀ k, getS (updE w j f) k = getS w k := fun k => rfl
    have hl : (updE w j f).svcs.length = w.svcs.length := by simp [updE]
    unfold inv1
    rw [hl]
    exact ⟨fun h k hk => by rw [← hs k, ← hc k]; exact h k hk,
           fun h k hk => by rw [hs k, hc k]; exact h k hk⟩
  · rw [updE, setE_oob w j _ (Nat.le_of_not_lt hj)]

theorem inv1_add_prop_queue (w : World) (i : Nat) :
    inv1 (add_prop_queue w i) ↔ inv1 w :=
  inv1_congr (by simp) (by simp)

theorem inv1_add_transition_queue (w : World) (i : Nat) :
    inv1 (add_transition_queue w i) ↔ inv1 w :=
  inv1_congr (by simp) (by simp)

theorem inv1_append_console_queue (w : World) (i : Nat) :
    inv1 (append_console_queue w i) ↔ inv1 w :=
  inv1_congr (by simp) (by simp)

theorem inv1_unqueue_console (w : World) (i : Nat) :
    inv1 (unqueue_console w i) ↔ inv1 w :=
  inv1_congr (by simp) (by simp)

theorem inv1_notify_listeners (w : World) (i : Nat) (ev : service_event_t) :
    inv1 (notify_listeners w i ev) ↔ inv1 w :=
  inv1_congr (by simp) (by simp)

theorem inv1_service_active (w : World) (i : Nat) :
    inv1 (service_active w i) ↔ inv1 w :=
  inv1_congr (by simp) (by simp)

theorem inv1_service_inactive (w : World) (i : Nat) :
    inv1 (service_inactive w i) ↔ inv1 w :=
  inv1_congr (by simp) (by simp)

@[simp] theorem becoming_inactive_eq (w : World) (i : Nat) :
    becoming_inactive w i = w := rfl

theorem inv1_dependency_started_iff (w : World) (i : Nat) :
    inv1 (dependency_started w i) ↔ inv1 w :=
  inv1_congr (by simp) (by simp)

theorem cntHold_setS (w : World) (i : Nat) (s : service) (k : Nat) :
    cntHold (setS w i s) k = cntHold w k := by
  simp [cntHold]

theorem cntHold_edges_eq {w w' : World} (he : w'.edges = w.edges) (k : Nat) :
    cntHold w' k = cntHold w k := by
  unfold cntHold; rw [he]

theorem getE_oob (w : World) (j : Nat) (h : w.edges.length ≤ j) :
    getE w j = { efrom := 0, eto := 0, dep_type := .REGULAR } := by
  simp [getE_eq, List.getElem?_eq_none h]

/-- `updS` with a field update that keeps `required_by` and
`start_explicit` preserves the invariant (packaged for goal-directed
use). -/
theorem inv1_updS_frame2 {w : World} {i : Nat} {f : service → service}
    (hrb : ∀ s, (f s).required_by = s.required_by)
    (hex : ∀ s, (f s).start_explicit = s.start_explicit)
    (h : inv1 w) : inv1 (updS w i f) :=
  (inv1_updS_frame w i f hrb hex).mpr h

/-- `updE` with an edge update that keeps `eto` and `holding_acq`
preserves the invariant. -/
theorem inv1_updE_frame2 {w : World} {j : Nat} {f : dep_edge → dep_edge}
    (hto : ∀ e, (f e).eto = e.eto)
    (hha : ∀ e, (f e).holding_acq = e.holding_acq)
    (h : inv1 w) : inv1 (updE w j f) :=
  (inv1_updE_frame w j f hto hha).mpr h

/-- If service `i`'s activation count exceeds its holds by exactly one
extra unit (and everyone else balances), `release_core` restores the
invariant. -/
theorem inv1_release_core_over (w : World) (i : Nat)
    (h : ∀ k, k < w.svcs.length →
      (getS w k).required_by
        = cntHold w k + (if (getS w k).start_explicit then 1 else 0)
          + (if k = i then 1 else 0)) :
    inv1 (release_core w i) := by
  have h1 : inv1 (setS w i { getS w i with required_by := (getS w i).required_by - 1 }) := by
    intro k hk
    rw [length_svcs_setS] at hk
    rw [cntHold_setS]
    by_cases hki : i = k
    · subst hki
      rw [getS_setS_self w i _ hk]
      have h2 := h i hk
      have hik : (if i = i then 1 else 0) = 1 := if_pos rfl
      rw [hik] at h2
      dsimp only
      omega
    · rw [getS_setS_ne w i k _ hki]
      have h2 := h k hk
      have hik : (if k = i then 1 else 0) = 0 := if_neg (fun hc => hki hc.symm)
      rw [hik] at h2
      omega
  unfold release_core
  dsimp only
  repeat
    first
      | exact h1
      | refine inv1_updS_frame2 (fun _ => rfl) (fun _ => rfl) ?_
      | refine (inv1_add_prop_queue _ _).mpr ?_
      | refine (inv1_notify_listeners _ _ _).mpr ?_
      | split

/-- Clearing a held incoming edge and releasing the dependency in one
step preserves the activation invariant (the re-entrancy pairing). -/
theorem inv1_breakHold (w : World) (j i : Nat) (hw : inv1 w)
    (hto : (getE w j).eto = i) (hha : (getE w j).holding_acq = true) :
    inv1 (breakHold w j i) := by
  by_cases hj : j < w.edges.length
  · unfold breakHold
    apply inv1_release_core_over
    intro k hk
    have hk' : k < w.svcs.length := hk
    have hgs : ∀ m, getS (updE w j (fun e => { e with holding_acq := false })) m
        = getS w m := fun _ => rfl
    have hcnt : cntHold (updE w j (fun e => { e with holding_acq := false })) k
        = cntHold w k
          - (if (getE w j).eto == k && (getE w j).holding_acq then 1 else 0) := by
      unfold updE
      rw [cntHold_setE w j _ hj k]
      simp
    have hub : (if (getE w j).eto == k && (getE w j).holding_acq then 1 else 0)
        ≤ cntHold w k := by
      have hg : getE w j = w.edges[j] := by
        simp [getE_eq, List.getElem?_eq_getElem hj]
      unfold cntHold
      rw [hg]
      exact List.boole_getElem_le_countP (fun e => e.eto == k && e.holding_acq) w.edges j hj
    rw [hgs, hcnt]
    by_cases hki : k = i
    · subst hki
      have hcond : ((getE w j).eto == k && (getE w j).holding_acq) = true := by
        rw [hto, hha]; simp
      rw [hcond] at hub ⊢
      have h2 := hw k hk'
      have hik : (if k = k then 1 else 0) = 1 := if_pos rfl
      rw [hik]
      simp only [if_pos] at hub ⊢
      omega
    · have hcond : ((getE w j).eto == k && (getE w j).holding_acq) = false := by
        rw [hto, hha]
        simp
        exact fun hc => hki hc.symm
      rw [hcond]
      have h2 := hw k hk'
      have hik : (if k = i then 1 else 0) = 0 := if_neg hki
      rw [hik]
      simp only [Bool.false_eq_true, if_false]
      omega
  · exfalso
    rw [getE_oob w j (Nat.le_of_not_lt hj)] at hha
    simp at hha

/-- Clearing the explicit user hold and releasing in one step preserves
the activation invariant. -/
theorem inv1_explicit_pair (w : World) (i : Nat) (hw : inv1 w)
    (hex : (getS w i).start_explicit = true) :
    inv1 (release_core (updS w i fun t => { t with start_explicit := false }) i) := by
  apply inv1_release_core_over
  intro k hk
  have hk' : k < w.svcs.length := by
    have : (updS w i fun t => { t with start_explicit := false }).svcs.length
        = w.svcs.length := by simp [updS]
    omega
  have hcnt : cntHold (updS w i fun t => { t with start_explicit := false }) k
      = cntHold w k := by
    simp [cntHold, updS]
  rw [hcnt]
  by_cases hki : k = i
  · subst hki
    rw [getS_updS_self w k _ hk']
    have h2 := hw k hk'
    rw [hex] at h2
    have hik : (if k = k then 1 else 0) = 1 := if_pos rfl
    rw [hik]
    dsimp only
    simp only [Bool.false_eq_true, if_false, if_pos] at h2 ⊢
    omega
  · rw [getS_updS_ne w i k _ (fun hc => hki hc.symm)]
    have h2 := hw k hk'
    have hik : (if k = i then 1 else 0) = 0 := if_neg hki
    rw [hik]
    omega

theorem getS_congr {w w' : World} (h : w'.svcs = w.svcs) (k : Nat) :
    getS w' k = getS w k := by
  unfold getS; rw [h]

theorem getE_congr {w w' : World} (h : w'.edges = w.edges) (k : Nat) :
    getE w' k = getE w k := by
  unfold getE; rw [h]

theorem getE_updE_eto {w : World} {j : Nat} {f : dep_edge → dep_edge}
    (hto : ∀ e, (f e).eto = e.eto) (k : Nat) :
    (getE (updE w j f) k).eto = (getE w k).eto := by
  by_cases hjk : j = k
  · subst hjk
    by_cases hj : j < w.edges.length
    · rw [getE_updE_self w j f hj, hto]
    · rw [updE, setE_oob w j _ (Nat.le_of_not_lt hj)]
  · rw [getE_updE_ne w j k f hjk]

@[simp] theorem edges_require (w : World) (i : Nat) :
    (require w i).edges = w.edges := by
  unfold require
  dsimp only
  split
  · split <;> simp [updS]
  · simp [updS]

@[simp] theorem length_svcs_require (w : World) (i : Nat) :
    (require w i).svcs.length = w.svcs.length := by
  unfold require
  dsimp only
  split
  · split <;> simp [updS]
  · simp [updS]

theorem getS_require_ne (w : World) (i k : Nat) (h : i ≠ k) :
    getS (require w i) k = getS w k := by
  unfold require
  dsimp only
  split
  · split
    · rw [getS_congr (svcs_add_prop_queue _ _), updS, getS_setS_ne _ _ _ _ h,
          getS_setS_ne _ _ _ _ h]
    · rw [getS_setS_ne _ _ _ _ h]
  · rw [getS_setS_ne _ _ _ _ h]

theorem getS_require_self (w : World) (i : Nat) (hi : i < w.svcs.length) :
    (getS (require w i) i).required_by = (getS w i).required_by + 1 ∧
    (getS (require w i) i).start_explicit = (getS w i).start_explicit := by
  unfold require
  dsimp only
  split
  · split
    · rw [getS_congr (svcs_add_prop_queue _ _), updS,
          getS_setS_self _ _ _ (by simpa using hi),
          getS_setS_self _ _ _ hi]
      exact ⟨rfl, rfl⟩
    · rw [getS_setS_self _ _ _ hi]
      exact ⟨rfl, rfl⟩
  · rw [getS_setS_self _ _ _ hi]
    exact ⟨rfl, rfl⟩

/-- One `prop_require` drain iteration — `require()` on the dependency
paired with taking hold of the edge — preserves the activation invariant,
provided the edge was not already held. -/
theorem inv1_require_step (i : Nat) (w : World) (j : Nat) (hw : inv1 w)
    (hj : j < w.edges.length) (hha : (getE w j).holding_acq = false) :
    inv1 (do_propagation_require_step i w j) := by
  unfold do_propagation_require_step
  dsimp only
  split
  · intro k hk
    have hk' : k < w.svcs.length := by
      have h2 : (require w (getE w j).eto).svcs.length = w.svcs.length :=
        length_svcs_require w _
      have h1 : k < (require w (getE w j).eto).svcs.length := hk
      omega
    have hje : getE (require w (getE w j).eto) j = getE w j :=
      getE_congr (edges_require _ _) j
    have hcnt : cntHold (updE (require w (getE w j).eto) j
            fun e2 => { e2 with holding_acq := true }) k
        = cntHold w k + (if (getE w j).eto == k then 1 else 0) := by
      unfold updE
      rw [cntHold_setE _ j _ (by simpa using hj) k]
      rw [hje, cntHold_edges_eq (edges_require _ _) k, hha]
      cases hc : ((getE w j).eto == k) <;> simp
    have hgs : ∀ m, getS (updE (require w (getE w j).eto) j
            fun e2 => { e2 with holding_acq := true }) m
        = getS (require w (getE w j).eto) m := fun _ => rfl
    rw [hgs, hcnt]
    by_cases hkt : k = (getE w j).eto
    · have hbeq : ((getE w j).eto == k) = true := by simp [hkt]
      rw [hbeq, ← hkt]
      have hreq := getS_require_self w k hk'
      rw [hreq.1, hreq.2]
      have h2 := hw k hk'
      simp
      omega
    · have hc1 : ((getE w j).eto == k) = false := by
        simp
        omega
      rw [hc1]
      rw [getS_require_ne w _ k (fun hc => hkt hc.symm)]
      have h2 := hw k hk'
      simp only [Bool.false_eq_true, if_false]
      omega
  · exact hw

/-- The soft re-attachment iteration of all_deps_started preserves the
activation invariant: the edge's hold and the count rise together. -/
theorem inv1_reattach_step (i : Nat) (w : World) (j : Nat) (hw : inv1 w) :
    inv1 (reattach_step i w j) := by
  unfold reattach_step
  dsimp only
  split
  · exact hw
  · next hcond =>
    have hcond' : (getE w j).eto = i ∧ (getE w j).dep_type.is_hard = false := by
      simpa using hcond
    have heto : (getE w j).eto = i := hcond'.1
    have hj : j < w.edges.length := by
      by_contra hj
      rw [getE_oob w j (Nat.le_of_not_lt hj)] at hcond'
      simp [dependency_type.is_hard] at hcond'
    split
    · next hfl =>
      have hha : (getE w j).holding_acq = false := by
        cases hh : (getE w j).holding_acq with
        | false => rfl
        | true => rw [hh] at hfl; simp at hfl
      intro k hk
      have hk' : k < w.svcs.length := by
        have h1 : (updS (updE w j fun e2 => { e2 with holding_acq := true }) i
              fun t => { t with required_by := t.required_by + 1 }).svcs.length
            = w.svcs.length := by simp [updS, updE]
        omega
      have hcnt : cntHold (updS (updE w j fun e2 => { e2 with holding_acq := true }) i
            fun t => { t with required_by := t.required_by + 1 }) k
          = cntHold w k + (if k = i then 1 else 0) := by
        rw [cntHold_edges_eq (w := updE w j fun e2 => { e2 with holding_acq := true })
              (by simp [updS]) k]
        unfold updE
        rw [cntHold_setE _ j _ hj k, hha, heto]
        by_cases hki : k = i
        · subst hki; simp
        · have hik : (i == k) = false := by simp; omega
          simp [hik, hki]
      by_cases hki : k = i
      · subst hki
        have hlen2 : k < (updE w j fun e2 => { e2 with holding_acq := true }).svcs.length := hk'
        have hgs2 : getS (updS (updE w j fun e2 => { e2 with holding_acq := true }) k
              fun t => { t with required_by := t.required_by + 1 }) k
            = { getS w k with required_by := (getS w k).required_by + 1 } := by
          rw [getS_updS_self _ _ _ hlen2]
          rfl
        rw [hgs2, hcnt, if_pos rfl]
        dsimp only
        have h2 := hw k hk'
        omega
      · have hgs : getS (updS (updE w j fun e2 => { e2 with holding_acq := true }) i
              fun t => { t with required_by := t.required_by + 1 }) k
            = getS w k := by
          rw [getS_updS_ne _ _ _ _ (fun hc => hki hc.symm)]
          rfl
        rw [hgs, hcnt, if_neg hki]
        have h2 := hw k hk'
        omega
    · exact hw

theorem getE_updE_hold {w : World} {j : Nat} {f : dep_edge → dep_edge}
    (hha : ∀ e, (f e).holding_acq = e.holding_acq) (k : Nat) :
    (getE (updE w j f) k).holding_acq = (getE w k).holding_acq := by
  by_cases hjk : j = k
  · subst hjk
    by_cases hj : j < w.edges.length
    · rw [getE_updE_self w j f hj, hha]
    · rw [updE, setE_oob w j _ (Nat.le_of_not_lt hj)]
  · rw [getE_updE_ne w j k f hjk]

@[simp] theorem getE_updE_waiting_eto (w : World) (j k : Nat) :
    (getE (updE w j fun e2 => { e2 with waiting_on := false }) k).eto
      = (getE w k).eto := by
  apply getE_updE_eto
  intro e
  rfl

@[simp] theorem getE_updE_waiting_hold (w : World) (j k : Nat) :
    (getE (updE w j fun e2 => { e2 with waiting_on := false }) k).holding_acq
      = (getE w k).holding_acq := by
  apply getE_updE_hold
  intro e
  rfl

theorem inv1_forced_stop (w : World) (i : Nat) (hw : inv1 w) :
    inv1 (forced_stop w i) := by
  unfold forced_stop
  dsimp only
  split
  · split
    · exact (inv1_add_prop_queue _ _).mpr
        (inv1_updS_frame2 (f := fun t => { t with prop_stop := true })
          (fun _ => rfl) (fun _ => rfl)
          (inv1_updS_frame2 (f := fun t => { t with force_stop := true })
            (fun _ => rfl) (fun _ => rfl) hw))
    · exact inv1_updS_frame2 (f := fun t => { t with force_stop := true })
        (fun _ => rfl) (fun _ => rfl) hw
  · exact hw

theorem inv1_breakHold_if (w1 : World) (j i : Nat) (h1 : inv1 w1)
    (heto : (getE w1 j).eto = i) :
    inv1 (if (getE w1 j).holding_acq then breakHold w1 j i else w1) := by
  split
  · next hha => exact inv1_breakHold w1 j i h1 heto hha
  · exact h1

theorem inv1_fts_dept_step (i : Nat) (w : World) (j : Nat) (hw : inv1 w) :
    inv1 (fts_dept_step i w j) := by
  unfold fts_dept_step
  dsimp only
  split
  · exact hw
  · next hcond =>
    have heto : (getE w j).eto = i := by simpa using hcond
    apply inv1_breakHold_if
    · split <;> split
      <;> first
        | exact hw
        | exact (inv1_add_prop_queue _ _).mpr
            (inv1_updS_frame2 (fun _ => rfl) (fun _ => rfl) hw)
        | exact (inv1_dependency_started_iff _ _).mpr
            (inv1_updE_frame2 (fun _ => rfl) (fun _ => rfl) hw)
    · have hedge1 : ∀ (m : Nat) (f : service → service),
          (add_prop_queue (updS w m f) m).edges = w.edges := by
        intro m f; simp [updS]
      split <;> split
      <;> first
        | exact heto
        | (rw [getE_congr (hedge1 _ _) j]; exact heto)
        | (rw [getE_congr (edges_dependency_started _ _) j, getE_updE_waiting_eto]
           exact heto)

theorem inv1_stopped_softbreak_step (i : Nat) (w : World) (j : Nat) (hw : inv1 w) :
    inv1 (stopped_softbreak_step i w j) := by
  unfold stopped_softbreak_step
  dsimp only
  split
  · exact hw
  · next hcond =>
    have heto : (getE w j).eto = i := by
      have h2 := (by simpa using hcond :
        (getE w j).eto = i ∧ (getE w j).dep_type.is_hard = false)
      exact h2.1
    apply inv1_breakHold_if
    · split
      · exact (inv1_dependency_started_iff _ _).mpr
          (inv1_updE_frame2 (fun _ => rfl) (fun _ => rfl) hw)
      · exact hw
    · split
      · rw [getE_congr (w := updE w j fun e2 => { e2 with waiting_on := false })
              (edges_dependency_started _ _) j, getE_updE_waiting_eto]
        exact heto
      · exact heto

theorem inv1_stopped_depstop_step (i : Nat) (w : World) (j : Nat) (hw : inv1 w) :
    inv1 (stopped_depstop_step i w j) := by
  unfold stopped_depstop_step
  dsimp only
  split
  · exact (inv1_dependent_stopped _ _).mpr hw
  · exact hw

theorem inv1_started_notify_step (i : Nat) (w : World) (j : Nat) (hw : inv1 w) :
    inv1 (started_notify_step i w j) := by
  unfold started_notify_step
  dsimp only
  split
  · exact inv1_updE_frame2 (fun _ => rfl) (fun _ => rfl)
      ((inv1_dependency_started_iff _ _).mpr hw)
  · exact hw

theorem inv1_stop_dependents_step (i : Nat) (acc : World × Bool) (j : Nat)
    (hw : inv1 acc.1) : inv1 (stop_dependents_step i acc j).1 := by
  unfold stop_dependents_step
  dsimp only
  split
  · exact hw
  · next hcond =>
    have heto : (getE acc.1 j).eto = i := by simpa using hcond
    split
    · exact (inv1_add_prop_queue _ _).mpr
        (inv1_updS_frame2 (fun _ => rfl) (fun _ => rfl)
          (by
            split
            · exact inv1_forced_stop _ _ hw
            · exact hw))
    · split
      · split
        · split
          · exact (inv1_add_prop_queue _ _).mpr
              (inv1_updS_frame2 (fun _ => rfl) (fun _ => rfl)
                (inv1_updE_frame2 (fun _ => rfl) (fun _ => rfl) hw))
          · next hsoft hwait hmil =>
            have hha : (getE acc.1 j).holding_acq = true := by
              have h2 := (by simpa using hsoft :
                ((!(getS acc.1 i).auto_restart && !(getS acc.1 i).restarting
                  && !(getE acc.1 j).dep_type.is_hard) = true)
                ∧ (getE acc.1 j).holding_acq = true)
              exact h2.2
            dsimp only
            apply inv1_breakHold
            · exact (inv1_dependency_started_iff _ _).mpr
                (inv1_updE_frame2 (fun _ => rfl) (fun _ => rfl) hw)
            · rw [getE_congr (w := updE acc.1 j fun e2 => { e2 with waiting_on := false })
                    (edges_dependency_started _ _) j, getE_updE_waiting_eto]
              exact heto
            · rw [getE_congr (w := updE acc.1 j fun e2 => { e2 with waiting_on := false })
                    (edges_dependency_started _ _) j, getE_updE_waiting_hold]
              exact hha
        · next hsoft hwait =>
          have hha : (getE acc.1 j).holding_acq = true := by
            have h2 := (by simpa using hsoft :
              ((!(getS acc.1 i).auto_restart && !(getS acc.1 i).restarting
                && !(getE acc.1 j).dep_type.is_hard) = true)
              ∧ (getE acc.1 j).holding_acq = true)
            exact h2.2
          dsimp only
          exact inv1_breakHold _ j i hw heto hha
      · exact hw

theorem inv1_start_check_dependencies_step (i : Nat) (acc : World × Bool) (j : Nat)
    (hw : inv1 acc.1) : inv1 (start_check_dependencies_step i acc j).1 := by
  unfold start_check_dependencies_step
  dsimp only
  split
  · exact hw
  · split
    · dsimp only
      refine inv1_updE_frame2 (fun _ => rfl) (fun _ => rfl) ?_
      split
      · exact (inv1_add_prop_queue _ _).mpr
          (inv1_updS_frame2 (fun _ => rfl) (fun _ => rfl) hw)
      · exact hw
    · exact hw

theorem inv1_foldl {step : World → Nat → World}
    (hstep : ∀ w j, inv1 w → inv1 (step w j)) :
    ∀ (l : List Nat) (w : World), inv1 w → inv1 (l.foldl step w) := by
  intro l
  induction l with
  | nil => intro w hw; exact hw
  | cons x xs ih => intro w hw; exact ih _ (hstep w x hw)

theorem inv1_foldl_pair {step : (World × Bool) → Nat → (World × Bool)}
    (hstep : ∀ acc j, inv1 acc.1 → inv1 (step acc j).1) :
    ∀ (l : List Nat) (acc : World × Bool), inv1 acc.1 → inv1 (l.foldl step acc).1 := by
  intro l
  induction l with
  | nil => intro acc hw; exact hw
  | cons x xs ih => intro acc hw; exact ih _ (hstep acc x hw)

theorem inv1_stop_dependents (w : World) (i : Nat) (hw : inv1 w) :
    inv1 (stop_dependents w i).1 :=
  inv1_foldl_pair (inv1_stop_dependents_step i) _ _ hw

theorem inv1_do_stop (w : World) (i : Nat) (hw : inv1 w) : inv1 (do_stop w i) := by
  unfold do_stop
  dsimp only
  repeat
    first
      | assumption
      | exact inv1_stop_dependents w i hw
      | refine inv1_updS_frame2 (fun _ => rfl) (fun _ => rfl) ?_
      | refine (inv1_add_transition_queue _ _).mpr ?_
      | refine (inv1_notify_listeners _ _ _).mpr ?_
      | refine (inv1_unqueue_console _ _).mpr ?_
      | split

/-- Like `inv1_release_core_over`, for the full `release` (which may also
call `do_stop`, itself invariant-preserving). -/
theorem inv1_release_over (w : World) (i : Nat) (issue_stop : Bool)
    (h : ∀ k, k < w.svcs.length →
      (getS w k).required_by
        = cntHold w k + (if (getS w k).start_explicit then 1 else 0)
          + (if k = i then 1 else 0)) :
    inv1 (release w i issue_stop) := by
  have h1 : inv1 (setS w i { getS w i with required_by := (getS w i).required_by - 1 }) := by
    intro k hk
    rw [length_svcs_setS] at hk
    rw [cntHold_setS]
    by_cases hki : i = k
    · subst hki
      rw [getS_setS_self w i _ hk]
      have h2 := h i hk
      have hik : (if i = i then 1 else 0) = 1 := if_pos rfl
      rw [hik] at h2
      dsimp only
      omega
    · rw [getS_setS_ne w i k _ hki]
      have h2 := h k hk
      have hik : (if k = i then 1 else 0) = 0 := if_neg (fun hc => hki hc.symm)
      rw [hik] at h2
      omega
  unfold release
  dsimp only
  repeat
    first
      | exact h1
      | refine inv1_do_stop _ _ ?_
      | refine inv1_updS_frame2 (fun _ => rfl) (fun _ => rfl) ?_
      | refine (inv1_add_prop_queue _ _).mpr ?_
      | refine (inv1_notify_listeners _ _ _).mpr ?_
      | split

/-- Clearing a held outgoing edge and fully releasing the dependency
preserves the activation invariant. -/
theorem inv1_releasePair (w : World) (j i : Nat) (issue_stop : Bool) (hw : inv1 w)
    (hto : (getE w j).eto = i) (hha : (getE w j).holding_acq = true) :
    inv1 (release (updE w j fun e2 => { e2 with holding_acq := false }) i issue_stop) := by
  by_cases hj : j < w.edges.length
  · apply inv1_release_over
    intro k hk
    have hk' : k < w.svcs.length := hk
    have hgs : ∀ m, getS (updE w j (fun e => { e with holding_acq := false })) m
        = getS w m := fun _ => rfl
    have hcnt : cntHold (updE w j (fun e => { e with holding_acq := false })) k
        = cntHold w k
          - (if (getE w j).eto == k && (getE w j).holding_acq then 1 else 0) := by
      unfold updE
      rw [cntHold_setE w j _ hj k]
      simp
    have hub : (if (getE w j).eto == k && (getE w j).holding_acq then 1 else 0)
        ≤ cntHold w k := by
      have hg : getE w j = w.edges[j] := by
        simp [getE_eq, List.getElem?_eq_getElem hj]
      unfold cntHold
      rw [hg]
      exact List.boole_getElem_le_countP (fun e => e.eto == k && e.holding_acq) w.edges j hj
    rw [hgs, hcnt]
    by_cases hki : k = i
    · subst hki
      have hcond : ((getE w j).eto == k && (getE w j).holding_acq) = true := by
        rw [hto, hha]; simp
      rw [hcond] at hub ⊢
      have h2 := hw k hk'
      have hik : (if k = k then 1 else 0) = 1 := if_pos rfl
      rw [hik]
      simp only [if_pos] at hub ⊢
      omega
    · have hcond : ((getE w j).eto == k && (getE w j).holding_acq) = false := by
        rw [hto, hha]
        simp
        omega
      rw [hcond]
      have h2 := hw k hk'
      have hik : (if k = i then 1 else 0) = 0 := if_neg hki
      rw [hik]
      simp only [Bool.false_eq_true, if_false]
      omega
  · exfalso
    rw [getE_oob w j (Nat.le_of_not_lt hj)] at hha
    simp at hha

theorem inv1_release_dependencies_step (i : Nat) (w : World) (j : Nat) (hw : inv1 w) :
    inv1 (release_dependencies_step i w j) := by
  unfold release_dependencies_step
  dsimp only
  split
  · next hcond =>
    have hha : (getE w j).holding_acq = true := (by simpa using hcond :
      (getE w j).efrom = i ∧ (getE w j).holding_acq = true).2
    exact inv1_releasePair w j (getE w j).eto true hw rfl hha
  · exact hw

theorem inv1_release_dependencies (w : World) (i : Nat) (hw : inv1 w) :
    inv1 (release_dependencies w i) :=
  inv1_foldl (inv1_release_dependencies_step i) _ _ hw

theorem inv1_releaseExplicit (w : World) (i : Nat) (hw : inv1 w) :
    inv1 (releaseExplicit w i) := by
  unfold releaseExplicit
  split
  · next hex => exact inv1_explicit_pair w i hw hex
  · exact hw

theorem inv1_initiate_start (w : World) (i : Nat) (hw : inv1 w) :
    inv1 (initiate_start w i) := by
  unfold initiate_start start_check_dependencies
  dsimp only
  split
  · refine (inv1_add_transition_queue _ _).mpr ?_
    refine inv1_foldl_pair (inv1_start_check_dependencies_step i) _ _ ?_
    exact inv1_updS_frame2 (fun _ => rfl) (fun _ => rfl) hw
  · refine inv1_foldl_pair (inv1_start_check_dependencies_step i) _ _ ?_
    exact inv1_updS_frame2 (fun _ => rfl) (fun _ => rfl) hw

theorem inv1_queue_for_console (w : World) (i : Nat) (hw : inv1 w) :
    inv1 (queue_for_console w i) :=
  (inv1_append_console_queue _ _).mpr
    (inv1_updS_frame2 (fun _ => rfl) (fun _ => rfl) hw)

/-- Taking the explicit user hold in `start()` preserves the invariant:
the count and the `start_explicit` contribution rise together. -/
theorem inv1_start_hold (w : World) (i : Nat) (hw : inv1 w)
    (hex : (getS w i).start_explicit = false) :
    inv1 (setS w i { getS w i with
      required_by := (getS w i).required_by + 1, start_explicit := true }) := by
  intro k hk
  rw [length_svcs_setS] at hk
  rw [cntHold_setS]
  by_cases hki : i = k
  · subst hki
    rw [getS_setS_self w i _ hk]
    have h2 := hw i hk
    rw [hex] at h2
    dsimp only
    simp only [Bool.false_eq_true, if_false, if_pos] at h2 ⊢
    omega
  · rw [getS_setS_ne w i k _ hki]
    exact hw k hk

/-- Dropping the explicit user hold in `stop()` preserves the invariant. -/
theorem inv1_stop_unhold (w : World) (i : Nat) (hw : inv1 w)
    (hex : (getS w i).start_explicit = true) :
    inv1 (setS w i { getS w i with
      start_explicit := false, required_by := (getS w i).required_by - 1 }) := by
  intro k hk
  rw [length_svcs_setS] at hk
  rw [cntHold_setS]
  by_cases hki : i = k
  · subst hki
    rw [getS_setS_self w i _ hk]
    have h2 := hw i hk
    rw [hex] at h2
    dsimp only
    simp only [Bool.false_eq_true, if_false, if_pos] at h2 ⊢
    omega
  · rw [getS_setS_ne w i k _ hki]
    exact hw k hk

theorem inv1_stop (w : World) (i : Nat) (b : Bool) (hw : inv1 w) :
    inv1 (stop w i b) := by
  unfold stop
  dsimp only
  repeat
    first
      | assumption
      | refine inv1_do_stop _ _ ?_
      | refine inv1_updS_frame2 (fun _ => rfl) (fun _ => rfl) ?_
      | refine (inv1_add_prop_queue _ _).mpr ?_
      | (refine inv1_stop_unhold w i hw ?_; assumption)
      | split

theorem inv1_restart (w : World) (i : Nat) (hw : inv1 w) :
    inv1 (restart w i).1 := by
  unfold restart
  dsimp only
  split
  · exact inv1_do_stop _ _ (inv1_updS_frame2 (fun _ => rfl) (fun _ => rfl) hw)
  · exact hw

theorem inv1_setS_frame (w : World) (i : Nat) (s' : service)
    (hrb : s'.required_by = (getS w i).required_by)
    (hex : s'.start_explicit = (getS w i).start_explicit)
    (h : inv1 w) : inv1 (setS w i s') := by
  intro k hk
  rw [length_svcs_setS] at hk
  rw [cntHold_setS]
  by_cases hki : i = k
  · subst hki
    rw [getS_setS_self w i _ hk, hrb, hex]
    exact h i hk
  · rw [getS_setS_ne w i k _ hki]
    exact h k hk

theorem inv1_console_queue_set (w : World) (q : List Nat) :
    inv1 { w with console_queue := q } ↔ inv1 w :=
  inv1_congr rfl rfl

theorem inv1_fts_prelude (w : World) (i : Nat) (hw : inv1 w) :
    inv1 (fts_prelude w i) := by
  unfold fts_prelude
  dsimp only
  refine inv1_releaseExplicit _ _ ?_
  split
  · exact inv1_updS_frame2 (fun _ => rfl) (fun _ => rfl)
      ((inv1_unqueue_console _ _).mpr hw)
  · exact hw

theorem inv1_fts_mark_failed (w : World) (i : Nat) (hw : inv1 w) :
    inv1 (fts_mark_failed w i) :=
  (inv1_notify_listeners _ _ _).mpr
    (inv1_updS_frame2 (fun _ => rfl) (fun _ => rfl) hw)

theorem inv1_stopped_break_deps (w : World) (i : Nat) (b : Bool) (hw : inv1 w) :
    inv1 (stopped_break_deps w i b) := by
  unfold stopped_break_deps
  dsimp only
  refine inv1_updS_frame2 (fun _ => rfl) (fun _ => rfl) ?_
  refine inv1_foldl (inv1_stopped_depstop_step _) _ _ ?_
  split
  · refine inv1_foldl (inv1_stopped_softbreak_step _) _ _ ?_
    exact inv1_updS_frame2 (fun _ => rfl) (fun _ => rfl) hw
  · exact inv1_updS_frame2 (fun _ => rfl) (fun _ => rfl) hw

theorem inv1_stopped_deactivate (w : World) (i : Nat) (hw : inv1 w) :
    inv1 (stopped_deactivate w i) := by
  unfold stopped_deactivate
  simp only [becoming_inactive_eq]
  split
  · next hex => exact inv1_explicit_pair w i hw hex
  · split
    · exact (inv1_service_inactive _ _).mpr hw
    · exact hw

/-- Every function of the fueled call cluster — the public `start`, the
start/stop failure handlers, the started/stopped transitions and the
console grant chain — preserves the activation invariant. -/
theorem inv1_fueled : ∀ fuel : Nat,
    (∀ w i, inv1 w → inv1 (start fuel w i)) ∧
    (∀ w i, inv1 w → inv1 (do_start fuel w i)) ∧
    (∀ w i d m, inv1 w → inv1 (failed_to_start fuel w i d m)) ∧
    (∀ w i, inv1 w → inv1 (stopped fuel w i)) ∧
    (∀ w i, inv1 w → inv1 (started fuel w i)) ∧
    (∀ w i, inv1 w → inv1 (bring_up fuel w i).1) ∧
    (∀ w i, inv1 w → inv1 (all_deps_started fuel w i)) ∧
    (∀ w i, inv1 w → inv1 (acquired_console fuel w i)) ∧
    (∀ w i, inv1 w → inv1 (release_console fuel w i)) ∧
    (∀ w i, inv1 w → inv1 (pull_console_queue fuel w i)) := by
  intro fuel
  induction fuel with
  | zero =>
    exact ⟨fun _ _ h => h, fun _ _ h => h, fun _ _ _ _ h => h, fun _ _ h => h,
           fun _ _ h => h, fun _ _ h => h, fun _ _ h => h, fun _ _ h => h,
           fun _ _ h => h, fun _ _ h => h⟩
  | succ fuel ih =>
    obtain ⟨ihstart, ihdostart, ihfts, ihstopped, ihstarted, ihbringup, ihads,
            ihac, ihrc, ihpull⟩ := ih
    refine ⟨?_, ?_, ?_, ?_, ?_, ?_, ?_, ?_, ?_, ?_⟩
    · -- start
      intro w i hw
      simp only [start]
      try dsimp only
      split
      · exact hw
      · refine ihdostart _ _ ?_
        split
        · next hexp => exact inv1_start_hold w i hw (by simpa using hexp)
        · exact hw
    · -- do_start
      intro w i hw
      simp only [do_start]
      try dsimp only
      split
      · split
        · exact ihfts _ _ _ _ (inv1_setS_frame _ _ _ rfl rfl hw)
        · exact inv1_setS_frame _ _ _ rfl rfl hw
      · split
        · split
          · exact inv1_setS_frame _ _ _ rfl rfl hw
          · split
            · exact inv1_updS_frame2 (fun _ => rfl) (fun _ => rfl)
                (inv1_setS_frame _ _ _ rfl rfl hw)
            · exact inv1_initiate_start _ _
                ((inv1_notify_listeners _ _ _).mpr (inv1_setS_frame _ _ _ rfl rfl hw))
        · refine inv1_initiate_start _ _ ?_
          split
          · exact (inv1_add_prop_queue _ _).mpr
              (inv1_updS_frame2 (fun _ => rfl) (fun _ => rfl)
                ((inv1_service_active _ _).mpr (inv1_setS_frame _ _ _ rfl rfl hw)))
          · exact inv1_updS_frame2 (fun _ => rfl) (fun _ => rfl)
              ((inv1_service_active _ _).mpr (inv1_setS_frame _ _ _ rfl rfl hw))
    · -- failed_to_start
      intro w i d m hw
      simp only [failed_to_start]
      try dsimp only
      have h4 : inv1 (fts_mark_failed
          ((List.range (fts_prelude w i).edges.length).foldl (fts_dept_step i)
            (fts_prelude w i)) i) :=
        inv1_fts_mark_failed _ _
          (inv1_foldl (inv1_fts_dept_step i) _ _ (inv1_fts_prelude _ _ hw))
      split
      · exact ihstopped _ _ h4
      · exact h4
    · -- stopped
      intro w i hw
      have hchain : ∀ (X : World) (b : Bool), inv1 X →
          inv1 (if !(getS X i).start_failed then
              if did_finish (getS X i).stop_reason && get_exit_status X i == 0
                  && !b && (getS X i).start_on_completion != ""
                  && !(is_shutting_down X) then
                match find_service X (getS X i).start_on_completion with
                | some j => start fuel X j
                | none => X
              else X
            else X) := by
        intro X b hX
        split
        · split
          · split
            · exact ihstart _ _ hX
            · exact hX
          · exact hX
        · exact hX
      have hW7 : ∀ (X : World) (b : Bool), inv1 X →
          inv1 (if b then
              initiate_start (updS (stopped_break_deps X i b) i
                fun t => { t with restarting := true }) i
            else stopped_deactivate (stopped_break_deps X i b) i) := by
        intro X b hX
        split
        · exact inv1_initiate_start _ _
            (inv1_updS_frame2 (fun _ => rfl) (fun _ => rfl)
              (inv1_stopped_break_deps _ _ _ hX))
        · exact inv1_stopped_deactivate _ _ (inv1_stopped_break_deps _ _ _ hX)
      simp only [stopped]
      try dsimp only
      refine (inv1_notify_listeners _ _ _).mpr ?_
      refine hchain _ _ ?_
      refine hW7 _ _ ?_
      refine inv1_updS_frame2 (fun _ => rfl) (fun _ => rfl) ?_
      split
      · exact ihrc _ _ hw
      · exact hw
    · -- started
      intro w i hw
      simp only [started]
      try dsimp only
      split <;> split
      <;> first
        | (refine inv1_do_stop _ _ ?_
           refine (inv1_notify_listeners _ _ _).mpr ?_
           refine inv1_updS_frame2 (fun _ => rfl) (fun _ => rfl) ?_
           first
             | exact ihrc _ _ hw
             | exact hw)
        | (refine inv1_foldl (inv1_started_notify_step _) _ _ ?_
           refine (inv1_notify_listeners _ _ _).mpr ?_
           refine inv1_updS_frame2 (fun _ => rfl) (fun _ => rfl) ?_
           first
             | exact ihrc _ _ hw
             | exact hw)
    · -- bring_up
      intro w i hw
      simp only [bring_up]
      exact ihstarted _ _ hw
    · -- all_deps_started
      intro w i hw
      simp only [all_deps_started]
      try dsimp only
      split
      · exact inv1_queue_for_console _ _ hw
      · split
        · exact inv1_updS_frame2 (fun _ => rfl) (fun _ => rfl)
            (inv1_updS_frame2 (fun _ => rfl) (fun _ => rfl) hw)
        · split
          · refine inv1_foldl (inv1_reattach_step _) _ _ ?_
            refine inv1_updS_frame2 (fun _ => rfl) (fun _ => rfl) ?_
            refine ihbringup _ _ ?_
            exact inv1_updS_frame2 (fun _ => rfl) (fun _ => rfl) hw
          · refine ihfts _ _ _ _ ?_
            refine inv1_updS_frame2 (fun _ => rfl) (fun _ => rfl) ?_
            refine ihbringup _ _ ?_
            exact inv1_updS_frame2 (fun _ => rfl) (fun _ => rfl) hw
    · -- acquired_console
      intro w i hw
      simp only [acquired_console]
      try dsimp only
      split
      · exact ihrc _ _ (inv1_updS_frame2 (fun _ => rfl) (fun _ => rfl) hw)
      · split
        · exact ihads _ _ (inv1_updS_frame2 (fun _ => rfl) (fun _ => rfl) hw)
        · exact ihrc _ _ (inv1_updS_frame2 (fun _ => rfl) (fun _ => rfl) hw)
    · -- release_console
      intro w i hw
      simp only [release_console]
      exact ihpull _ _ (inv1_updS_frame2 (fun _ => rfl) (fun _ => rfl) hw)
    · -- pull_console_queue
      intro w i hw
      simp only [pull_console_queue]
      split
      · exact hw
      · exact ihac _ _ ((inv1_console_queue_set _ _).mpr hw)

/-! ### Generic fold reasoning and small frame facts -/

theorem foldl_keep {α : Type} {step : α → Nat → α} (P : α → Prop)
    (hkeep : ∀ a k, P a → P (step a k)) :
    ∀ (l : List Nat) (a : α), P a → P (l.foldl step a) := by
  intro l
  induction l with
  | nil => intro a ha; exact ha
  | cons x xs ih => intro a ha; exact ih _ (hkeep a x ha)

/-- Processing a list of indices containing `j`: if every step before `j`
preserves the precondition, the step at `j` establishes the
postcondition, and every step preserves the postcondition, the fold
establishes the postcondition. -/
theorem foldl_extract {α : Type} {step : α → Nat → α} (Pre Post : α → Prop) (j : Nat)
    (hkeepPre : ∀ a k, k ≠ j → Pre a → Pre (step a k))
    (hstep : ∀ a, Pre a → Post (step a j))
    (hkeepPost : ∀ a k, Post a → Post (step a k)) :
    ∀ (l : List Nat), j ∈ l → ∀ a, Pre a → Post (l.foldl step a) := by
  intro l
  induction l with
  | nil => intro hj; cases hj
  | cons x xs ih =>
    intro hj a ha
    by_cases hxj : x = j
    · subst hxj
      exact foldl_keep Post hkeepPost xs _ (hstep a ha)
    · rcases List.mem_cons.mp hj with hx | hxs
      · exact absurd hx.symm hxj
      · exact ih hxs _ (hkeepPre a x hxj ha)

theorem getS_oob (w : World) (i : Nat) (h : w.svcs.length ≤ i) :
    getS w i = {} := by
  simp [getS_eq, List.getElem?_eq_none h]

theorem mem_add_prop_queue_self (w : World) (i : Nat) :
    i ∈ (add_prop_queue w i).prop_queue := by
  unfold add_prop_queue
  split
  · assumption
  · simp

theorem mem_add_prop_queue_mono (w : World) (i k : Nat)
    (h : k ∈ w.prop_queue) : k ∈ (add_prop_queue w i).prop_queue := by
  unfold add_prop_queue
  split
  · exact h
  · simp [h]

theorem mem_add_transition_queue_self (w : World) (i : Nat) :
    i ∈ (add_transition_queue w i).transition_queue := by
  unfold add_transition_queue
  split
  · assumption
  · simp

theorem mem_add_transition_queue_mono (w : World) (i k : Nat)
    (h : k ∈ w.transition_queue) : k ∈ (add_transition_queue w i).transition_queue := by
  unfold add_transition_queue
  split
  · exact h
  · simp [h]

@[simp] theorem prop_queue_setS (w : World) (i : Nat) (s : service) :
    (setS w i s).prop_queue = w.prop_queue := rfl

@[simp] theorem prop_queue_setE (w : World) (j : Nat) (e : dep_edge) :
    (setE w j e).prop_queue = w.prop_queue := rfl

@[simp] theorem transition_queue_setS (w : World) (i : Nat) (s : service) :
    (setS w i s).transition_queue = w.transition_queue := rfl

@[simp] theorem transition_queue_setE (w : World) (j : Nat) (e : dep_edge) :
    (setE w j e).transition_queue = w.transition_queue := rfl

@[simp] theorem transition_queue_add_prop_queue (w : World) (i : Nat) :
    (add_prop_queue w i).transition_queue = w.transition_queue := by
  unfold add_prop_queue; split <;> rfl

@[simp] theorem prop_queue_add_transition_queue (w : World) (i : Nat) :
    (add_transition_queue w i).prop_queue = w.prop_queue := by
  unfold add_transition_queue; split <;> rfl

@[simp] theorem prop_queue_notify (w : World) (i : Nat) (ev : service_event_t) :
    (notify_listeners w i ev).prop_queue = w.prop_queue := rfl

@[simp] theorem transition_queue_notify (w : World) (i : Nat) (ev : service_event_t) :
    (notify_listeners w i ev).transition_queue = w.transition_queue := rfl

/-! ### Claim C1 -/

/-- **C1** (counterexample): `require()` in isolation does not preserve
the activation equation: on a world of one fresh service satisfying the
invariant, `require` increments `required_by` without touching any edge's
`holding_acq` or `start_explicit` (the matching edge flag is set by the
caller, do_propagation's require loop). -/
theorem c1_counterexample :
    inv1 { svcs := [{}] } ∧ ¬ inv1 (require { svcs := [{}] } 0) := by
  constructor
  · unfold inv1
    decide
  · unfold inv1
    decide

/-- **C1** (amended): between queue drains `required_by = #{incoming
holding_acq edges} + [start_explicit]` is preserved by `start`, `stop`,
`failed_to_start`, `stopped` and `all_deps_started` (soft re-attachment
included); `release(false)` preserves it at each call site that first
clears the released hold's flag — an incoming edge's `holding_acq`
(`breakHold`) or `start_explicit` — and the `prop_require` drain step
preserves it by pairing `require()` with taking `holding_acq` on a
not-yet-held edge. -/
theorem c1_activation_invariant :
    (∀ fuel w i, inv1 w → inv1 (start fuel w i)) ∧
    (∀ w i b, inv1 w → inv1 (stop w i b)) ∧
    (∀ fuel w i d m, inv1 w → inv1 (failed_to_start fuel w i d m)) ∧
    (∀ fuel w i, inv1 w → inv1 (stopped fuel w i)) ∧
    (∀ fuel w i, inv1 w → inv1 (all_deps_started fuel w i)) ∧
    (∀ w j i, inv1 w → (getE w j).eto = i → (getE w j).holding_acq = true →
      inv1 (breakHold w j i)) ∧
    (∀ w i, inv1 w → (getS w i).start_explicit = true →
      inv1 (release_core (updS w i fun t => { t with start_explicit := false }) i)) ∧
    (∀ i w j, inv1 w → j < w.edges.length → (getE w j).holding_acq = false →
      inv1 (do_propagation_require_step i w j)) :=
  ⟨fun fuel => (inv1_fueled fuel).1,
   inv1_stop,
   fun fuel => (inv1_fueled fuel).2.2.1,
   fun fuel => (inv1_fueled fuel).2.2.2.1,
   fun fuel => (inv1_fueled fuel).2.2.2.2.2.2.1,
   inv1_breakHold,
   inv1_explicit_pair,
   inv1_require_step⟩

/-- **C1** witness: the preservation theorem applied at concrete inputs. -/
theorem c1_witness :
    inv1 (start 1 { svcs := [{}] } 0)
    ∧ inv1 (breakHold
        { svcs := [{ required_by := 1 }, {}],
          edges := [{ efrom := 1, eto := 0, dep_type := .WAITS_FOR,
                      holding_acq := true }] } 0 0) :=
  ⟨c1_activation_invariant.1 1 { svcs := [{}] } 0 (by unfold inv1; decide),
   c1_activation_invariant.2.2.2.2.2.1
     { svcs := [{ required_by := 1 }, {}],
       edges := [{ efrom := 1, eto := 0, dep_type := .WAITS_FOR,
                   holding_acq := true }] } 0 0
     (by unfold inv1; decide) (by decide) (by decide)⟩

/-! ### Claim C5 -/

/-- **C5**: `restart()` returns true iff the service is STARTED at call
time; in that case it sets `restarting` and `stop_reason = NORMAL` and
invokes `do_stop()`; from any other state it returns false and leaves the
world unchanged. -/
theorem c5_restart_characterization :
    ∀ w i, ((restart w i).2 = true ↔ (getS w i).service_state = .STARTED)
      ∧ ((getS w i).service_state = .STARTED →
          restart w i = (do_stop (updS w i fun t =>
            { t with restarting := true, stop_reason := .NORMAL }) i, true))
      ∧ ((getS w i).service_state ≠ .STARTED → restart w i = (w, false)) := by
  intro w i
  by_cases h : (getS w i).service_state = .STARTED
  · have hb : ((getS w i).service_state == service_state_t.STARTED) = true := by
      simp [h]
    unfold restart
    dsimp only
    rw [hb, if_pos rfl]
    exact ⟨⟨fun _ => h, fun _ => rfl⟩, fun _ => rfl, fun hc => absurd h hc⟩
  · have hb : ((getS w i).service_state == service_state_t.STARTED) = false := by
      simp [h]
    unfold restart
    dsimp only
    rw [hb, if_neg (by decide)]
    refine ⟨⟨fun hff => absurd hff (by simp), fun hs => absurd hs h⟩,
            fun hs => absurd hs h, fun _ => rfl⟩

/-- **C5** witness. -/
theorem c5_witness :
    (restart { svcs := [{ service_state := .STARTED }] } 0).2 = true
    ∧ restart { svcs := [{}] } 0 = ({ svcs := [{}] }, false) :=
  ⟨(c5_restart_characterization { svcs := [{ service_state := .STARTED }] } 0).1.mpr
     (by decide),
   (c5_restart_characterization { svcs := [{}] } 0).2.2 (by decide)⟩

/-! ### Claim C9 -/

/-- **C9**: with `pinned_started` set, `do_stop` returns the world
completely unchanged (no field, queue or event); consequently the
stop-initiating entry points `stop`, `restart` and `forced_stop` leave a
pinned STARTED service in the STARTED state. -/
theorem c9_pinned_do_stop :
    ∀ w i b, (getS w i).pinned_started = true →
      do_stop w i = w
      ∧ ((getS w i).service_state = .STARTED →
          (getS (stop w i b) i).service_state = .STARTED
          ∧ (getS (restart w i).1 i).service_state = .STARTED
          ∧ (getS (forced_stop w i) i).service_state = .STARTED) := by
  intro w i b hp
  have hi : i < w.svcs.length := by
    by_contra hni
    rw [getS_oob w i (Nat.le_of_not_lt hni)] at hp
    simp at hp
  constructor
  · unfold do_stop
    rw [if_pos hp]
  · intro hs
    refine ⟨?_, ?_, ?_⟩
    · -- stop
      unfold stop
      dsimp only
      split
      · next hexp =>
        have hlen1 : i < (setS w i { getS w i with
            start_explicit := false, required_by := (getS w i).required_by - 1 }).svcs.length := by
          simpa using hi
        have e1 : getS (updS (setS w i { getS w i with
              start_explicit := false, required_by := (getS w i).required_by - 1 }) i
              fun t => { t with desired_state := .STOPPED }) i
            = { getS w i with
                start_explicit := false, required_by := (getS w i).required_by - 1, desired_state := .STOPPED } := by
          rw [getS_updS_self _ _ _ hlen1, getS_setS_self _ _ _ hi]
        have hc : ({ getS w i with
            start_explicit := false, required_by := (getS w i).required_by - 1, desired_state := .STOPPED } : service).pinned_started = true := hp
        rw [e1, if_pos hc]
        rw [e1]
        exact hs
      · have e1 : getS (updS w i fun t => { t with desired_state := .STOPPED }) i
            = { getS w i with desired_state := .STOPPED } := by
          rw [getS_updS_self _ _ _ hi]
        have hc : ({ getS w i with desired_state := .STOPPED } : service).pinned_started = true := hp
        rw [e1, if_pos hc]
        rw [e1]
        exact hs
    · -- restart
      unfold restart
      dsimp only
      have hb : ((getS w i).service_state == service_state_t.STARTED) = true := by
        simp [hs]
      rw [hb, if_pos rfl]
      dsimp only
      have e1 : getS (updS w i fun t => { t with restarting := true, stop_reason := stopped_reason_t.NORMAL }) i
          = { getS w i with restarting := true, stop_reason := .NORMAL } := by
        rw [getS_updS_self _ _ _ hi]
      unfold do_stop
      rw [if_pos (by rw [e1]; exact hp)]
      rw [e1]
      exact hs
    · -- forced_stop
      unfold forced_stop
      dsimp only
      have hne : ((getS w i).service_state != service_state_t.STOPPED) = true := by
        rw [hs]; decide
      rw [if_pos hne]
      have hnp : ¬ ((!(getS w i).pinned_started) = true) := by
        rw [hp]; decide
      rw [if_neg hnp]
      rw [getS_setS_self _ _ _ hi]
      exact hs

/-- **C9** witness. -/
theorem c9_witness :
    do_stop { svcs := [{ service_state := .STARTED, pinned_started := true }] } 0
      = { svcs := [{ service_state := .STARTED, pinned_started := true }] }
    ∧ (getS (stop { svcs := [{ service_state := .STARTED, pinned_started := true }] }
        0 true) 0).service_state = .STARTED :=
  ⟨(c9_pinned_do_stop _ 0 true (by decide)).1,
   ((c9_pinned_do_stop { svcs := [{ service_state := .STARTED, pinned_started := true }] }
      0 true (by decide)).2 (by decide)).1⟩

/-! ### Claim C6 -/

/-- **C6** (counterexample): on a STOPPED service with `required_by = 1`,
`require()` increments the count but does not flag `prop_start` and does
not enqueue — the enqueue is guarded by `required_by++ == 0`, i.e. it
happens only when the previous count was zero, contradicting the claim's
"regardless of the previous value of required_by". -/
theorem c6_counterexample :
    (getS (require { svcs := [{ required_by := 1 }] } 0) 0).required_by = 2
    ∧ (getS (require { svcs := [{ required_by := 1 }] } 0) 0).prop_start = false
    ∧ (require { svcs := [{ required_by := 1 }] } 0).prop_queue = [] := by
  decide

/-- **C6** (amended): `require()` increments `required_by`; it flags
`prop_start` and enqueues the service exactly when the previous count was
zero and the service is not already STARTING or STARTED; otherwise
`prop_start` and the propagation queue are unchanged. -/
theorem c6_require :
    ∀ w i, i < w.svcs.length →
      ((getS (require w i) i).required_by = (getS w i).required_by + 1)
      ∧ ((getS w i).required_by = 0 →
          (getS w i).service_state ≠ .STARTING →
          (getS w i).service_state ≠ .STARTED →
          (getS (require w i) i).prop_start = true ∧ i ∈ (require w i).prop_queue)
      ∧ ((getS w i).required_by ≠ 0 →
          (getS (require w i) i).prop_start = (getS w i).prop_start
          ∧ (require w i).prop_queue = w.prop_queue) := by
  intro w i hi
  refine ⟨(getS_require_self w i hi).1, ?_, ?_⟩
  · intro hz hns hnd
    have hbz : ((getS w i).required_by == 0) = true := by simp [hz]
    unfold require
    dsimp only
    rw [hbz, if_pos rfl]
    have hbs1 : ((getS w i).service_state != service_state_t.STARTING) = true := by
      rw [bne_iff_ne]
      exact hns
    have hbs2 : ((getS w i).service_state != service_state_t.STARTED) = true := by
      rw [bne_iff_ne]
      exact hnd
    rw [hbs1, hbs2]
    rw [if_pos (by decide)]
    constructor
    · rw [getS_congr (svcs_add_prop_queue _ _) i, updS,
          getS_setS_self _ _ _ (by simpa using hi),
          getS_setS_self _ _ _ hi]
    · exact mem_add_prop_queue_self _ i
  · intro hnz
    have hbz : ((getS w i).required_by == 0) = false := by simp [hnz]
    unfold require
    dsimp only
    rw [hbz, if_neg (by decide)]
    constructor
    · rw [getS_setS_self _ _ _ hi]
    · rfl

/-- **C6** witness. -/
theorem c6_witness :
    (getS (require { svcs := [{}] } 0) 0).required_by = 1
    ∧ (getS (require { svcs := [{}] } 0) 0).prop_start = true
    ∧ 0 ∈ (require { svcs := [{}] } 0).prop_queue :=
  ⟨(c6_require { svcs := [{}] } 0 (by decide)).1,
   ((c6_require { svcs := [{}] } 0 (by decide)).2.1 (by decide) (by decide)
      (by decide)).1,
   ((c6_require { svcs := [{}] } 0 (by decide)).2.1 (by decide) (by decide)
      (by decide)).2⟩

/-! ### Claim C3 -/

/-- Spec-side (§4.2): consume `prop_require` — require() on every
dependency, taking hold of each outgoing edge; the bit is cleared when
consumed. -/
def spec_require_step (w : World) (i : Nat) : World :=
  if (getS w i).prop_require then
    updS ((List.range w.edges.length).foldl (do_propagation_require_step i) w) i
      fun t => { t with prop_require := false }
  else w

/-- Spec-side (§4.2): consume `prop_release` — call release_dependencies;
the bit is cleared when consumed. -/
def spec_release_step (w : World) (i : Nat) : World :=
  if (getS w i).prop_release then
    updS (release_dependencies w i) i fun t => { t with prop_release := false }
  else w

/-- Spec-side (§4.2, §7): consume `prop_failure` — set `stop_reason =
DEPFAILED` and call `failed_to_start(true)`; the bit is cleared when
consumed. -/
def spec_failure_step (fuel : Nat) (w : World) (i : Nat) : World :=
  if (getS w i).prop_failure then
    failed_to_start fuel
      (updS w i fun t => { t with prop_failure := false, stop_reason := .DEPFAILED })
      i true true
  else w

/-- Spec-side (§4.2): consume `prop_start` — call do_start; the bit is
cleared when consumed. -/
def spec_start_step (fuel : Nat) (w : World) (i : Nat) : World :=
  if (getS w i).prop_start then
    do_start fuel (updS w i fun t => { t with prop_start := false }) i
  else w

/-- Spec-side (§4.2): consume `prop_stop` — call do_stop; the bit is
cleared when consumed. -/
def spec_stop_step (fuel : Nat) (w : World) (i : Nat) : World :=
  if (getS w i).prop_stop then
    do_stop (updS w i fun t => { t with prop_stop := false }) i
  else w

/-- **C3**: `do_propagation` factors into the five consumption steps in
the fixed order require → release → failure → start → stop, each step as
the spec describes it; moreover the require and release bits are indeed
clear once their step has run (nothing in the require walk re-sets
`prop_require`, and the release bit is cleared after the walk). -/
theorem c3_do_propagation_order :
    ∀ fuel w i,
      do_propagation fuel w i
        = spec_stop_step fuel (spec_start_step fuel (spec_failure_step fuel
            (spec_release_step (spec_require_step w i) i) i) i) i
      ∧ (getS (spec_require_step w i) i).prop_require = false
      ∧ (getS (spec_release_step w i) i).prop_release = false := by
  intro fuel w i
  refine ⟨rfl, ?_, ?_⟩
  · unfold spec_require_step
    split
    · by_cases hlen : i < ((List.range w.edges.length).foldl
          (do_propagation_require_step i) w).svcs.length
      · rw [getS_updS_self _ _ _ hlen]
      · rw [updS, setS_oob _ _ _ (Nat.le_of_not_lt hlen),
            getS_oob _ _ (Nat.le_of_not_lt hlen)]
    · next hnr => simpa using hnr
  · unfold spec_release_step
    split
    · by_cases hlen : i < (release_dependencies w i).svcs.length
      · rw [getS_updS_self _ _ _ hlen]
      · rw [updS, setS_oob _ _ _ (Nat.le_of_not_lt hlen),
            getS_oob _ _ (Nat.le_of_not_lt hlen)]
    · next hnr => simpa using hnr

/-! ### Claim C10 -/

@[simp] theorem active_setS (w : World) (i : Nat) (s : service) :
    (setS w i s).active_services = w.active_services := rfl

@[simp] theorem active_setE (w : World) (j : Nat) (e : dep_edge) :
    (setE w j e).active_services = w.active_services := rfl

@[simp] theorem active_add_prop_queue (w : World) (i : Nat) :
    (add_prop_queue w i).active_services = w.active_services := by
  unfold add_prop_queue; split <;> rfl

@[simp] theorem active_add_transition_queue (w : World) (i : Nat) :
    (add_transition_queue w i).active_services = w.active_services := by
  unfold add_transition_queue; split <;> rfl

theorem mem_prop_queue_add_ne (w : World) (k i : Nat) (hne : k ≠ i) :
    i ∈ (add_prop_queue w k).prop_queue ↔ i ∈ w.prop_queue := by
  unfold add_prop_queue
  split
  · exact Iff.rfl
  · simp
    omega

/-- The record fields `initiate_start` writes on the starting service
(service.cc lines 205-211). -/
def starting_mark (s : service) : service :=
  { s with start_failed := false, start_skipped := false, service_state := .STARTING, waiting_for_deps := true }

/-- `initiate_start` leaves the starting service's `prop_require` and
`prop_release` bits, the active-service counter, and the service's own
propagation-queue membership unchanged (its dependency walk only flags
other records, because the service itself is already STARTING). -/
theorem initiate_start_c10 (w : World) (i : Nat) (hi : i < w.svcs.length) :
    (getS (initiate_start w i) i).prop_require = (getS w i).prop_require
    ∧ (getS (initiate_start w i) i).prop_release = (getS w i).prop_release
    ∧ (initiate_start w i).active_services = w.active_services
    ∧ (i ∈ (initiate_start w i).prop_queue ↔ i ∈ w.prop_queue) := by
  unfold initiate_start start_check_dependencies
  dsimp only
  have hP : ∀ (acc : World × Bool) (k : Nat),
      (getS acc.1 i = starting_mark (getS w i)
        ∧ acc.1.active_services = w.active_services
        ∧ (i ∈ acc.1.prop_queue ↔ i ∈ w.prop_queue)) →
      (getS (start_check_dependencies_step i acc k).1 i = starting_mark (getS w i)
        ∧ (start_check_dependencies_step i acc k).1.active_services = w.active_services
        ∧ (i ∈ (start_check_dependencies_step i acc k).1.prop_queue ↔ i ∈ w.prop_queue)) := by
    intro acc k hacc
    obtain ⟨hrec, hact, hq⟩ := hacc
    have hsvE : ∀ (X : World) (j : Nat) (f : dep_edge → dep_edge),
        (updE X j f).svcs = X.svcs := fun _ _ _ => rfl
    have hacEq : ∀ (X : World) (j : Nat) (f : dep_edge → dep_edge),
        (updE X j f).active_services = X.active_services := fun _ _ _ => rfl
    have hpqE : ∀ (X : World) (j : Nat) (f : dep_edge → dep_edge),
        (updE X j f).prop_queue = X.prop_queue := fun _ _ _ => rfl
    unfold start_check_dependencies_step
    dsimp only
    split
    · exact ⟨hrec, hact, hq⟩
    · split
      · dsimp only
        by_cases hti : (getE acc.1 k).eto = i
        · have hst : (getS acc.1 (getE acc.1 k).eto).service_state = .STARTING := by
            rw [hti, hrec]
            rfl
          have hcne : ¬ (((getS acc.1 (getE acc.1 k).eto).service_state
              != service_state_t.STARTING) = true) := by
            rw [hst]; decide
          rw [if_neg hcne]
          refine ⟨?_, hact, hq⟩
          rw [getS_congr (hsvE _ _ _) i]
          exact hrec
        · split
          · refine ⟨?_, ?_, ?_⟩
            · rw [getS_congr (hsvE _ _ _) i,
                  getS_congr (svcs_add_prop_queue _ _) i,
                  getS_updS_ne _ _ _ _ hti]
              exact hrec
            · rw [hacEq _ _ _, active_add_prop_queue]
              exact hact
            · rw [hpqE _ _ _, mem_prop_queue_add_ne _ _ _ hti]
              exact hq
          · refine ⟨?_, hact, hq⟩
            rw [getS_congr (hsvE _ _ _) i]
            exact hrec
      · exact ⟨hrec, hact, hq⟩
  have hbase : getS (updS w i fun t =>
      { t with start_failed := false, start_skipped := false,
               service_state := .STARTING, waiting_for_deps := true }) i
      = starting_mark (getS w i) :=
    getS_updS_self w i _ hi
  have hfold := foldl_keep
    (fun acc : World × Bool =>
      getS acc.1 i = starting_mark (getS w i)
        ∧ acc.1.active_services = w.active_services
        ∧ (i ∈ acc.1.prop_queue ↔ i ∈ w.prop_queue))
    (fun acc k hacc => hP acc k hacc)
    (List.range (updS w i fun t =>
      { t with start_failed := false, start_skipped := false,
               service_state := .STARTING, waiting_for_deps := true }).edges.length)
    (updS w i fun t =>
      { t with start_failed := false, start_skipped := false,
               service_state := .STARTING, waiting_for_deps := true }, true)
    ⟨hbase, rfl, Iff.rfl⟩
  obtain ⟨hrec, hact, hq⟩ := hfold
  split
  · refine ⟨?_, ?_, ?_, ?_⟩
    · rw [getS_congr (svcs_add_transition_queue _ _) i, hrec]
      rfl
    · rw [getS_congr (svcs_add_transition_queue _ _) i, hrec]
      rfl
    · rw [active_add_transition_queue]
      exact hact
    · rw [show ∀ (X : World) (m : Nat),
          (add_transition_queue X m).prop_queue = X.prop_queue from
          fun _ _ => prop_queue_add_transition_queue _ _]
      exact hq
  · exact ⟨by rw [hrec]; rfl, by rw [hrec]; rfl, hact, hq⟩

/-- **C10**: on a STOPPED, not pinned-stopped service, `do_start` cancels
a pending release symmetrically to release's rule: `prop_require` becomes
the negation of the prior `prop_release`, `prop_release` is cleared, the
service is enqueued on the propagation queue exactly when the resulting
`prop_require` is true (or it was already queued), and `service_active`
marks the service active exactly once. -/
theorem c10_do_start_stopped :
    ∀ fuel w i, i < w.svcs.length →
      (getS w i).service_state = .STOPPED →
      (getS w i).pinned_stopped = false →
      (getS (do_start (fuel+1) w i) i).prop_require = !(getS w i).prop_release
      ∧ (getS (do_start (fuel+1) w i) i).prop_release = false
      ∧ (i ∈ (do_start (fuel+1) w i).prop_queue ↔
          ((getS w i).prop_release = false ∨ i ∈ w.prop_queue))
      ∧ (do_start (fuel+1) w i).active_services = w.active_services + 1 := by
  intro fuel w i hi hst hnp
  simp only [do_start]
  try dsimp only
  rw [if_neg (by rw [hnp]; decide)]
  rw [if_neg (by rw [hst]; decide)]
  have hrec3 : getS (updS (service_active (setS w i { getS w i with desired_state := .STARTED }) i) i
        fun t => { t with prop_require := !(getS w i).prop_release, prop_release := false }) i
      = { getS w i with desired_state := .STARTED, prop_require := !(getS w i).prop_release, prop_release := false } := by
    rw [getS_updS_self _ _ _ (by simpa using hi),
        getS_congr (svcs_service_active _ _) i, getS_setS_self _ _ _ hi]
  by_cases hpr : (getS w i).prop_release = true
  · have hprb : (!(getS w i).prop_release) = false := by rw [hpr]; decide
    rw [hprb]
    rw [if_neg (by decide)]
    have hlen3 : i < (updS (service_active (setS w i { getS w i with desired_state := .STARTED }) i) i
        fun t => { t with prop_require := false, prop_release := false }).svcs.length := by
      simpa [updS] using hi
    have hinit := initiate_start_c10 _ i hlen3
    rw [hprb] at hrec3
    refine ⟨?_, ?_, ?_, ?_⟩
    · rw [hinit.1, hrec3]
    · rw [hinit.2.1, hrec3]
    · rw [hinit.2.2.2]
      have hq0 : (updS (service_active (setS w i { getS w i with desired_state := .STARTED }) i) i
          fun t => { t with prop_require := false, prop_release := false }).prop_queue
          = w.prop_queue := rfl
      rw [hq0, hpr]
      simp
    · rw [hinit.2.2.1]
      rfl
  · have hpr' : (getS w i).prop_release = false := by
      cases hc : (getS w i).prop_release
      · rfl
      · exact absurd hc hpr
    have hprb : (!(getS w i).prop_release) = true := by rw [hpr']; decide
    rw [hprb]
    rw [if_pos rfl]
    have hlen3 : i < (add_prop_queue (updS (service_active (setS w i { getS w i with desired_state := .STARTED }) i) i
        fun t => { t with prop_require := true, prop_release := false }) i).svcs.length := by
      simpa [updS] using hi
    have hinit := initiate_start_c10 _ i hlen3
    rw [hprb] at hrec3
    refine ⟨?_, ?_, ?_, ?_⟩
    · rw [hinit.1, getS_congr (svcs_add_prop_queue _ _) i, hrec3]
    · rw [hinit.2.1, getS_congr (svcs_add_prop_queue _ _) i, hrec3]
    · rw [hinit.2.2.2]
      constructor
      · intro _
        exact Or.inl hpr'
      · intro _
        exact mem_add_prop_queue_self _ i
    · rw [hinit.2.2.1, active_add_prop_queue]
      rfl

/-- **C10** witness. -/
theorem c10_witness :
    (getS (do_start 1 { svcs := [{}] } 0) 0).prop_require = true
    ∧ (do_start 1 { svcs := [{}] } 0).active_services = 1 :=
  ⟨(c10_do_start_stopped 0 { svcs := [{}] } 0 (by decide) (by decide) (by decide)).1,
   (c10_do_start_stopped 0 { svcs := [{}] } 0 (by decide) (by decide)
      (by decide)).2.2.2⟩

/-! ### Claim C2 -/

@[simp] theorem getS_notify_listeners (w : World) (i : Nat) (ev : service_event_t) (k : Nat) :
    getS (notify_listeners w i ev) k = getS w k := rfl

@[simp] theorem getS_add_prop_queue (w : World) (i k : Nat) :
    getS (add_prop_queue w i) k = getS w k := getS_congr (svcs_add_prop_queue w i) k

@[simp] theorem getS_add_transition_queue (w : World) (i k : Nat) :
    getS (add_transition_queue w i) k = getS w k := getS_congr (svcs_add_transition_queue w i) k

@[simp] theorem getS_dependency_started (w : World) (i k : Nat) :
    getS (dependency_started w i) k = getS w k := getS_congr (svcs_dependency_started w i) k

@[simp] theorem getS_unqueue_console (w : World) (i k : Nat) :
    getS (unqueue_console w i) k = getS w k := rfl

@[simp] theorem getS_updE (w : World) (j : Nat) (f : dep_edge → dep_edge) (k : Nat) :
    getS (updE w j f) k = getS w k := rfl

@[simp] theorem getE_setS (w : World) (i : Nat) (s : service) (j : Nat) :
    getE (setS w i s) j = getE w j := rfl

@[simp] theorem getE_updS (w : World) (i : Nat) (f : service → service) (j : Nat) :
    getE (updS w i f) j = getE w j := rfl

@[simp] theorem getE_notify_listeners (w : World) (i : Nat) (ev : service_event_t) (j : Nat) :
    getE (notify_listeners w i ev) j = getE w j := rfl

@[simp] theorem getE_unqueue_console (w : World) (i j : Nat) :
    getE (unqueue_console w i) j = getE w j := rfl

@[simp] theorem getE_add_prop_queue (w : World) (i j : Nat) :
    getE (add_prop_queue w i) j = getE w j := getE_congr (edges_add_prop_queue w i) j

@[simp] theorem getE_add_transition_queue (w : World) (i j : Nat) :
    getE (add_transition_queue w i) j = getE w j := getE_congr (edges_add_transition_queue w i) j

@[simp] theorem getE_dependency_started (w : World) (i j : Nat) :
    getE (dependency_started w i) j = getE w j := getE_congr (edges_dependency_started w i) j

theorem updS_oob (w : World) (i : Nat) (g : service → service)
    (h : w.svcs.length ≤ i) : updS w i g = w := by
  unfold updS setS
  rw [List.set_eq_of_length_le h]

theorem updE_oob (w : World) (j : Nat) (g : dep_edge → dep_edge)
    (h : w.edges.length ≤ j) : updE w j g = w := by
  unfold updE setE
  rw [List.set_eq_of_length_le h]

theorem getS_release_core_ne (w : World) (i f : Nat) (hne : i ≠ f) :
    getS (release_core w i) f = getS w f := by
  unfold release_core
  dsimp only
  repeat' split
  all_goals simp [getS_updS_ne _ _ _ _ hne, getS_setS_ne _ _ _ _ hne]

theorem edges_release_core (w : World) (i : Nat) :
    (release_core w i).edges = w.edges := by
  unfold release_core
  dsimp only
  repeat' split
  all_goals simp [updS, setS]

theorem getE_release_core (w : World) (i j : Nat) :
    getE (release_core w i) j = getE w j := getE_congr (edges_release_core w i) j

theorem svcs_length_release_core (w : World) (i : Nat) :
    (release_core w i).svcs.length = w.svcs.length := by
  unfold release_core
  dsimp only
  repeat' split
  all_goals simp [updS, setS]

theorem transition_queue_release_core (w : World) (i : Nat) :
    (release_core w i).transition_queue = w.transition_queue := by
  unfold release_core
  dsimp only
  repeat' split
  all_goals simp [updS, setS]

theorem mem_prop_queue_release_core (w : World) (i m : Nat)
    (h : m ∈ w.prop_queue) : m ∈ (release_core w i).prop_queue := by
  unfold release_core
  dsimp only
  repeat' split
  all_goals first
    | exact h
    | exact mem_add_prop_queue_mono _ _ _ h

theorem getS_breakHold_ne (w : World) (j i f : Nat) (hne : i ≠ f) :
    getS (breakHold w j i) f = getS w f :=
  getS_release_core_ne (updE w j fun e => { e with holding_acq := false }) i f hne

theorem getE_breakHold_ne (w : World) (j i k : Nat) (hjk : j ≠ k) :
    getE (breakHold w j i) k = getE w k := by
  unfold breakHold
  rw [getE_release_core, getE_updE_ne _ _ _ _ hjk]

theorem waiting_breakHold (w : World) (k i j : Nat) :
    (getE (breakHold w k i) j).waiting_on = (getE w j).waiting_on := by
  unfold breakHold
  rw [getE_release_core]
  by_cases hkj : k = j
  · subst hkj
    by_cases hk : k < w.edges.length
    · rw [getE_updE_self _ _ _ hk]
    · rw [updE_oob _ _ _ (Nat.le_of_not_lt hk)]
  · rw [getE_updE_ne _ _ _ _ hkj]

theorem svcs_length_breakHold (w : World) (j i : Nat) :
    (breakHold w j i).svcs.length = w.svcs.length :=
  svcs_length_release_core _ _

theorem edges_length_breakHold (w : World) (j i : Nat) :
    (breakHold w j i).edges.length = w.edges.length := by
  unfold breakHold
  rw [edges_release_core]
  simp [updE, setE]

theorem transition_queue_breakHold (w : World) (j i : Nat) :
    (breakHold w j i).transition_queue = w.transition_queue :=
  transition_queue_release_core _ _

theorem mem_prop_queue_breakHold (w : World) (j i m : Nat)
    (h : m ∈ w.prop_queue) : m ∈ (breakHold w j i).prop_queue :=
  mem_prop_queue_release_core _ _ _ h

theorem prop_queue_dependency_started (w : World) (i : Nat) :
    (dependency_started w i).prop_queue = w.prop_queue := by
  unfold dependency_started
  dsimp only
  split
  · exact prop_queue_add_transition_queue _ _
  · rfl

theorem mem_transition_queue_dependency_started (w : World) (i m : Nat)
    (h : m ∈ w.transition_queue) : m ∈ (dependency_started w i).transition_queue := by
  unfold dependency_started
  dsimp only
  split
  · exact mem_add_transition_queue_mono _ _ _ h
  · exact h

theorem getS_fts_prelude_ne (w : World) (i f : Nat) (hne : i ≠ f) :
    getS (fts_prelude w i) f = getS w f := by
  unfold fts_prelude releaseExplicit
  dsimp only
  repeat' split
  all_goals simp [getS_release_core_ne _ _ _ hne, getS_updS_ne _ _ _ _ hne]

theorem edges_fts_prelude (w : World) (i : Nat) :
    (fts_prelude w i).edges = w.edges := by
  unfold fts_prelude releaseExplicit
  dsimp only
  repeat' split
  all_goals simp [edges_release_core, updS, setS]

theorem getE_fts_prelude (w : World) (i j : Nat) :
    getE (fts_prelude w i) j = getE w j := getE_congr (edges_fts_prelude w i) j

theorem svcs_length_fts_prelude (w : World) (i : Nat) :
    (fts_prelude w i).svcs.length = w.svcs.length := by
  unfold fts_prelude releaseExplicit
  dsimp only
  repeat' split
  all_goals simp [svcs_length_release_core, updS, setS]

theorem getS_fts_mark_failed_ne (w : World) (i f : Nat) (hne : i ≠ f) :
    getS (fts_mark_failed w i) f = getS w f := by
  unfold fts_mark_failed
  rw [getS_notify_listeners, getS_updS_ne _ _ _ _ hne]

theorem hard_cases (dt : dependency_type) (h : dt.is_hard = true) :
    dt = .REGULAR ∨ dt = .MILESTONE := by
  cases dt
  · exact Or.inl rfl
  · exact Or.inr rfl
  · exact absurd h (by decide)
  · exact absurd h (by decide)

theorem soft_cases (dt : dependency_type) (h : dt.is_hard = false) :
    dt = .WAITS_FOR ∨ dt = .SOFT := by
  cases dt
  · exact absurd h (by decide)
  · exact absurd h (by decide)
  · exact Or.inl rfl
  · exact Or.inr rfl

/-- The per-service facts preserved by every iteration of
failed_to_start's dependent-cancellation loop, stated for a fixed
service `f` relative to a base world `wa`: its lifecycle state and
`waiting_for_deps` flag are unchanged, `prop_failure` can only be raised,
and if `f` is not STARTING its whole record is untouched. -/
def c2frame (wa : World) (f : Nat) (X : World) : Prop :=
  (getS X f).service_state = (getS wa f).service_state
  ∧ (getS X f).waiting_for_deps = (getS wa f).waiting_for_deps
  ∧ ((getS wa f).prop_failure = true → (getS X f).prop_failure = true)
  ∧ ((getS wa f).service_state ≠ .STARTING → getS X f = getS wa f)

theorem c2frame_of_eq (wa X : World) (f : Nat) (h : getS X f = getS wa f) :
    c2frame wa f X :=
  ⟨by rw [h], by rw [h], fun hp => by rw [h]; exact hp, fun _ => h⟩

theorem c2frame_rfl (wa : World) (f : Nat) : c2frame wa f wa :=
  c2frame_of_eq wa wa f rfl

theorem c2frame_comp (wa X Y : World) (f : Nat)
    (h1 : c2frame wa f X) (h2 : c2frame X f Y) : c2frame wa f Y := by
  obtain ⟨a1, a2, a3, a4⟩ := h1
  obtain ⟨b1, b2, b3, b4⟩ := h2
  refine ⟨b1.trans a1, b2.trans a2, fun h => b3 (a3 h), fun hne => ?_⟩
  have hx := a4 hne
  have hX : (getS X f).service_state ≠ .STARTING := by rw [a1]; exact hne
  rw [b4 hX, hx]

theorem fts_dept_step_sframe (i : Nat) (wa : World) (k f : Nat) (hfi : f ≠ i) :
    c2frame wa f (fts_dept_step i wa k) := by
  have hfi2 : i ≠ f := fun h => hfi h.symm
  unfold fts_dept_step
  dsimp only
  split
  · exact c2frame_rfl wa f
  · have hM : ∀ M : World, c2frame wa f M →
        c2frame wa f (if (getE M k).holding_acq then breakHold M k i else M) := by
      intro M hMp
      split
      · exact c2frame_comp wa M _ f hMp
          (c2frame_of_eq M _ f (getS_breakHold_ne M k i f hfi2))
      · exact hMp
    refine hM _ ?_
    have hhard : c2frame wa f
        (if ((getS wa (getE wa k).efrom).service_state == service_state_t.STARTING) = true then
          add_prop_queue
            (updS wa (getE wa k).efrom fun t => { t with prop_failure := true })
            (getE wa k).efrom
        else wa) := by
      split
      · rename_i hcond
        by_cases hef : (getE wa k).efrom = f
        · subst hef
          rcases Nat.lt_or_ge (getE wa k).efrom wa.svcs.length with hlt | hge
          · refine ⟨?_, ?_, ?_, ?_⟩
            · rw [getS_add_prop_queue, getS_updS_self _ _ _ hlt]
            · rw [getS_add_prop_queue, getS_updS_self _ _ _ hlt]
            · intro h
              rw [getS_add_prop_queue, getS_updS_self _ _ _ hlt]
            · intro hne
              exact absurd (by simpa using hcond) hne
          · rw [updS_oob _ _ _ hge]
            exact c2frame_of_eq wa _ _ (getS_add_prop_queue wa _ _)
        · refine c2frame_of_eq wa _ f ?_
          rw [getS_add_prop_queue, getS_updS_ne _ _ _ _ hef]
      · exact c2frame_rfl wa f
    have hsoft : ∀ b : Bool, c2frame wa f
        (if b = true then
          dependency_started (updE wa k fun e2 => { e2 with waiting_on := false })
            (getE wa k).efrom
        else wa) := by
      intro b
      split
      · exact c2frame_of_eq wa _ f (by rw [getS_dependency_started, getS_updE])
      · exact c2frame_rfl wa f
    split
    · exact hhard
    · exact hhard
    · exact hsoft _
    · exact hsoft _

theorem fts_dept_step_edge_frame (i : Nat) (wa : World) (k j : Nat) (hkj : k ≠ j) :
    getE (fts_dept_step i wa k) j = getE wa j := by
  unfold fts_dept_step
  dsimp only
  split
  · rfl
  · have hM : ∀ M : World, getE M j = getE wa j →
        getE (if (getE M k).holding_acq then breakHold M k i else M) j = getE wa j := by
      intro M hMe
      split
      · rw [getE_breakHold_ne _ _ _ _ hkj, hMe]
      · exact hMe
    refine hM _ ?_
    split
    · split
      · rw [getE_add_prop_queue, getE_updS]
      · rfl
    · split
      · rw [getE_add_prop_queue, getE_updS]
      · rfl
    · split
      · rw [getE_dependency_started, getE_updE_ne _ _ _ _ hkj]
      · rfl
    · split
      · rw [getE_dependency_started, getE_updE_ne _ _ _ _ hkj]
      · rfl

theorem fts_dept_step_waiting (i : Nat) (wa : World) (k j : Nat)
    (hw : (getE wa j).waiting_on = false) :
    (getE (fts_dept_step i wa k) j).waiting_on = false := by
  unfold fts_dept_step
  dsimp only
  split
  · exact hw
  · have hM : ∀ M : World, (getE M j).waiting_on = false →
        (getE (if (getE M k).holding_acq then breakHold M k i else M) j).waiting_on
          = false := by
      intro M hMw
      split
      · rw [waiting_breakHold]
        exact hMw
      · exact hMw
    refine hM _ ?_
    have hsoft : ∀ b : Bool, (getE
        (if b = true then
          dependency_started (updE wa k fun e2 => { e2 with waiting_on := false })
            (getE wa k).efrom
        else wa) j).waiting_on = false := by
      intro b
      split
      · rw [getE_dependency_started]
        by_cases hkj : k = j
        · subst hkj
          by_cases hk : k < wa.edges.length
          · rw [getE_updE_self _ _ _ hk]
          · rw [updE_oob _ _ _ (Nat.le_of_not_lt hk)]
            exact hw
        · rw [getE_updE_ne _ _ _ _ hkj]
          exact hw
      · exact hw
    have hhard : ∀ b : Bool, (getE
        (if b = true then
          add_prop_queue
            (updS wa (getE wa k).efrom fun t => { t with prop_failure := true })
            (getE wa k).efrom
        else wa) j).waiting_on = false := by
      intro b
      split
      · rw [getE_add_prop_queue, getE_updS]
        exact hw
      · exact hw
    split
    · exact hhard _
    · exact hhard _
    · exact hsoft _
    · exact hsoft _

theorem fts_dept_step_queues (i : Nat) (wa : World) (k m : Nat) :
    (m ∈ wa.prop_queue → m ∈ (fts_dept_step i wa k).prop_queue)
    ∧ (m ∈ wa.transition_queue → m ∈ (fts_dept_step i wa k).transition_queue) := by
  unfold fts_dept_step
  dsimp only
  split
  · exact ⟨fun h => h, fun h => h⟩
  · have hM : ∀ M : World,
        ((m ∈ wa.prop_queue → m ∈ M.prop_queue)
          ∧ (m ∈ wa.transition_queue → m ∈ M.transition_queue)) →
        ((m ∈ wa.prop_queue →
            m ∈ (if (getE M k).holding_acq then breakHold M k i else M).prop_queue)
          ∧ (m ∈ wa.transition_queue →
            m ∈ (if (getE M k).holding_acq then breakHold M k i else M).transition_queue)) := by
      intro M hMq
      split
      · constructor
        · intro h
          exact mem_prop_queue_breakHold _ _ _ _ (hMq.1 h)
        · intro h
          rw [transition_queue_breakHold]
          exact hMq.2 h
      · exact hMq
    refine hM _ ?_
    have hhard : ∀ b : Bool,
        (m ∈ wa.prop_queue → m ∈ (if b = true then
            add_prop_queue
              (updS wa (getE wa k).efrom fun t => { t with prop_failure := true })
              (getE wa k).efrom
          else wa).prop_queue)
        ∧ (m ∈ wa.transition_queue → m ∈ (if b = true then
            add_prop_queue
              (updS wa (getE wa k).efrom fun t => { t with prop_failure := true })
              (getE wa k).efrom
          else wa).transition_queue) := by
      intro b
      split
      · constructor
        · intro h
          exact mem_add_prop_queue_mono _ _ _ h
        · intro h
          rw [transition_queue_add_prop_queue]
          exact h
      · exact ⟨fun h => h, fun h => h⟩
    have hsoft : ∀ b : Bool,
        (m ∈ wa.prop_queue → m ∈ (if b = true then
            dependency_started (updE wa k fun e2 => { e2 with waiting_on := false })
              (getE wa k).efrom
          else wa).prop_queue)
        ∧ (m ∈ wa.transition_queue → m ∈ (if b = true then
            dependency_started (updE wa k fun e2 => { e2 with waiting_on := false })
              (getE wa k).efrom
          else wa).transition_queue) := by
      intro b
      split
      · constructor
        · intro h
          rw [prop_queue_dependency_started]
          exact h
        · intro h
          exact mem_transition_queue_dependency_started _ _ _ h
      · exact ⟨fun h => h, fun h => h⟩
    split
    · exact hhard _
    · exact hhard _
    · exact hsoft _
    · exact hsoft _

theorem fts_dept_step_lens (i : Nat) (wa : World) (k : Nat) :
    (fts_dept_step i wa k).svcs.length = wa.svcs.length
    ∧ (fts_dept_step i wa k).edges.length = wa.edges.length := by
  unfold fts_dept_step
  dsimp only
  split
  · exact ⟨rfl, rfl⟩
  · have hM : ∀ M : World,
        (M.svcs.length = wa.svcs.length ∧ M.edges.length = wa.edges.length) →
        ((if (getE M k).holding_acq then breakHold M k i else M).svcs.length
            = wa.svcs.length
          ∧ (if (getE M k).holding_acq then breakHold M k i else M).edges.length
            = wa.edges.length) := by
      intro M hMl
      split
      · exact ⟨(svcs_length_breakHold _ _ _).trans hMl.1,
          (edges_length_breakHold _ _ _).trans hMl.2⟩
      · exact hMl
    refine hM _ ?_
    have hhard : ∀ b : Bool,
        ((if b = true then
            add_prop_queue
              (updS wa (getE wa k).efrom fun t => { t with prop_failure := true })
              (getE wa k).efrom
          else wa).svcs.length = wa.svcs.length
          ∧ (if b = true then
            add_prop_queue
              (updS wa (getE wa k).efrom fun t => { t with prop_failure := true })
              (getE wa k).efrom
          else wa).edges.length = wa.edges.length) := by
      intro b
      split
      · constructor
        · rw [svcs_add_prop_queue]
          simp [updS, setS]
        · rw [edges_add_prop_queue]
          simp [updS, setS]
      · exact ⟨rfl, rfl⟩
    have hsoft : ∀ b : Bool,
        ((if b = true then
            dependency_started (updE wa k fun e2 => { e2 with waiting_on := false })
              (getE wa k).efrom
          else wa).svcs.length = wa.svcs.length
          ∧ (if b = true then
            dependency_started (updE wa k fun e2 => { e2 with waiting_on := false })
              (getE wa k).efrom
          else wa).edges.length = wa.edges.length) := by
      intro b
      split
      · constructor
        · rw [svcs_dependency_started]
          simp [updE, setE]
        · rw [edges_dependency_started]
          simp [updE, setE]
      · exact ⟨rfl, rfl⟩
    split
    · exact hhard _
    · exact hhard _
    · exact hsoft _
    · exact hsoft _

/-- **C2**: on a failed start of service `i`, for any incoming dependency
edge `j` (`eto = j → i`, with a distinct, in-range dependent), the
cancellation loop of `failed_to_start` (the non-`immediate_stop` form):
sets `prop_failure` and enqueues propagation on a hard dependent that is
STARTING; leaves the record of a hard dependent that is STARTED fully
unchanged; and for a soft edge with `waiting_on` set, clears `waiting_on`
and notifies the dependent via `dependency_started`, i.e. enqueues it on
the transition queue exactly when a successful start of the dependency
would have (dependent STARTING or STARTED and still waiting on
dependencies). -/
theorem c2_failed_to_start :
    ∀ fuel w i j d, j < w.edges.length →
      (getE w j).eto = i →
      (getE w j).efrom ≠ i →
      (getE w j).efrom < w.svcs.length →
      ((getE w j).dep_type.is_hard = true →
        (getS w (getE w j).efrom).service_state = .STARTING →
        (getS (failed_to_start (fuel+1) w i d false) (getE w j).efrom).prop_failure = true
        ∧ (getE w j).efrom ∈ (failed_to_start (fuel+1) w i d false).prop_queue)
      ∧ ((getE w j).dep_type.is_hard = true →
        (getS w (getE w j).efrom).service_state = .STARTED →
        getS (failed_to_start (fuel+1) w i d false) (getE w j).efrom
          = getS w (getE w j).efrom)
      ∧ ((getE w j).dep_type.is_hard = false →
        (getE w j).waiting_on = true →
        (getE (failed_to_start (fuel+1) w i d false) j).waiting_on = false
        ∧ (((getS w (getE w j).efrom).service_state = .STARTING
            ∨ (getS w (getE w j).efrom).service_state = .STARTED) →
          (getS w (getE w j).efrom).waiting_for_deps = true →
          (getE w j).efrom ∈ (failed_to_start (fuel+1) w i d false).transition_queue)) := by
  intro fuel w i j d hj heto hfi hflen
  obtain ⟨f, hfdef⟩ : ∃ f, (getE w j).efrom = f := ⟨_, rfl⟩
  rw [hfdef] at hfi hflen ⊢
  have hfi2 : i ≠ f := fun h => hfi h.symm
  have hred : failed_to_start (fuel+1) w i d false
      = fts_mark_failed ((List.range (fts_prelude w i).edges.length).foldl
          (fts_dept_step i) (fts_prelude w i)) i := rfl
  rw [hred]
  have hjmem : j ∈ List.range (fts_prelude w i).edges.length := by
    rw [edges_fts_prelude]
    exact List.mem_range.mpr hj
  have hpre_frame : c2frame w f (fts_prelude w i) :=
    c2frame_of_eq w _ f (getS_fts_prelude_ne w i f hfi2)
  have hpre_edge : getE (fts_prelude w i) j = getE w j := getE_fts_prelude w i j
  have hpre_slen : (fts_prelude w i).svcs.length = w.svcs.length :=
    svcs_length_fts_prelude w i
  have hpre_elen : (fts_prelude w i).edges.length = w.edges.length := by
    rw [edges_fts_prelude]
  have hnoteto : ¬ (((getE w j).eto != i) = true) := by
    rw [heto]
    simp
  refine ⟨?_, ?_, ?_⟩
  · intro hhard hstarting
    have hstep1 : ∀ a : World,
        (c2frame w f a ∧ getE a j = getE w j ∧ a.svcs.length = w.svcs.length) →
        ((getS (fts_dept_step i a j) f).prop_failure = true
          ∧ f ∈ (fts_dept_step i a j).prop_queue) := by
      intro a ha
      obtain ⟨haf, hae, hal⟩ := ha
      unfold fts_dept_step
      dsimp only
      rw [hae, hfdef]
      rw [if_neg hnoteto]
      have hmain : ∀ X : World, X = add_prop_queue
            (updS a f fun t => { t with prop_failure := true }) f →
          ((getS (if (getE X j).holding_acq then breakHold X j i else X) f).prop_failure
              = true
            ∧ f ∈ (if (getE X j).holding_acq then breakHold X j i else X).prop_queue) := by
        intro X hX
        have hXpf : (getS X f).prop_failure = true := by
          rw [hX, getS_add_prop_queue,
              getS_updS_self _ _ _ (by rw [hal]; exact hflen)]
        have hXq : f ∈ X.prop_queue := by
          rw [hX]
          exact mem_add_prop_queue_self _ f
        split
        · exact ⟨by rw [getS_breakHold_ne _ _ _ _ hfi2]; exact hXpf,
            mem_prop_queue_breakHold _ _ _ _ hXq⟩
        · exact ⟨hXpf, hXq⟩
      have hstS : ((getS a f).service_state == service_state_t.STARTING) = true := by
        simp [haf.1, hstarting]
      rcases hard_cases (getE w j).dep_type hhard with hdt | hdt <;>
        rw [hdt] <;> dsimp only <;> rw [if_pos hstS] <;> exact hmain _ rfl
    have hpost := foldl_extract
      (fun a => c2frame w f a ∧ getE a j = getE w j ∧ a.svcs.length = w.svcs.length)
      (fun a => (getS a f).prop_failure = true ∧ f ∈ a.prop_queue)
      j
      (fun a k hkj ha =>
        ⟨c2frame_comp w a _ f ha.1 (fts_dept_step_sframe i a k f hfi),
         by rw [fts_dept_step_edge_frame i a k j hkj]; exact ha.2.1,
         by rw [(fts_dept_step_lens i a k).1]; exact ha.2.2⟩)
      hstep1
      (fun a k ha => ⟨(fts_dept_step_sframe i a k f hfi).2.2.1 ha.1,
        (fts_dept_step_queues i a k f).1 ha.2⟩)
      (List.range (fts_prelude w i).edges.length) hjmem (fts_prelude w i)
      ⟨hpre_frame, hpre_edge, hpre_slen⟩
    exact ⟨by rw [getS_fts_mark_failed_ne _ _ _ hfi2]; exact hpost.1, hpost.2⟩
  · intro hhard hstarted
    have hne2 : (getS w f).service_state ≠ .STARTING := by
      rw [hstarted]
      decide
    have hfold := foldl_keep (c2frame w f)
      (fun a k ha => c2frame_comp w a _ f ha (fts_dept_step_sframe i a k f hfi))
      (List.range (fts_prelude w i).edges.length) (fts_prelude w i) hpre_frame
    have hfinal := c2frame_comp w _ _ f hfold
      (c2frame_of_eq _ _ f (getS_fts_mark_failed_ne _ i f hfi2))
    exact hfinal.2.2.2 hne2
  · intro hsoft hwait
    have hstep3 : ∀ a : World,
        (c2frame w f a ∧ getE a j = getE w j ∧ a.edges.length = w.edges.length) →
        ((getE (fts_dept_step i a j) j).waiting_on = false
          ∧ (((getS w f).service_state = .STARTING
              ∨ (getS w f).service_state = .STARTED) →
            (getS w f).waiting_for_deps = true →
            f ∈ (fts_dept_step i a j).transition_queue)) := by
      intro a ha
      obtain ⟨haf, hae, hal⟩ := ha
      unfold fts_dept_step
      dsimp only
      rw [hae, hfdef]
      rw [if_neg hnoteto]
      have hmain : ∀ X : World, X = dependency_started
            (updE a j fun e2 => { e2 with waiting_on := false }) f →
          ((getE (if (getE X j).holding_acq then breakHold X j i else X) j).waiting_on
              = false
            ∧ (((getS w f).service_state = .STARTING
                ∨ (getS w f).service_state = .STARTED) →
              (getS w f).waiting_for_deps = true →
              f ∈ (if (getE X j).holding_acq then breakHold X j i
                  else X).transition_queue)) := by
        intro X hX
        have hjlt : j < a.edges.length := by rw [hal]; exact hj
        have hXw : (getE X j).waiting_on = false := by
          rw [hX, getE_dependency_started, getE_updE_self _ _ _ hjlt]
        have hXq : ((getS w f).service_state = .STARTING
              ∨ (getS w f).service_state = .STARTED) →
            (getS w f).waiting_for_deps = true → f ∈ X.transition_queue := by
          intro hsk hwd
          rw [hX]
          unfold dependency_started
          dsimp only
          have hcond : (((getS (updE a j fun e2 => { e2 with waiting_on := false }) f).service_state == service_state_t.STARTING
              || (getS (updE a j fun e2 => { e2 with waiting_on := false }) f).service_state == service_state_t.STARTED)
              && (getS (updE a j fun e2 => { e2 with waiting_on := false }) f).waiting_for_deps) = true := by
            rw [getS_updE, haf.1, haf.2.1, hwd]
            rcases hsk with h | h <;> simp [h]
          rw [if_pos hcond]
          exact mem_add_transition_queue_self _ f
        split
        · exact ⟨by rw [waiting_breakHold]; exact hXw,
            fun hsk hwd => by
              rw [transition_queue_breakHold]
              exact hXq hsk hwd⟩
        · exact ⟨hXw, hXq⟩
      rcases soft_cases (getE w j).dep_type hsoft with hdt | hdt <;>
        rw [hdt] <;> dsimp only <;> rw [if_pos hwait] <;> exact hmain _ rfl
    have hpost := foldl_extract
      (fun a => c2frame w f a ∧ getE a j = getE w j ∧ a.edges.length = w.edges.length)
      (fun a => (getE a j).waiting_on = false
        ∧ (((getS w f).service_state = .STARTING
            ∨ (getS w f).service_state = .STARTED) →
          (getS w f).waiting_for_deps = true → f ∈ a.transition_queue))
      j
      (fun a k hkj ha =>
        ⟨c2frame_comp w a _ f ha.1 (fts_dept_step_sframe i a k f hfi),
         by rw [fts_dept_step_edge_frame i a k j hkj]; exact ha.2.1,
         by rw [(fts_dept_step_lens i a k).2]; exact ha.2.2⟩)
      hstep3
      (fun a k ha => ⟨fts_dept_step_waiting i a k j ha.1,
        fun hsk hwd => (fts_dept_step_queues i a k f).2 (ha.2 hsk hwd)⟩)
      (List.range (fts_prelude w i).edges.length) hjmem (fts_prelude w i)
      ⟨hpre_frame, hpre_edge, hpre_elen⟩
    exact ⟨hpost.1, fun hsk hwd => hpost.2 hsk hwd⟩

/-- **C2** witness: a STARTING dependent reached by a hard edge is flagged
with `prop_failure` and queued for propagation, and a waiting soft edge
from the same dependent is released. -/
theorem c2_witness :
    ((getS (failed_to_start 1 { svcs := [{ service_state := .STARTING, waiting_for_deps := true }, {}], edges := [{ efrom := 0, eto := 1, dep_type := .REGULAR }, { efrom := 0, eto := 1, dep_type := .WAITS_FOR, waiting_on := true }] } 1 true false) 0).prop_failure = true
      ∧ 0 ∈ (failed_to_start 1 { svcs := [{ service_state := .STARTING, waiting_for_deps := true }, {}], edges := [{ efrom := 0, eto := 1, dep_type := .REGULAR }, { efrom := 0, eto := 1, dep_type := .WAITS_FOR, waiting_on := true }] } 1 true false).prop_queue)
    ∧ (getE (failed_to_start 1 { svcs := [{ service_state := .STARTING, waiting_for_deps := true }, {}], edges := [{ efrom := 0, eto := 1, dep_type := .REGULAR }, { efrom := 0, eto := 1, dep_type := .WAITS_FOR, waiting_on := true }] } 1 true false) 1).waiting_on = false :=
  ⟨(c2_failed_to_start 0 { svcs := [{ service_state := .STARTING, waiting_for_deps := true }, {}], edges := [{ efrom := 0, eto := 1, dep_type := .REGULAR }, { efrom := 0, eto := 1, dep_type := .WAITS_FOR, waiting_on := true }] } 1 0 true (by decide) (by decide) (by decide) (by decide)).1 (by decide) (by decide),
   ((c2_failed_to_start 0 { svcs := [{ service_state := .STARTING, waiting_for_deps := true }, {}], edges := [{ efrom := 0, eto := 1, dep_type := .REGULAR }, { efrom := 0, eto := 1, dep_type := .WAITS_FOR, waiting_on := true }] } 1 1 true (by decide) (by decide) (by decide) (by decide)).2.2 (by decide) (by decide)).1⟩

/-! ### Claim C8 -/

@[simp] theorem length_svcs_updS (w : World) (i : Nat) (f : service → service) :
    (updS w i f).svcs.length = w.svcs.length := by
  simp [updS]

theorem getS_release_core_self (w : World) (i : Nat) :
    ∃ rb dr pr pq, getS (release_core w i) i
      = { getS w i with required_by := rb, desired_state := dr, prop_release := pr, prop_require := pq } := by
  rcases Nat.lt_or_ge i w.svcs.length with hlt | hge
  · refine ⟨(getS (release_core w i) i).required_by,
      (getS (release_core w i) i).desired_state,
      (getS (release_core w i) i).prop_release,
      (getS (release_core w i) i).prop_require, ?_⟩
    unfold release_core
    dsimp only
    repeat' split
    all_goals simp [getS_updS_self, getS_setS_self, hlt]
  · refine ⟨(getS w i).required_by, (getS w i).desired_state,
      (getS w i).prop_release, (getS w i).prop_require, ?_⟩
    rw [getS_oob _ _ (by rw [svcs_length_release_core]; exact hge),
        getS_oob _ _ hge]

theorem release_core_c8 (w : World) (i m : Nat) :
    (getS (release_core w i) m).service_state = (getS w m).service_state
    ∧ (getS (release_core w i) m).waiting_for_deps = (getS w m).waiting_for_deps
    ∧ (getS (release_core w i) m).force_stop = (getS w m).force_stop
    ∧ (getS (release_core w i) m).auto_restart = (getS w m).auto_restart
    ∧ (getS (release_core w i) m).restarting = (getS w m).restarting
    ∧ (getS (release_core w i) m).prop_stop = (getS w m).prop_stop := by
  by_cases hm : i = m
  · subst hm
    obtain ⟨rb, dr, pr, pq, h⟩ := getS_release_core_self w i
    rw [h]
    exact ⟨rfl, rfl, rfl, rfl, rfl, rfl⟩
  · rw [getS_release_core_ne _ _ _ hm]
    exact ⟨rfl, rfl, rfl, rfl, rfl, rfl⟩

theorem breakHold_c8 (w : World) (j i m : Nat) :
    (getS (breakHold w j i) m).service_state = (getS w m).service_state
    ∧ (getS (breakHold w j i) m).waiting_for_deps = (getS w m).waiting_for_deps
    ∧ (getS (breakHold w j i) m).force_stop = (getS w m).force_stop
    ∧ (getS (breakHold w j i) m).auto_restart = (getS w m).auto_restart
    ∧ (getS (breakHold w j i) m).restarting = (getS w m).restarting
    ∧ (getS (breakHold w j i) m).prop_stop = (getS w m).prop_stop := by
  unfold breakHold
  have h := release_core_c8 (updE w j fun e => { e with holding_acq := false }) i m
  simpa using h

theorem holding_breakHold_self (w : World) (j i : Nat) (h : j < w.edges.length) :
    (getE (breakHold w j i) j).holding_acq = false := by
  unfold breakHold
  rw [getE_release_core, getE_updE_self _ _ _ h]

theorem c8upd_frame (X : World) (q m : Nat) :
    ((getS (updS X q fun t => { t with prop_stop := true }) m).service_state
        = (getS X m).service_state
    ∧ (getS (updS X q fun t => { t with prop_stop := true }) m).waiting_for_deps
        = (getS X m).waiting_for_deps
    ∧ (getS (updS X q fun t => { t with prop_stop := true }) m).force_stop
        = (getS X m).force_stop
    ∧ (getS (updS X q fun t => { t with prop_stop := true }) m).auto_restart
        = (getS X m).auto_restart
    ∧ (getS (updS X q fun t => { t with prop_stop := true }) m).restarting
        = (getS X m).restarting)
    ∧ ((getS X m).prop_stop = true →
      (getS (updS X q fun t => { t with prop_stop := true }) m).prop_stop = true) := by
  by_cases hq : q = m
  · subst hq
    rcases Nat.lt_or_ge q X.svcs.length with hlt | hge
    · rw [getS_updS_self _ _ _ hlt]
      exact ⟨⟨rfl, rfl, rfl, rfl, rfl⟩, fun _ => rfl⟩
    · rw [updS_oob _ _ _ hge]
      exact ⟨⟨rfl, rfl, rfl, rfl, rfl⟩, fun h => h⟩
  · rw [getS_updS_ne _ _ _ _ hq]
    exact ⟨⟨rfl, rfl, rfl, rfl, rfl⟩, fun h => h⟩

theorem stop_dependents_step_c8 (i : Nat) (acc : World × Bool) (k m : Nat)
    (hfs : (getS acc.1 i).force_stop = false) :
    ((getS (stop_dependents_step i acc k).1 m).service_state
        = (getS acc.1 m).service_state
    ∧ (getS (stop_dependents_step i acc k).1 m).waiting_for_deps
        = (getS acc.1 m).waiting_for_deps
    ∧ (getS (stop_dependents_step i acc k).1 m).force_stop
        = (getS acc.1 m).force_stop
    ∧ (getS (stop_dependents_step i acc k).1 m).auto_restart
        = (getS acc.1 m).auto_restart
    ∧ (getS (stop_dependents_step i acc k).1 m).restarting
        = (getS acc.1 m).restarting)
    ∧ ((getS acc.1 m).prop_stop = true →
      (getS (stop_dependents_step i acc k).1 m).prop_stop = true) := by
  unfold stop_dependents_step
  dsimp only
  split
  · exact ⟨⟨rfl, rfl, rfl, rfl, rfl⟩, fun h => h⟩
  · split
    · dsimp only
      rw [if_neg (show ¬((getS acc.1 i).force_stop = true) by rw [hfs]; decide)]
      have h := c8upd_frame acc.1 (getE acc.1 k).efrom m
      refine ⟨⟨?_, ?_, ?_, ?_, ?_⟩, ?_⟩
      · rw [getS_add_prop_queue]
        exact h.1.1
      · rw [getS_add_prop_queue]
        exact h.1.2.1
      · rw [getS_add_prop_queue]
        exact h.1.2.2.1
      · rw [getS_add_prop_queue]
        exact h.1.2.2.2.1
      · rw [getS_add_prop_queue]
        exact h.1.2.2.2.2
      · intro hp
        rw [getS_add_prop_queue]
        exact h.2 hp
    · split
      · split
        · split
          · dsimp only
            have h := c8upd_frame
              (updE acc.1 k fun e2 => { e2 with waiting_on := false })
              (getE acc.1 k).efrom m
            rw [getS_updE] at h
            refine ⟨⟨?_, ?_, ?_, ?_, ?_⟩, ?_⟩
            · rw [getS_add_prop_queue]
              exact h.1.1
            · rw [getS_add_prop_queue]
              exact h.1.2.1
            · rw [getS_add_prop_queue]
              exact h.1.2.2.1
            · rw [getS_add_prop_queue]
              exact h.1.2.2.2.1
            · rw [getS_add_prop_queue]
              exact h.1.2.2.2.2
            · intro hp
              rw [getS_add_prop_queue]
              exact h.2 hp
          · dsimp only
            have h := breakHold_c8
              (dependency_started (updE acc.1 k fun e2 => { e2 with waiting_on := false })
                (getE acc.1 k).efrom) k i m
            rw [getS_dependency_started, getS_updE] at h
            exact ⟨⟨h.1, h.2.1, h.2.2.1, h.2.2.2.1, h.2.2.2.2.1⟩,
              fun hp => by rw [h.2.2.2.2.2]; exact hp⟩
        · dsimp only
          have h := breakHold_c8 acc.1 k i m
          exact ⟨⟨h.1, h.2.1, h.2.2.1, h.2.2.2.1, h.2.2.2.2.1⟩,
            fun hp => by rw [h.2.2.2.2.2]; exact hp⟩
      · exact ⟨⟨rfl, rfl, rfl, rfl, rfl⟩, fun h => h⟩

theorem stop_dependents_step_edge (i : Nat) (acc : World × Bool) (k j : Nat)
    (hkj : k ≠ j) (hfs : (getS acc.1 i).force_stop = false) :
    getE (stop_dependents_step i acc k).1 j = getE acc.1 j := by
  unfold stop_dependents_step
  dsimp only
  split
  · rfl
  · split
    · dsimp only
      rw [if_neg (show ¬((getS acc.1 i).force_stop = true) by rw [hfs]; decide)]
      rw [getE_add_prop_queue, getE_updS]
    · split
      · split
        · split
          · dsimp only
            rw [getE_add_prop_queue, getE_updS, getE_updE_ne _ _ _ _ hkj]
          · dsimp only
            rw [getE_breakHold_ne _ _ _ _ hkj, getE_dependency_started,
                getE_updE_ne _ _ _ _ hkj]
        · dsimp only
          rw [getE_breakHold_ne _ _ _ _ hkj]
      · rfl

theorem stop_dependents_step_queues (i : Nat) (acc : World × Bool) (k m : Nat)
    (hfs : (getS acc.1 i).force_stop = false) :
    (m ∈ acc.1.prop_queue → m ∈ (stop_dependents_step i acc k).1.prop_queue)
    ∧ (m ∈ acc.1.transition_queue →
      m ∈ (stop_dependents_step i acc k).1.transition_queue) := by
  unfold stop_dependents_step
  dsimp only
  split
  · exact ⟨fun h => h, fun h => h⟩
  · split
    · dsimp only
      rw [if_neg (show ¬((getS acc.1 i).force_stop = true) by rw [hfs]; decide)]
      constructor
      · intro h
        exact mem_add_prop_queue_mono _ _ _ h
      · intro h
        rw [transition_queue_add_prop_queue]
        exact h
    · split
      · split
        · split
          · dsimp only
            constructor
            · intro h
              exact mem_add_prop_queue_mono _ _ _ h
            · intro h
              rw [transition_queue_add_prop_queue]
              exact h
          · dsimp only
            constructor
            · intro h
              refine mem_prop_queue_breakHold _ _ _ _ ?_
              rw [prop_queue_dependency_started]
              exact h
            · intro h
              rw [transition_queue_breakHold]
              exact mem_transition_queue_dependency_started _ _ _ h
        · dsimp only
          exact ⟨fun h => mem_prop_queue_breakHold _ _ _ _ h,
            fun h => by rw [transition_queue_breakHold]; exact h⟩
      · exact ⟨fun h => h, fun h => h⟩

theorem stop_dependents_step_lens (i : Nat) (acc : World × Bool) (k : Nat)
    (hfs : (getS acc.1 i).force_stop = false) :
    (stop_dependents_step i acc k).1.svcs.length = acc.1.svcs.length
    ∧ (stop_dependents_step i acc k).1.edges.length = acc.1.edges.length := by
  unfold stop_dependents_step
  dsimp only
  split
  · exact ⟨rfl, rfl⟩
  · split
    · dsimp only
      rw [if_neg (show ¬((getS acc.1 i).force_stop = true) by rw [hfs]; decide)]
      constructor
      · rw [svcs_add_prop_queue]
        simp [updS, setS]
      · rw [edges_add_prop_queue]
        rfl
    · split
      · split
        · split
          · dsimp only
            constructor
            · rw [svcs_add_prop_queue]
              simp [updS, setS, updE, setE]
            · rw [edges_add_prop_queue]
              simp [updS, setS, updE, setE]
          · dsimp only
            constructor
            · rw [svcs_length_breakHold, svcs_dependency_started]
              simp [updE, setE]
            · rw [edges_length_breakHold, edges_dependency_started]
              simp [updE, setE]
        · dsimp only
          exact ⟨svcs_length_breakHold _ _ _, edges_length_breakHold _ _ _⟩
      · exact ⟨rfl, rfl⟩

theorem stop_dependents_step_noop (i : Nat) (acc : World × Bool) (j : Nat)
    (hnh : (getE acc.1 j).holding_acq = false) :
    stop_dependents_step i acc j = acc := by
  unfold stop_dependents_step
  dsimp only
  split
  · rfl
  · rw [if_neg (show ¬(((getE acc.1 j).dep_type.is_hard
        && (getE acc.1 j).holding_acq) = true) by rw [hnh]; simp)]
    rw [if_neg (show ¬((!(getS acc.1 i).auto_restart && !(getS acc.1 i).restarting
        && !(getE acc.1 j).dep_type.is_hard && (getE acc.1 j).holding_acq) = true)
      by rw [hnh]; simp)]

theorem stop_dependents_step_edges_hard (i : Nat) (acc : World × Bool) (k : Nat)
    (hhard : (getE acc.1 k).dep_type.is_hard = true)
    (hfs : (getS acc.1 i).force_stop = false) :
    (stop_dependents_step i acc k).1.edges = acc.1.edges := by
  unfold stop_dependents_step
  dsimp only
  split
  · rfl
  · split
    · dsimp only
      rw [if_neg (show ¬((getS acc.1 i).force_stop = true) by rw [hfs]; decide)]
      rw [edges_add_prop_queue]
      rfl
    · split
      · rename_i hcond
        rw [hhard] at hcond
        simp at hcond
      · rfl

/-- The stopping service's guard fields (`force_stop`, `auto_restart`,
`restarting`), as read afresh by every iteration of stop_dependents'
loop, relative to the pre-loop world. -/
def c8iinv (w : World) (i : Nat) (a : World × Bool) : Prop :=
  (getS a.1 i).force_stop = (getS w i).force_stop
  ∧ (getS a.1 i).auto_restart = (getS w i).auto_restart
  ∧ (getS a.1 i).restarting = (getS w i).restarting

theorem c8iinv_step (w : World) (i : Nat) (a : World × Bool) (k : Nat)
    (hfst : (getS w i).force_stop = false) (ha : c8iinv w i a) :
    c8iinv w i (stop_dependents_step i a k) := by
  have hfs : (getS a.1 i).force_stop = false := ha.1.trans hfst
  have h := (stop_dependents_step_c8 i a k i hfs).1
  exact ⟨h.2.2.1.trans ha.1, h.2.2.2.1.trans ha.2.1, h.2.2.2.2.trans ha.2.2⟩

/-- **C8** (counterexample): MILESTONE is a hard edge kind, so a MILESTONE
dependent edge takes stop_dependents' hard path: with `waiting_on` false
(where the claim's soft-edge reading prescribes clearing `holding_acq` and
calling `release(false)`), the hold is in fact retained, the dependency's
activation count stays put, and `prop_stop` is propagated to the
dependent instead. -/
theorem c8_counterexample :
    dependency_type.is_hard .MILESTONE = true
    ∧ (getE (stop_dependents { svcs := [{ service_state := .STARTED }, { service_state := .STARTED, required_by := 1 }], edges := [{ efrom := 0, eto := 1, dep_type := .MILESTONE, waiting_on := false, holding_acq := true }] } 1).1 0).holding_acq = true
    ∧ (getS (stop_dependents { svcs := [{ service_state := .STARTED }, { service_state := .STARTED, required_by := 1 }], edges := [{ efrom := 0, eto := 1, dep_type := .MILESTONE, waiting_on := false, holding_acq := true }] } 1).1 1).required_by = 1
    ∧ (getS (stop_dependents { svcs := [{ service_state := .STARTED }, { service_state := .STARTED, required_by := 1 }], edges := [{ efrom := 0, eto := 1, dep_type := .MILESTONE, waiting_on := false, holding_acq := true }] } 1).1 0).prop_stop = true := by
  decide

/-- **C8** (amended): in stop_dependents, a held hard edge (REGULAR or
MILESTONE — §3 makes MILESTONE hard, so the MILESTONE test inside the
soft branch is unreachable) unconditionally propagates `prop_stop` to the
dependent and retains the edge (holding and waiting flags included);
a held soft edge, when the stopping service has `auto_restart = false`
and `restarting = false`, is broken: `waiting_on` is cleared if set (with
the dependent notified via dependency_started, i.e. enqueued for
transition exactly when it is STARTING or STARTED and waiting on
dependencies), `holding_acq` is cleared and the service is released. -/
theorem c8_stop_dependents :
    ∀ w i j, j < w.edges.length →
      (getE w j).eto = i →
      (getE w j).efrom ≠ i →
      (getE w j).efrom < w.svcs.length →
      (getE w j).holding_acq = true →
      (getS w i).force_stop = false →
      ((getE w j).dep_type.is_hard = true →
        (getS (stop_dependents w i).1 (getE w j).efrom).prop_stop = true
        ∧ (getE w j).efrom ∈ (stop_dependents w i).1.prop_queue
        ∧ getE (stop_dependents w i).1 j = getE w j)
      ∧ ((getE w j).dep_type.is_hard = false →
        (getS w i).auto_restart = false →
        (getS w i).restarting = false →
        ((getE w j).waiting_on = true →
          (getE (stop_dependents w i).1 j).waiting_on = false
          ∧ (getE (stop_dependents w i).1 j).holding_acq = false
          ∧ (((getS w (getE w j).efrom).service_state = .STARTING
              ∨ (getS w (getE w j).efrom).service_state = .STARTED) →
            (getS w (getE w j).efrom).waiting_for_deps = true →
            (getE w j).efrom ∈ (stop_dependents w i).1.transition_queue))
        ∧ ((getE w j).waiting_on = false →
          (getE (stop_dependents w i).1 j).waiting_on = false
          ∧ (getE (stop_dependents w i).1 j).holding_acq = false)) := by
  intro w i j hj heto hfi hflen hhold hfst
  obtain ⟨f, hfdef⟩ : ∃ f, (getE w j).efrom = f := ⟨_, rfl⟩
  rw [hfdef] at hfi hflen ⊢
  have hjmem : j ∈ List.range w.edges.length := List.mem_range.mpr hj
  have hred : stop_dependents w i
      = (List.range w.edges.length).foldl (stop_dependents_step i) (w, true) := rfl
  rw [hred]
  have hnoteto : ¬ (((getE w j).eto != i) = true) := by
    rw [heto]
    simp
  refine ⟨?_, ?_⟩
  · intro hhard
    have hpost := foldl_extract
      (fun a : World × Bool => c8iinv w i a ∧ getE a.1 j = getE w j
        ∧ a.1.svcs.length = w.svcs.length)
      (fun a : World × Bool => c8iinv w i a ∧ (getS a.1 f).prop_stop = true
        ∧ f ∈ a.1.prop_queue ∧ getE a.1 j = getE w j)
      j
      (fun a k hkj ha => by
        have hfs : (getS a.1 i).force_stop = false := ha.1.1.trans hfst
        exact ⟨c8iinv_step w i a k hfst ha.1,
          (stop_dependents_step_edge i a k j hkj hfs).trans ha.2.1,
          (stop_dependents_step_lens i a k hfs).1.trans ha.2.2⟩)
      (fun a ha => by
        obtain ⟨hiinv, hae, hal⟩ := ha
        have hfs : (getS a.1 i).force_stop = false := hiinv.1.trans hfst
        unfold stop_dependents_step
        dsimp only
        rw [hae, hfdef]
        rw [if_neg hnoteto]
        rw [if_pos (show ((getE w j).dep_type.is_hard
            && (getE w j).holding_acq) = true by rw [hhard, hhold]; decide)]
        dsimp only
        rw [if_neg (show ¬((getS a.1 i).force_stop = true) by rw [hfs]; decide)]
        refine ⟨⟨?_, ?_, ?_⟩, ?_, ?_, ?_⟩
        · rw [getS_add_prop_queue, getS_updS_ne _ _ _ _ hfi]
          exact hiinv.1
        · rw [getS_add_prop_queue, getS_updS_ne _ _ _ _ hfi]
          exact hiinv.2.1
        · rw [getS_add_prop_queue, getS_updS_ne _ _ _ _ hfi]
          exact hiinv.2.2
        · rw [getS_add_prop_queue,
            getS_updS_self _ _ _ (by rw [hal]; exact hflen)]
        · exact mem_add_prop_queue_self _ f
        · rw [getE_add_prop_queue, getE_updS]
          exact hae)
      (fun a k ha => by
        have hfs : (getS a.1 i).force_stop = false := ha.1.1.trans hfst
        refine ⟨c8iinv_step w i a k hfst ha.1,
          (stop_dependents_step_c8 i a k f hfs).2 ha.2.1,
          (stop_dependents_step_queues i a k f hfs).1 ha.2.2.1, ?_⟩
        by_cases hkj : k = j
        · subst hkj
          have hEh : (stop_dependents_step i a k).1.edges = a.1.edges :=
            stop_dependents_step_edges_hard i a k
              (by rw [ha.2.2.2]; exact hhard) hfs
          rw [getE_congr hEh k]
          exact ha.2.2.2
        · rw [stop_dependents_step_edge i a k j hkj hfs]
          exact ha.2.2.2)
      (List.range w.edges.length) hjmem (w, true)
      ⟨⟨rfl, rfl, rfl⟩, rfl, rfl⟩
    exact ⟨hpost.2.1, hpost.2.2.1, hpost.2.2.2⟩
  · intro hsoft har hres
    have hms : ¬ (((getE w j).dep_type == dependency_type.MILESTONE) = true) := by
      rcases soft_cases _ hsoft with h | h <;> rw [h] <;> decide
    have hnothard : ∀ b : Bool, ¬ (((getE w j).dep_type.is_hard && b) = true) := by
      intro b
      rw [hsoft]
      simp
    constructor
    · intro hwait
      have hpost := foldl_extract
        (fun a : World × Bool => c8iinv w i a
          ∧ (getS a.1 f).service_state = (getS w f).service_state
          ∧ (getS a.1 f).waiting_for_deps = (getS w f).waiting_for_deps
          ∧ getE a.1 j = getE w j
          ∧ a.1.edges.length = w.edges.length)
        (fun a : World × Bool => c8iinv w i a
          ∧ (getE a.1 j).waiting_on = false
          ∧ (getE a.1 j).holding_acq = false
          ∧ (((getS w f).service_state = .STARTING
              ∨ (getS w f).service_state = .STARTED) →
            (getS w f).waiting_for_deps = true → f ∈ a.1.transition_queue))
        j
        (fun a k hkj ha => by
          have hfs : (getS a.1 i).force_stop = false := ha.1.1.trans hfst
          have h := (stop_dependents_step_c8 i a k f hfs).1
          exact ⟨c8iinv_step w i a k hfst ha.1,
            h.1.trans ha.2.1, h.2.1.trans ha.2.2.1,
            (stop_dependents_step_edge i a k j hkj hfs).trans ha.2.2.2.1,
            (stop_dependents_step_lens i a k hfs).2.trans ha.2.2.2.2⟩)
        (fun a ha => by
          obtain ⟨hiinv, hafs, hafw, hae, hael⟩ := ha
          have hfs : (getS a.1 i).force_stop = false := hiinv.1.trans hfst
          have hAR : (getS a.1 i).auto_restart = false := hiinv.2.1.trans har
          have hRE : (getS a.1 i).restarting = false := hiinv.2.2.trans hres
          have hjlt : j < a.1.edges.length := by rw [hael]; exact hj
          unfold stop_dependents_step
          dsimp only
          rw [hae, hfdef]
          rw [if_neg hnoteto]
          rw [if_neg (hnothard _)]
          rw [if_pos (show (!(getS a.1 i).auto_restart && !(getS a.1 i).restarting
              && !(getE w j).dep_type.is_hard && (getE w j).holding_acq) = true
            by rw [hAR, hRE, hsoft, hhold]; decide)]
          rw [if_pos hwait]
          rw [if_neg hms]
          dsimp only
          have hXlen : (dependency_started
              (updE a.1 j fun e2 => { e2 with waiting_on := false }) f).edges.length
              = a.1.edges.length := by
            rw [edges_dependency_started]
            simp [updE, setE]
          refine ⟨⟨?_, ?_, ?_⟩, ?_, ?_, ?_⟩
          · have h := (breakHold_c8 (dependency_started
              (updE a.1 j fun e2 => { e2 with waiting_on := false }) f) j i i).2.2.1
            rw [getS_dependency_started, getS_updE] at h
            exact h.trans hiinv.1
          · have h := (breakHold_c8 (dependency_started
              (updE a.1 j fun e2 => { e2 with waiting_on := false }) f) j i i).2.2.2.1
            rw [getS_dependency_started, getS_updE] at h
            exact h.trans hiinv.2.1
          · have h := (breakHold_c8 (dependency_started
              (updE a.1 j fun e2 => { e2 with waiting_on := false }) f) j i i).2.2.2.2.1
            rw [getS_dependency_started, getS_updE] at h
            exact h.trans hiinv.2.2
          · rw [waiting_breakHold, getE_dependency_started,
              getE_updE_self _ _ _ hjlt]
          · exact holding_breakHold_self _ _ _ (by rw [hXlen]; exact hjlt)
          · intro hsk hwd
            rw [transition_queue_breakHold]
            have hcond : (((getS (updE a.1 j fun e2 => { e2 with waiting_on := false }) f).service_state == service_state_t.STARTING
                || (getS (updE a.1 j fun e2 => { e2 with waiting_on := false }) f).service_state == service_state_t.STARTED)
                && (getS (updE a.1 j fun e2 => { e2 with waiting_on := false }) f).waiting_for_deps) = true := by
              rw [getS_updE, hafs, hafw, hwd]
              rcases hsk with h | h <;> simp [h]
            unfold dependency_started
            dsimp only
            rw [if_pos hcond]
            exact mem_add_transition_queue_self _ f)
        (fun a k ha => by
          have hfs : (getS a.1 i).force_stop = false := ha.1.1.trans hfst
          by_cases hkj : k = j
          · subst hkj
            rw [stop_dependents_step_noop i a k ha.2.2.1]
            exact ha
          · exact ⟨c8iinv_step w i a k hfst ha.1,
              by rw [stop_dependents_step_edge i a k j hkj hfs]; exact ha.2.1,
              by rw [stop_dependents_step_edge i a k j hkj hfs]; exact ha.2.2.1,
              fun hsk hwd => (stop_dependents_step_queues i a k f hfs).2
                (ha.2.2.2 hsk hwd)⟩)
        (List.range w.edges.length) hjmem (w, true)
        ⟨⟨rfl, rfl, rfl⟩, rfl, rfl, rfl, rfl⟩
      exact ⟨hpost.2.1, hpost.2.2.1, fun hsk hwd => hpost.2.2.2 hsk hwd⟩
    · intro hwaitf
      have hpost := foldl_extract
        (fun a : World × Bool => c8iinv w i a
          ∧ getE a.1 j = getE w j
          ∧ a.1.edges.length = w.edges.length)
        (fun a : World × Bool => c8iinv w i a
          ∧ (getE a.1 j).waiting_on = false
          ∧ (getE a.1 j).holding_acq = false)
        j
        (fun a k hkj ha => by
          have hfs : (getS a.1 i).force_stop = false := ha.1.1.trans hfst
          exact ⟨c8iinv_step w i a k hfst ha.1,
            (stop_dependents_step_edge i a k j hkj hfs).trans ha.2.1,
            (stop_dependents_step_lens i a k hfs).2.trans ha.2.2⟩)
        (fun a ha => by
          obtain ⟨hiinv, hae, hael⟩ := ha
          have hfs : (getS a.1 i).force_stop = false := hiinv.1.trans hfst
          have hAR : (getS a.1 i).auto_restart = false := hiinv.2.1.trans har
          have hRE : (getS a.1 i).restarting = false := hiinv.2.2.trans hres
          have hjlt : j < a.1.edges.length := by rw [hael]; exact hj
          unfold stop_dependents_step
          dsimp only
          rw [hae, hfdef]
          rw [if_neg hnoteto]
          rw [if_neg (hnothard _)]
          rw [if_pos (show (!(getS a.1 i).auto_restart && !(getS a.1 i).restarting
              && !(getE w j).dep_type.is_hard && (getE w j).holding_acq) = true
            by rw [hAR, hRE, hsoft, hhold]; decide)]
          rw [if_neg (show ¬((getE w j).waiting_on = true) by rw [hwaitf]; decide)]
          dsimp only
          refine ⟨⟨?_, ?_, ?_⟩, ?_, ?_⟩
          · exact (breakHold_c8 a.1 j i i).2.2.1.trans hiinv.1
          · exact (breakHold_c8 a.1 j i i).2.2.2.1.trans hiinv.2.1
          · exact (breakHold_c8 a.1 j i i).2.2.2.2.1.trans hiinv.2.2
          · rw [waiting_breakHold, hae, hwaitf]
          · exact holding_breakHold_self _ _ _ hjlt)
        (fun a k ha => by
          have hfs : (getS a.1 i).force_stop = false := ha.1.1.trans hfst
          by_cases hkj : k = j
          · subst hkj
            rw [stop_dependents_step_noop i a k ha.2.2]
            exact ha
          · exact ⟨c8iinv_step w i a k hfst ha.1,
              by rw [stop_dependents_step_edge i a k j hkj hfs]; exact ha.2.1,
              by rw [stop_dependents_step_edge i a k j hkj hfs]; exact ha.2.2⟩)
        (List.range w.edges.length) hjmem (w, true)
        ⟨⟨rfl, rfl, rfl⟩, rfl, rfl⟩
      exact ⟨hpost.2.1, hpost.2.2⟩

/-- **C8** witness: a held, waiting WAITS_FOR edge onto a stopping service
(no auto-restart, not restarting) is fully broken and the STARTED,
dependency-waiting dependent is queued for transition. -/
theorem c8_witness :
    (getE (stop_dependents { svcs := [{ service_state := .STARTED, waiting_for_deps := true }, { service_state := .STARTED, required_by := 1 }], edges := [{ efrom := 0, eto := 1, dep_type := .WAITS_FOR, waiting_on := true, holding_acq := true }] } 1).1 0).waiting_on = false
    ∧ (getE (stop_dependents { svcs := [{ service_state := .STARTED, waiting_for_deps := true }, { service_state := .STARTED, required_by := 1 }], edges := [{ efrom := 0, eto := 1, dep_type := .WAITS_FOR, waiting_on := true, holding_acq := true }] } 1).1 0).holding_acq = false
    ∧ 0 ∈ (stop_dependents { svcs := [{ service_state := .STARTED, waiting_for_deps := true }, { service_state := .STARTED, required_by := 1 }], edges := [{ efrom := 0, eto := 1, dep_type := .WAITS_FOR, waiting_on := true, holding_acq := true }] } 1).1.transition_queue :=
  have h := ((c8_stop_dependents { svcs := [{ service_state := .STARTED, waiting_for_deps := true }, { service_state := .STARTED, required_by := 1 }], edges := [{ efrom := 0, eto := 1, dep_type := .WAITS_FOR, waiting_on := true, holding_acq := true }] } 1 0 (by decide) (by decide) (by decide) (by decide) (by decide) (by decide)).2
    (by decide) (by decide) (by decide)).1 (by decide)
  ⟨h.1, h.2.1, h.2.2 (by decide) (by decide)⟩

/-! ### Claim C7 -/

theorem list_set_getD (l : List service) (i : Nat) : l.set i (l.getD i {}) = l := by
  apply List.ext_getElem?
  intro n
  by_cases hn : n = i
  · subst hn
    by_cases hlen : n < l.length
    · rw [List.getElem?_set_self (by exact hlen)]
      rw [List.getD_eq_getElem?_getD]
      rw [List.getElem?_eq_getElem hlen]
      rfl
    · rw [List.getElem?_eq_none (Nat.le_of_not_lt hlen)]
      rw [List.getElem?_eq_none (by simpa using Nat.le_of_not_lt hlen)]
  · rw [List.getElem?_set_ne (fun h => hn h.symm)]

theorem setS_getS (w : World) (i : Nat) : setS w i (getS w i) = w := by
  unfold setS getS
  rw [list_set_getD]

theorem start_check_dependencies_step_len (i : Nat) (acc : World × Bool) (k : Nat) :
    (start_check_dependencies_step i acc k).1.svcs.length = acc.1.svcs.length := by
  unfold start_check_dependencies_step
  dsimp only
  split
  · rfl
  · split
    · dsimp only
      split
      · simp [updE, setE]
      · simp [updE, setE]
    · rfl

theorem svcs_length_initiate_start (X : World) (i : Nat) :
    (initiate_start X i).svcs.length = X.svcs.length := by
  unfold initiate_start
  dsimp only
  have hfold := foldl_keep
    (fun acc : World × Bool => acc.1.svcs.length = X.svcs.length)
    (fun acc k hacc => (start_check_dependencies_step_len i acc k).trans hacc)
    (List.range (updS X i fun t =>
      { t with start_failed := false, start_skipped := false,
               service_state := .STARTING, waiting_for_deps := true }).edges.length)
    (updS X i fun t =>
      { t with start_failed := false, start_skipped := false,
               service_state := .STARTING, waiting_for_deps := true }, true)
    (by simp)
  unfold start_check_dependencies
  try dsimp only
  split
  · rw [show ∀ (Y : World) (m : Nat), (add_transition_queue Y m).svcs.length
        = Y.svcs.length from fun Y m => by rw [svcs_add_transition_queue]]
    exact hfold
  · exact hfold

theorem getS_initiate_start_self (X : World) (i : Nat) (h : i < X.svcs.length) :
    getS (initiate_start X i) i = starting_mark (getS X i) := by
  unfold initiate_start start_check_dependencies
  dsimp only
  have hP : ∀ (acc : World × Bool) (k : Nat),
      getS acc.1 i = starting_mark (getS X i) →
      getS (start_check_dependencies_step i acc k).1 i = starting_mark (getS X i) := by
    intro acc k hrec
    have hsvE : ∀ (Y : World) (j : Nat) (f : dep_edge → dep_edge),
        (updE Y j f).svcs = Y.svcs := fun _ _ _ => rfl
    unfold start_check_dependencies_step
    dsimp only
    split
    · exact hrec
    · split
      · dsimp only
        by_cases hti : (getE acc.1 k).eto = i
        · have hst : (getS acc.1 (getE acc.1 k).eto).service_state = .STARTING := by
            rw [hti, hrec]
            rfl
          have hcne : ¬ (((getS acc.1 (getE acc.1 k).eto).service_state
              != service_state_t.STARTING) = true) := by
            rw [hst]; decide
          rw [if_neg hcne]
          rw [getS_congr (hsvE _ _ _) i]
          exact hrec
        · split
          · rw [getS_congr (hsvE _ _ _) i,
                getS_congr (svcs_add_prop_queue _ _) i,
                getS_updS_ne _ _ _ _ hti]
            exact hrec
          · rw [getS_congr (hsvE _ _ _) i]
            exact hrec
      · exact hrec
  have hbase : getS (updS X i fun t =>
      { t with start_failed := false, start_skipped := false,
               service_state := .STARTING, waiting_for_deps := true }) i
      = starting_mark (getS X i) :=
    getS_updS_self X i _ h
  have hfold := foldl_keep
    (fun acc : World × Bool => getS acc.1 i = starting_mark (getS X i))
    (fun acc k hacc => hP acc k hacc)
    (List.range (updS X i fun t =>
      { t with start_failed := false, start_skipped := false,
               service_state := .STARTING, waiting_for_deps := true }).edges.length)
    (updS X i fun t =>
      { t with start_failed := false, start_skipped := false,
               service_state := .STARTING, waiting_for_deps := true }, true)
    hbase
  split
  · rw [getS_congr (svcs_add_transition_queue _ _) i]
    exact hfold
  · exact hfold

@[simp] theorem getS_service_active (w : World) (i k : Nat) :
    getS (service_active w i) k = getS w k := rfl

/-- After `do_start` on a record with `start_explicit` already set and not
in the STOPPED-while-pinned configuration, the record has desired state
STARTED, keeps its explicit hold and activation count, is not STOPPED,
and is either pinned or not STOPPING — exactly the configuration on which
a repeated `start()` is a no-op. -/
theorem do_start_post (G : Nat) (W1 : World) (i : Nat) (hlen : i < W1.svcs.length)
    (he : (getS W1 i).start_explicit = true)
    (hng : ¬(((getS W1 i).service_state == .STOPPED && (getS W1 i).pinned_stopped) = true)) :
    i < (do_start (G+1) W1 i).svcs.length
    ∧ (getS (do_start (G+1) W1 i) i).start_explicit = true
    ∧ (getS (do_start (G+1) W1 i) i).desired_state = .STARTED
    ∧ (getS (do_start (G+1) W1 i) i).service_state ≠ .STOPPED
    ∧ ((getS (do_start (G+1) W1 i) i).pinned_stopped = true
       ∨ (getS (do_start (G+1) W1 i) i).service_state ≠ .STOPPING)
    ∧ (getS (do_start (G+1) W1 i) i).required_by = (getS W1 i).required_by := by
  have hW2 : getS (setS W1 i { getS W1 i with desired_state := .STARTED }) i
      = { getS W1 i with desired_state := .STARTED } := getS_setS_self _ _ _ hlen
  have hW2len : i < (setS W1 i { getS W1 i with desired_state := .STARTED }).svcs.length := by
    simpa using hlen
  have hmain : ∀ X : World, i < X.svcs.length →
      (getS X i).start_explicit = true →
      (getS X i).desired_state = .STARTED →
      (getS X i).required_by = (getS W1 i).required_by →
      (i < (initiate_start X i).svcs.length
       ∧ (getS (initiate_start X i) i).start_explicit = true
       ∧ (getS (initiate_start X i) i).desired_state = .STARTED
       ∧ (getS (initiate_start X i) i).service_state ≠ .STOPPED
       ∧ ((getS (initiate_start X i) i).pinned_stopped = true
          ∨ (getS (initiate_start X i) i).service_state ≠ .STOPPING)
       ∧ (getS (initiate_start X i) i).required_by = (getS W1 i).required_by) := by
    intro X hXlen hXe hXd hXr
    have hR := getS_initiate_start_self X i hXlen
    refine ⟨?_, ?_, ?_, ?_, Or.inr ?_, ?_⟩
    · rw [svcs_length_initiate_start]
      exact hXlen
    · rw [hR]
      exact hXe
    · rw [hR]
      exact hXd
    · rw [hR]
      simp [starting_mark]
    · rw [hR]
      simp [starting_mark]
    · rw [hR]
      exact hXr
  simp only [do_start]
  try dsimp only
  by_cases hpin : (getS W1 i).pinned_stopped = true
  · rw [if_pos hpin]
    have hact : ((getS W1 i).service_state != .STOPPED) = true := by
      apply bne_iff_ne.mpr
      intro hx
      exact hng (by rw [hx, hpin]; decide)
    rw [if_neg (show ¬((!((getS W1 i).service_state != .STOPPED)) = true)
        by rw [hact]; decide)]
    refine ⟨hW2len, ?_, ?_, ?_, Or.inl ?_, ?_⟩
    · rw [hW2]
      exact he
    · rw [hW2]
    · rw [hW2]
      exact bne_iff_ne.mp hact
    · rw [hW2]
      exact hpin
    · rw [hW2]
  · rw [if_neg hpin]
    by_cases hact : ((getS W1 i).service_state != .STOPPED) = true
    · rw [if_pos hact]
      by_cases hnstp : ((getS W1 i).service_state != .STOPPING) = true
      · rw [if_pos hnstp]
        refine ⟨hW2len, ?_, ?_, ?_, Or.inr ?_, ?_⟩
        · rw [hW2]
          exact he
        · rw [hW2]
        · rw [hW2]
          exact bne_iff_ne.mp hact
        · rw [hW2]
          exact bne_iff_ne.mp hnstp
        · rw [hW2]
      · rw [if_neg hnstp]
        rw [if_neg (show ¬((!(can_interrupt_stop
            (setS W1 i { getS W1 i with desired_state := .STARTED }) i)) = true)
          by simp [can_interrupt_stop])]
        refine hmain _ ?_ ?_ ?_ ?_
        · simpa using hlen
        · rw [getS_notify_listeners, hW2]
          exact he
        · rw [getS_notify_listeners, hW2]
        · rw [getS_notify_listeners, hW2]
    · rw [if_neg hact]
      by_cases hpr : (!(getS W1 i).prop_release) = true
      · rw [if_pos hpr]
        refine hmain _ ?_ ?_ ?_ ?_
        · rw [show ∀ (Y : World) (m : Nat), (add_prop_queue Y m).svcs.length
              = Y.svcs.length from fun Y m => by rw [svcs_add_prop_queue]]
          rw [length_svcs_updS]
          simpa using hlen
        · rw [getS_add_prop_queue, getS_updS_self _ _ _ (by simpa using hlen),
              getS_service_active, hW2]
          exact he
        · rw [getS_add_prop_queue, getS_updS_self _ _ _ (by simpa using hlen),
              getS_service_active, hW2]
        · rw [getS_add_prop_queue, getS_updS_self _ _ _ (by simpa using hlen),
              getS_service_active, hW2]
      · rw [if_neg hpr]
        refine hmain _ ?_ ?_ ?_ ?_
        · rw [length_svcs_updS]
          simpa using hlen
        · rw [getS_updS_self _ _ _ (by simpa using hlen), getS_service_active, hW2]
          exact he
        · rw [getS_updS_self _ _ _ (by simpa using hlen), getS_service_active, hW2]
        · rw [getS_updS_self _ _ _ (by simpa using hlen), getS_service_active, hW2]

/-- On a record already holding an explicit start with desired state
STARTED, not STOPPED, and (unless pinned) not STOPPING, `start` is the
identity. -/
theorem start_noop (F : Nat) (R : World) (i : Nat) (hlen : i < R.svcs.length)
    (hA : (getS R i).start_explicit = true)
    (hB : (getS R i).desired_state = .STARTED)
    (hC : (getS R i).service_state ≠ .STOPPED)
    (hD : (getS R i).pinned_stopped = true ∨ (getS R i).service_state ≠ .STOPPING) :
    start (F+1) R i = R := by
  have hg : ¬(((getS R i).service_state == .STOPPED && (getS R i).pinned_stopped) = true) := by
    intro hx
    exact hC (eq_of_beq ((Bool.and_eq_true _ _).mp hx).1)
  simp only [start]
  try dsimp only
  rw [if_neg hg]
  rw [if_neg (show ¬((!(getS R i).start_explicit) = true) by rw [hA]; decide)]
  cases F with
  | zero => rfl
  | succ G =>
    simp only [do_start]
    try dsimp only
    have hsetS : setS R i { getS R i with desired_state := .STARTED } = R := by
      rw [show ({ getS R i with desired_state := service_state_t.STARTED } : service)
          = getS R i from by rw [← hB]]
      exact setS_getS R i
    have hact : ((getS R i).service_state != .STOPPED) = true := bne_iff_ne.mpr hC
    by_cases hpin : (getS R i).pinned_stopped = true
    · rw [if_pos hpin]
      rw [if_neg (show ¬((!((getS R i).service_state != .STOPPED)) = true)
          by rw [hact]; decide)]
      exact hsetS
    · rw [if_neg hpin]
      rw [if_pos hact]
      have hnstp : (getS R i).service_state ≠ .STOPPING := by
        rcases hD with h | h
        · exact absurd h hpin
        · exact h
      rw [if_pos (bne_iff_ne.mpr hnstp)]
      exact hsetS

/-- **C7**: starting twice is starting once — the second `start()` finds
`start_explicit` already set and changes nothing, and across both calls
`required_by` rises exactly once (when the first call took the explicit
hold; the STOPPED-while-pinned early return excluded). -/
theorem c7_start_idempotent :
    ∀ fuel w i, i < w.svcs.length →
      start (fuel+1) (start (fuel+1) w i) i = start (fuel+1) w i
      ∧ ((getS w i).start_explicit = false →
        ¬(((getS w i).service_state == .STOPPED && (getS w i).pinned_stopped) = true) →
        (getS (start (fuel+1) w i) i).required_by = (getS w i).required_by + 1) := by
  intro fuel w i hlen
  by_cases hg : (((getS w i).service_state == .STOPPED && (getS w i).pinned_stopped) = true)
  · have hR : start (fuel+1) w i = w := by
      simp only [start]
      try dsimp only
      rw [if_pos hg]
    constructor
    · rw [hR]
      exact hR
    · intro _ hng
      exact absurd hg hng
  · obtain ⟨W1, hW1⟩ : ∃ W1, (if (!(getS w i).start_explicit) = true then
        setS w i { getS w i with required_by := (getS w i).required_by + 1, start_explicit := true }
      else w) = W1 := ⟨_, rfl⟩
    have hred : start (fuel+1) w i = do_start fuel W1 i := by
      simp only [start]
      try dsimp only
      rw [if_neg hg, hW1]
    have hW1len : i < W1.svcs.length := by
      rw [← hW1]
      split
      · simpa using hlen
      · exact hlen
    have hW1e : (getS W1 i).start_explicit = true := by
      rw [← hW1]
      split
      · rw [getS_setS_self _ _ _ hlen]
      · rename_i hx
        simp at hx
        exact hx
    have hW1s : (getS W1 i).service_state = (getS w i).service_state := by
      rw [← hW1]
      split
      · rw [getS_setS_self _ _ _ hlen]
      · rfl
    have hW1p : (getS W1 i).pinned_stopped = (getS w i).pinned_stopped := by
      rw [← hW1]
      split
      · rw [getS_setS_self _ _ _ hlen]
      · rfl
    have hng2 : ¬(((getS W1 i).service_state == .STOPPED
        && (getS W1 i).pinned_stopped) = true) := by
      rw [hW1s, hW1p]
      exact hg
    constructor
    · rw [hred]
      cases fuel with
      | zero =>
        have h0 : do_start 0 W1 i = W1 := rfl
        rw [h0]
        simp only [start]
        try dsimp only
        rw [if_neg hng2]
        rw [if_neg (show ¬((!(getS W1 i).start_explicit) = true) by rw [hW1e]; decide)]
        try rfl
      | succ G =>
        obtain ⟨hRlen, hA, hB, hC, hD, _⟩ := do_start_post G W1 i hW1len hW1e hng2
        exact start_noop (G+1) _ i hRlen hA hB hC hD
    · intro hexp hng
      rw [hred]
      have hW1r : (getS W1 i).required_by = (getS w i).required_by + 1 := by
        rw [← hW1]
        rw [if_pos (show (!(getS w i).start_explicit) = true by rw [hexp]; decide)]
        rw [getS_setS_self _ _ _ hlen]
      cases fuel with
      | zero =>
        have h0 : do_start 0 W1 i = W1 := rfl
        rw [h0]
        exact hW1r
      | succ G =>
        obtain ⟨_, _, _, _, _, hreq⟩ := do_start_post G W1 i hW1len hW1e hng2
        rw [hreq]
        exact hW1r

/-- **C7** witness: a fresh STOPPED service, started twice. -/
theorem c7_witness :
    start 2 (start 2 { svcs := [{}] } 0) 0 = start 2 { svcs := [{}] } 0
    ∧ (getS (start 2 { svcs := [{}] } 0) 0).required_by = 1 :=
  ⟨(c7_start_idempotent 1 { svcs := [{}] } 0 (by decide)).1,
   (c7_start_idempotent 1 { svcs := [{}] } 0 (by decide)).2 (by decide) (by decide)⟩

/-! ### Claim C4 -/

theorem foldl_fix {α : Type} {step : α → Nat → α} :
    ∀ (l : List Nat) (a : α), (∀ k, k ∈ l → step a k = a) → l.foldl step a = a := by
  intro l
  induction l with
  | nil =>
    intro a h
    rfl
  | cons x xs ih =>
    intro a h
    rw [List.foldl_cons, h x (by simp)]
    exact ih a (fun k hk => h k (by simp [hk]))

theorem start_check_dependencies_iso (X : World) (i : Nat)
    (hiso : ∀ j, j < X.edges.length → (getE X j).efrom ≠ i) :
    start_check_dependencies X i = (X, true) := by
  unfold start_check_dependencies
  apply foldl_fix
  intro k hk
  unfold start_check_dependencies_step
  dsimp only
  rw [if_pos (bne_iff_ne.mpr (hiso k (List.mem_range.mp hk)))]

theorem require_fold_iso (X : World) (i : Nat)
    (hiso : ∀ j, j < X.edges.length → (getE X j).efrom ≠ i) :
    (List.range X.edges.length).foldl (do_propagation_require_step i) X = X := by
  apply foldl_fix
  intro k hk
  unfold do_propagation_require_step
  dsimp only
  rw [if_neg (show ¬(((getE X k).efrom == i) = true) from
    fun h => hiso k (List.mem_range.mp hk) (eq_of_beq h))]

theorem release_dependencies_iso (X : World) (i : Nat)
    (hiso : ∀ j, j < X.edges.length → (getE X j).efrom ≠ i) :
    release_dependencies X i = X := by
  unfold release_dependencies
  apply foldl_fix
  intro k hk
  unfold release_dependencies_step
  dsimp only
  rw [if_neg (show ¬((((getE X k).efrom == i) && (getE X k).holding_acq) = true) from
    fun h => hiso k (List.mem_range.mp hk)
      (eq_of_beq ((Bool.and_eq_true _ _).mp h).1))]

theorem stop_dependents_iso (X : World) (i : Nat)
    (hiso : ∀ j, j < X.edges.length → (getE X j).eto ≠ i) :
    stop_dependents X i = (X, true) := by
  unfold stop_dependents
  apply foldl_fix
  intro k hk
  unfold stop_dependents_step
  dsimp only
  rw [if_pos (bne_iff_ne.mpr (hiso k (List.mem_range.mp hk)))]

theorem softbreak_fold_iso (X : World) (i : Nat)
    (hiso : ∀ j, j < X.edges.length → (getE X j).eto ≠ i) :
    (List.range X.edges.length).foldl (stopped_softbreak_step i) X = X := by
  apply foldl_fix
  intro k hk
  unfold stopped_softbreak_step
  dsimp only
  rw [if_pos (show (((getE X k).eto != i) || (getE X k).dep_type.is_hard) = true by
    rw [bne_iff_ne.mpr (hiso k (List.mem_range.mp hk))]
    rfl)]

theorem depstop_fold_iso (X : World) (i : Nat)
    (hiso : ∀ j, j < X.edges.length → (getE X j).efrom ≠ i) :
    (List.range X.edges.length).foldl (stopped_depstop_step i) X = X := by
  apply foldl_fix
  intro k hk
  unfold stopped_depstop_step
  dsimp only
  rw [if_neg (show ¬(((getE X k).efrom == i) = true) from
    fun h => hiso k (List.mem_range.mp hk) (eq_of_beq h))]

theorem notify_fold_iso (X : World) (i : Nat)
    (hiso : ∀ j, j < X.edges.length → (getE X j).eto ≠ i) :
    (List.range X.edges.length).foldl (started_notify_step i) X = X := by
  apply foldl_fix
  intro k hk
  unfold started_notify_step
  dsimp only
  rw [if_neg (show ¬(((getE X k).eto == i) = true) from
    fun h => hiso k (List.mem_range.mp hk) (eq_of_beq h))]

theorem reattach_fold_iso (X : World) (i : Nat)
    (hiso : ∀ j, j < X.edges.length → (getE X j).eto ≠ i) :
    (List.range X.edges.length).foldl (reattach_step i) X = X := by
  apply foldl_fix
  intro k hk
  unfold reattach_step
  dsimp only
  rw [if_pos (show (((getE X k).eto != i) || (getE X k).dep_type.is_hard) = true by
    rw [bne_iff_ne.mpr (hiso k (List.mem_range.mp hk))]
    rfl)]

theorem check_deps_started_iso (X : World) (i : Nat)
    (hiso : ∀ j, j < X.edges.length → (getE X j).efrom ≠ i) :
    check_deps_started X i = true := by
  unfold check_deps_started
  rw [List.all_eq_true]
  intro k hk
  dsimp only
  rw [show ((getE X k).efrom == i) = false from
    beq_eq_false_iff_ne.mpr (hiso k (List.mem_range.mp hk))]
  rfl

theorem stop_check_dependents_iso (X : World) (i : Nat)
    (hiso : ∀ j, j < X.edges.length → (getE X j).eto ≠ i) :
    stop_check_dependents X i = true := by
  unfold stop_check_dependents
  rw [List.all_eq_true]
  intro k hk
  dsimp only
  rw [show ((getE X k).eto == i) = false from
    beq_eq_false_iff_ne.mpr (hiso k (List.mem_range.mp hk))]
  rfl

theorem prop_queue_add_of_nil (w : World) (i : Nat) (h : w.prop_queue = []) :
    (add_prop_queue w i).prop_queue = [i] := by
  unfold add_prop_queue
  rw [h]
  rw [if_neg (List.not_mem_nil i)]
  rfl

theorem transition_queue_add_of_nil (w : World) (i : Nat)
    (h : w.transition_queue = []) :
    (add_transition_queue w i).transition_queue = [i] := by
  unfold add_transition_queue
  rw [h]
  rw [if_neg (List.not_mem_nil i)]
  rfl

@[simp] theorem prop_queue_service_active (w : World) (i : Nat) :
    (service_active w i).prop_queue = w.prop_queue := rfl

@[simp] theorem transition_queue_service_active (w : World) (i : Nat) :
    (service_active w i).transition_queue = w.transition_queue := rfl

@[simp] theorem prop_queue_service_inactive (w : World) (i : Nat) :
    (service_inactive w i).prop_queue = w.prop_queue := rfl

@[simp] theorem transition_queue_service_inactive (w : World) (i : Nat) :
    (service_inactive w i).transition_queue = w.transition_queue := rfl

@[simp] theorem getS_service_inactive (w : World) (i k : Nat) :
    getS (service_inactive w i) k = getS w k := rfl

@[simp] theorem edges_updS (w : World) (i : Nat) (f : service → service) :
    (updS w i f).edges = w.edges := rfl

@[simp] theorem prop_queue_updS (w : World) (i : Nat) (f : service → service) :
    (updS w i f).prop_queue = w.prop_queue := rfl

@[simp] theorem transition_queue_updS (w : World) (i : Nat) (f : service → service) :
    (updS w i f).transition_queue = w.transition_queue := rfl

/-- `initiate_start` on a service with no outgoing edges reduces to the
record marking plus the transition enqueue. -/
theorem initiate_start_iso (X : World) (i : Nat)
    (hiso : ∀ j, j < X.edges.length → (getE X j).efrom ≠ i) :
    initiate_start X i = add_transition_queue (updS X i fun t =>
      { t with start_failed := false, start_skipped := false, service_state := .STARTING, waiting_for_deps := true }) i := by
  unfold initiate_start
  try dsimp only
  rw [start_check_dependencies_iso (updS X i fun t =>
      { t with start_failed := false, start_skipped := false, service_state := .STARTING, waiting_for_deps := true }) i
    (fun j hj => hiso j hj)]
  try dsimp only
  rw [if_pos rfl]

/-- Round-trip phase 1: `start` on an isolated, fully-at-rest STOPPED
service takes the explicit hold, marks desire and require propagation,
moves to STARTING and queues itself for propagation and transition. -/
theorem c4_start (fuel : Nat) (w : World) (i : Nat) (hlen : i < w.svcs.length)
    (hisoF : ∀ j, j < w.edges.length → (getE w j).efrom ≠ i)
    (hst : (getS w i).service_state = .STOPPED)
    (hps : (getS w i).pinned_stopped = false)
    (hexp : (getS w i).start_explicit = false)
    (hprel : (getS w i).prop_release = false)
    (hpq : w.prop_queue = [])
    (htq : w.transition_queue = []) :
    getS (start (fuel+1+1) w i) i
      = { getS w i with required_by := (getS w i).required_by + 1, start_explicit := true, desired_state := .STARTED, prop_require := true, prop_release := false, start_failed := false, start_skipped := false, service_state := .STARTING, waiting_for_deps := true }
    ∧ (start (fuel+1+1) w i).prop_queue = [i]
    ∧ (start (fuel+1+1) w i).transition_queue = [i]
    ∧ (start (fuel+1+1) w i).edges = w.edges
    ∧ (start (fuel+1+1) w i).svcs.length = w.svcs.length := by
  obtain ⟨W1, hW1def⟩ : ∃ X, setS w i { getS w i with required_by := (getS w i).required_by + 1, start_explicit := true } = X := ⟨_, rfl⟩
  have hrec1 : getS W1 i = { getS w i with required_by := (getS w i).required_by + 1, start_explicit := true } := by
    rw [← hW1def]
    exact getS_setS_self _ _ _ hlen
  have hlen1 : i < W1.svcs.length := by
    rw [← hW1def]
    simpa using hlen
  have hred1 : start (fuel+1+1) w i = do_start (fuel+1) W1 i := by
    simp only [start]
    try dsimp only
    rw [if_neg (show ¬(((getS w i).service_state == .STOPPED && (getS w i).pinned_stopped) = true) by rw [hps]; simp)]
    rw [if_pos (show (!(getS w i).start_explicit) = true by simp [hexp])]
    rw [hW1def]
  have hred2 : do_start (fuel+1) W1 i
      = initiate_start (add_prop_queue (updS (service_active (setS W1 i { getS W1 i with desired_state := .STARTED }) i) i fun t => { t with prop_require := !(getS W1 i).prop_release, prop_release := false }) i) i := by
    simp only [do_start]
    try dsimp only
    rw [if_neg (show ¬((getS W1 i).pinned_stopped = true) by rw [hrec1]; simp [hps])]
    rw [if_neg (show ¬(((getS W1 i).service_state != .STOPPED) = true) by rw [hrec1]; simp [hst])]
    rw [if_pos (show (!(getS W1 i).prop_release) = true by rw [hrec1]; simp [hprel])]
  obtain ⟨W4, hW4def⟩ : ∃ X, add_prop_queue (updS (service_active (setS W1 i { getS W1 i with desired_state := .STARTED }) i) i fun t => { t with prop_require := !(getS W1 i).prop_release, prop_release := false }) i = X := ⟨_, rfl⟩
  rw [hW4def] at hred2
  have hedges4 : W4.edges = w.edges := by
    rw [← hW4def, ← hW1def]
    simp
  have hlen4 : i < W4.svcs.length := by
    rw [← hW4def]
    simpa using hlen1
  have hsl4 : W4.svcs.length = w.svcs.length := by
    rw [← hW4def, ← hW1def]
    simp
  have hpq4 : W4.prop_queue = [i] := by
    rw [← hW4def]
    refine prop_queue_add_of_nil _ _ ?_
    rw [prop_queue_updS, prop_queue_service_active, prop_queue_setS, ← hW1def,
        prop_queue_setS]
    exact hpq
  have htq4 : W4.transition_queue = [] := by
    rw [← hW4def, transition_queue_add_prop_queue, transition_queue_updS,
        transition_queue_service_active, transition_queue_setS, ← hW1def,
        transition_queue_setS]
    exact htq
  have hrec4 : getS W4 i = { getS w i with required_by := (getS w i).required_by + 1, start_explicit := true, desired_state := .STARTED, prop_require := true, prop_release := false } := by
    rw [← hW4def, getS_add_prop_queue, getS_updS_self _ _ _ (by simpa using hlen1),
        getS_service_active, getS_setS_self _ _ _ hlen1, hrec1]
    simp [hprel]
  have hisoW4 : ∀ j, j < W4.edges.length → (getE W4 j).efrom ≠ i := by
    intro j hj
    rw [getE_congr hedges4 j]
    rw [hedges4] at hj
    exact hisoF j hj
  have hred3 := initiate_start_iso W4 i hisoW4
  have hfull := (hred1.trans hred2).trans hred3
  rw [hfull]
  refine ⟨?_, ?_, ?_, ?_, ?_⟩
  · rw [getS_add_transition_queue, getS_updS_self _ _ _ hlen4, hrec4]
  · rw [prop_queue_add_transition_queue, prop_queue_updS, hpq4]
  · exact transition_queue_add_of_nil _ _
      (by rw [transition_queue_updS]; exact htq4)
  · rw [edges_add_transition_queue, edges_updS, hedges4]
  · rw [show (add_transition_queue (updS W4 i fun t => { t with start_failed := false, start_skipped := false, service_state := .STARTING, waiting_for_deps := true }) i).svcs.length = W4.svcs.length from by simp]
    exact hsl4

theorem process_queues_cons_prop (fuel : Nat) (w : World) (i : Nat) (rest : List Nat)
    (h : w.prop_queue = i :: rest) :
    process_queues (fuel+1) w
      = process_queues fuel (do_propagation fuel { w with prop_queue := rest } i) := by
  obtain ⟨sv, ed, pq, tq, cq, a, sd, ev⟩ := w
  dsimp only at h ⊢
  subst h
  rfl

theorem process_queues_cons_trans (fuel : Nat) (w : World) (i : Nat) (rest : List Nat)
    (hp : w.prop_queue = []) (h : w.transition_queue = i :: rest) :
    process_queues (fuel+1) w
      = process_queues fuel (execute_transition fuel { w with transition_queue := rest } i) := by
  obtain ⟨sv, ed, pq, tq, cq, a, sd, ev⟩ := w
  dsimp only at hp h ⊢
  subst hp
  subst h
  rfl

theorem process_queues_nil (fuel : Nat) (w : World)
    (hp : w.prop_queue = []) (ht : w.transition_queue = []) :
    process_queues (fuel+1) w = w := by
  obtain ⟨sv, ed, pq, tq, cq, a, sd, ev⟩ := w
  dsimp only at hp ht
  subst hp
  subst ht
  rfl

/-- Round-trip: `started` with no console involvement and desire STARTED
just records STARTED and notifies. -/
theorem c4_started (fuel : Nat) (Xs : World) (i : Nat) (hlen : i < Xs.svcs.length)
    (hisoT : ∀ j, j < Xs.edges.length → (getE Xs j).eto ≠ i)
    (hhc : (getS Xs i).have_console = false)
    (hfs : (getS Xs i).force_stop = false)
    (hds : (getS Xs i).desired_state = .STARTED) :
    started (fuel+1) Xs i
      = notify_listeners (updS Xs i fun t => { t with service_state := .STARTED }) i .STARTED := by
  have hrec2 : getS (notify_listeners (updS Xs i fun t => { t with service_state := .STARTED }) i .STARTED) i
      = { getS Xs i with service_state := .STARTED } := by
    rw [getS_notify_listeners, getS_updS_self _ _ _ hlen]
  have hisoN : ∀ j, j < (notify_listeners (updS Xs i fun t => { t with service_state := .STARTED }) i .STARTED).edges.length →
      (getE (notify_listeners (updS Xs i fun t => { t with service_state := .STARTED }) i .STARTED) j).eto ≠ i :=
    fun j hj => hisoT j hj
  simp only [started]
  try dsimp only
  rw [if_neg (show ¬(((getS Xs i).have_console && !(getS Xs i).onstart_flags.runs_on_console) = true) by rw [hhc]; simp)]
  rw [if_neg (show ¬(((getS (notify_listeners (updS Xs i fun t => { t with service_state := .STARTED }) i .STARTED) i).force_stop || ((getS (notify_listeners (updS Xs i fun t => { t with service_state := .STARTED }) i .STARTED) i).desired_state == .STOPPED)) = true) by rw [hrec2]; simp [hfs, hds])]
  exact notify_fold_iso _ i hisoN

/-- Round-trip phase 2: draining the queues after `start` runs the require
propagation (a no-op for an isolated service), then the transition to
STARTED via all_deps_started and the default bring_up. -/
theorem c4_drain_up (fuel : Nat) (X : World) (i : Nat) (hlen : i < X.svcs.length)
    (hiso : ∀ j, j < X.edges.length → (getE X j).efrom ≠ i ∧ (getE X j).eto ≠ i)
    (hsst : (getS X i).service_state = .STARTING)
    (hds : (getS X i).desired_state = .STARTED)
    (hpr : (getS X i).prop_require = true)
    (hprel : (getS X i).prop_release = false)
    (hpst : (getS X i).prop_start = false)
    (hpsp : (getS X i).prop_stop = false)
    (hpf : (getS X i).prop_failure = false)
    (hhc : (getS X i).have_console = false)
    (hfs : (getS X i).force_stop = false)
    (hsoc : (getS X i).onstart_flags.starts_on_console = false)
    (hpq : X.prop_queue = [i])
    (htq : X.transition_queue = [i]) :
    getS (process_queues (fuel+1+1+1+1+1) X) i
      = { getS X i with prop_require := false, waiting_for_deps := false, service_state := .STARTED, restarting := false }
    ∧ (process_queues (fuel+1+1+1+1+1) X).prop_queue = []
    ∧ (process_queues (fuel+1+1+1+1+1) X).transition_queue = []
    ∧ (process_queues (fuel+1+1+1+1+1) X).edges = X.edges
    ∧ (process_queues (fuel+1+1+1+1+1) X).svcs.length = X.svcs.length := by
  obtain ⟨Y1, hY1⟩ : ∃ Z, ({ X with prop_queue := [] } : World) = Z := ⟨_, rfl⟩
  have hY1s : getS Y1 i = getS X i := by rw [← hY1]; rfl
  have hY1edges : Y1.edges = X.edges := by rw [← hY1]
  have hY1lenE : Y1.svcs.length = X.svcs.length := by rw [← hY1]
  have hY1pq : Y1.prop_queue = [] := by rw [← hY1]
  have hY1tq : Y1.transition_queue = [i] := by rw [← hY1]; exact htq
  have h1 : process_queues (fuel+1+1+1+1+1) X
      = process_queues (fuel+1+1+1+1) (do_propagation (fuel+1+1+1+1) Y1 i) := by
    rw [process_queues_cons_prop (fuel+1+1+1+1) X i [] hpq, hY1]
  have hisoY1F : ∀ j, j < Y1.edges.length → (getE Y1 j).efrom ≠ i := by
    intro j hj
    rw [getE_congr hY1edges j]
    rw [hY1edges] at hj
    exact (hiso j hj).1
  obtain ⟨Z1, hZ1⟩ : ∃ Z, updS Y1 i (fun t => { t with prop_require := false }) = Z := ⟨_, rfl⟩
  have hZ1rec : getS Z1 i = { getS X i with prop_require := false } := by
    rw [← hZ1, getS_updS_self _ _ _ (by rw [hY1lenE]; exact hlen), hY1s]
  have h2 : do_propagation (fuel+1+1+1+1) Y1 i = Z1 := by
    unfold do_propagation
    try dsimp only
    rw [if_pos (show (getS Y1 i).prop_require = true by rw [hY1s]; exact hpr)]
    rw [require_fold_iso Y1 i hisoY1F]
    rw [hZ1]
    rw [if_neg (show ¬((getS Z1 i).prop_release = true) by rw [hZ1rec]; simp [hprel])]
    rw [if_neg (show ¬((getS Z1 i).prop_failure = true) by rw [hZ1rec]; simp [hpf])]
    rw [if_neg (show ¬((getS Z1 i).prop_start = true) by rw [hZ1rec]; simp [hpst])]
    rw [if_neg (show ¬((getS Z1 i).prop_stop = true) by rw [hZ1rec]; simp [hpsp])]
  have hZ1pq : Z1.prop_queue = [] := by
    rw [← hZ1, prop_queue_updS]
    exact hY1pq
  have hZ1tq : Z1.transition_queue = [i] := by
    rw [← hZ1, transition_queue_updS]
    exact hY1tq
  have hZ1edges : Z1.edges = X.edges := by
    rw [← hZ1, edges_updS]
    exact hY1edges
  have hZ1len : Z1.svcs.length = X.svcs.length := by
    rw [← hZ1, length_svcs_updS]
    exact hY1lenE
  obtain ⟨V, hV⟩ : ∃ Z, ({ Z1 with transition_queue := [] } : World) = Z := ⟨_, rfl⟩
  have hVrec : getS V i = { getS X i with prop_require := false } := by
    rw [← hV]
    exact hZ1rec
  have hVedges : V.edges = X.edges := by
    rw [← hV]
    exact hZ1edges
  have hVlen : V.svcs.length = X.svcs.length := by
    rw [← hV]
    exact hZ1len
  have hVpq : V.prop_queue = [] := by
    rw [← hV]
    exact hZ1pq
  have hVtq : V.transition_queue = [] := by
    rw [← hV]
  have h3 : process_queues (fuel+1+1+1+1) Z1
      = process_queues (fuel+1+1+1) (execute_transition (fuel+1+1+1) V i) := by
    rw [process_queues_cons_trans (fuel+1+1+1) Z1 i [] hZ1pq hZ1tq, hV]
  have hisoVF : ∀ j, j < V.edges.length → (getE V j).efrom ≠ i := by
    intro j hj
    rw [getE_congr hVedges j]
    rw [hVedges] at hj
    exact (hiso j hj).1
  have h4 : execute_transition (fuel+1+1+1) V i = all_deps_started (fuel+1+1+1) V i := by
    unfold execute_transition
    try dsimp only
    rw [if_pos (show ((getS V i).service_state == .STARTING || ((getS V i).service_state == .STARTED && (getS V i).restarting)) = true by rw [hVrec]; simp [hsst])]
    rw [if_pos (check_deps_started_iso V i hisoVF)]
  obtain ⟨W1s, hW1s⟩ : ∃ Z, updS V i (fun t => { t with waiting_for_deps := false }) = Z := ⟨_, rfl⟩
  have hW1rec : getS W1s i = { getS X i with prop_require := false, waiting_for_deps := false } := by
    rw [← hW1s, getS_updS_self _ _ _ (by rw [hVlen]; exact hlen), hVrec]
  have hW1edges : W1s.edges = X.edges := by
    rw [← hW1s, edges_updS]
    exact hVedges
  have hW1len : W1s.svcs.length = X.svcs.length := by
    rw [← hW1s, length_svcs_updS]
    exact hVlen
  have hW1pq : W1s.prop_queue = [] := by
    rw [← hW1s, prop_queue_updS]
    exact hVpq
  have hW1tq : W1s.transition_queue = [] := by
    rw [← hW1s, transition_queue_updS]
    exact hVtq
  have h5 : all_deps_started (fuel+1+1+1) V i
      = (List.range (updS (started (fuel+1) W1s i) i fun t => { t with restarting := false }).edges.length).foldl (reattach_step i) (updS (started (fuel+1) W1s i) i fun t => { t with restarting := false }) := by
    simp only [all_deps_started]
    try dsimp only
    rw [if_neg (show ¬(((getS V i).onstart_flags.starts_on_console && !(getS V i).have_console) = true) by rw [hVrec]; simp [hsoc])]
    rw [hW1s]
    rw [if_neg (show ¬((!(can_proceed_to_start W1s i)) = true) by simp [can_proceed_to_start])]
    simp only [bring_up]
    try dsimp only
    rw [if_pos (show True from trivial)]
  have hisoW1T : ∀ j, j < W1s.edges.length → (getE W1s j).eto ≠ i := by
    intro j hj
    rw [getE_congr hW1edges j]
    rw [hW1edges] at hj
    exact (hiso j hj).2
  have h6 := c4_started fuel W1s i (by rw [hW1len]; exact hlen) hisoW1T
    (by rw [hW1rec]; exact hhc) (by rw [hW1rec]; exact hfs) (by rw [hW1rec]; exact hds)
  obtain ⟨S1, hS1⟩ : ∃ Z, notify_listeners (updS W1s i fun t => { t with service_state := .STARTED }) i .STARTED = Z := ⟨_, rfl⟩
  rw [hS1] at h6
  have hS1rec : getS S1 i = { getS X i with prop_require := false, waiting_for_deps := false, service_state := .STARTED } := by
    rw [← hS1, getS_notify_listeners, getS_updS_self _ _ _ (by rw [hW1len]; exact hlen), hW1rec]
  have hS1edges : S1.edges = X.edges := by
    rw [← hS1, edges_notify_listeners, edges_updS]
    exact hW1edges
  have hS1len : S1.svcs.length = X.svcs.length := by
    rw [← hS1]
    rw [show (notify_listeners (updS W1s i fun t => { t with service_state := .STARTED }) i .STARTED).svcs.length = W1s.svcs.length from by simp]
    exact hW1len
  have hS1pq : S1.prop_queue = [] := by
    rw [← hS1, prop_queue_notify, prop_queue_updS]
    exact hW1pq
  have hS1tq : S1.transition_queue = [] := by
    rw [← hS1, transition_queue_notify, transition_queue_updS]
    exact hW1tq
  obtain ⟨W2s, hW2s⟩ : ∃ Z, updS S1 i (fun t => { t with restarting := false }) = Z := ⟨_, rfl⟩
  rw [h6, hW2s] at h5
  have hW2rec : getS W2s i = { getS X i with prop_require := false, waiting_for_deps := false, service_state := .STARTED, restarting := false } := by
    rw [← hW2s, getS_updS_self _ _ _ (by rw [hS1len]; exact hlen), hS1rec]
  have hW2edges : W2s.edges = X.edges := by
    rw [← hW2s, edges_updS]
    exact hS1edges
  have hW2len : W2s.svcs.length = X.svcs.length := by
    rw [← hW2s, length_svcs_updS]
    exact hS1len
  have hW2pq : W2s.prop_queue = [] := by
    rw [← hW2s, prop_queue_updS]
    exact hS1pq
  have hW2tq : W2s.transition_queue = [] := by
    rw [← hW2s, transition_queue_updS]
    exact hS1tq
  have hisoW2T : ∀ j, j < W2s.edges.length → (getE W2s j).eto ≠ i := by
    intro j hj
    rw [getE_congr hW2edges j]
    rw [hW2edges] at hj
    exact (hiso j hj).2
  have h7 : (List.range W2s.edges.length).foldl (reattach_step i) W2s = W2s :=
    reattach_fold_iso W2s i hisoW2T
  have h8 : process_queues (fuel+1+1+1) W2s = W2s :=
    process_queues_nil (fuel+1+1) W2s hW2pq hW2tq
  have hP : process_queues (fuel+1+1+1+1+1) X = W2s := by
    rw [h1, h2, h3, h4, h5, h7, h8]
  rw [hP]
  exact ⟨hW2rec, hW2pq, hW2tq, hW2edges, hW2len⟩

/-- Round-trip phase 3: `stop(true)` on the explicitly-started, otherwise
unreferenced STARTED service drops the explicit hold back to zero, flags
release propagation, moves to STOPPING and queues the transition. -/
theorem c4_stop (Y : World) (i : Nat) (hlen : i < Y.svcs.length)
    (hisoT : ∀ j, j < Y.edges.length → (getE Y j).eto ≠ i)
    (hst : (getS Y i).service_state = .STARTED)
    (hexp : (getS Y i).start_explicit = true)
    (hrb : (getS Y i).required_by = 1)
    (hpns : (getS Y i).pinned_started = false)
    (hpr : (getS Y i).prop_require = false)
    (hpq : Y.prop_queue = [])
    (htq : Y.transition_queue = []) :
    getS (stop Y i true) i = { getS Y i with start_explicit := false, required_by := 0, desired_state := .STOPPED, prop_release := true, stop_reason := .NORMAL, service_state := .STOPPING, waiting_for_deps := true }
    ∧ (stop Y i true).prop_queue = [i]
    ∧ (stop Y i true).transition_queue = [i]
    ∧ (stop Y i true).edges = Y.edges
    ∧ (stop Y i true).svcs.length = Y.svcs.length := by
  obtain ⟨W1t, hW1t⟩ : ∃ Z, setS Y i { getS Y i with start_explicit := false, required_by := (getS Y i).required_by - 1 } = Z := ⟨_, rfl⟩
  have hrec1 : getS W1t i = { getS Y i with start_explicit := false, required_by := 0 } := by
    rw [← hW1t, getS_setS_self _ _ _ hlen]
    simp [hrb]
  have hlen1 : W1t.svcs.length = Y.svcs.length := by
    rw [← hW1t]
    simp
  obtain ⟨W2t, hW2t⟩ : ∃ Z, updS W1t i (fun t => { t with desired_state := .STOPPED }) = Z := ⟨_, rfl⟩
  have hrec2 : getS W2t i = { getS Y i with start_explicit := false, required_by := 0, desired_state := .STOPPED } := by
    rw [← hW2t, getS_updS_self _ _ _ (by rw [hlen1]; exact hlen), hrec1]
  have hlen2 : W2t.svcs.length = Y.svcs.length := by
    rw [← hW2t, length_svcs_updS]
    exact hlen1
  have hedges2 : W2t.edges = Y.edges := by
    rw [← hW2t, edges_updS, ← hW1t, edges_setS]
  have hpq2 : W2t.prop_queue = [] := by
    rw [← hW2t, prop_queue_updS, ← hW1t, prop_queue_setS]
    exact hpq
  have htq2 : W2t.transition_queue = [] := by
    rw [← hW2t, transition_queue_updS, ← hW1t, transition_queue_setS]
    exact htq
  obtain ⟨W3t, hW3t⟩ : ∃ Z, add_prop_queue (updS W2t i fun t => { t with prop_release := !(getS W2t i).prop_require }) i = Z := ⟨_, rfl⟩
  have hrec3 : getS W3t i = { getS Y i with start_explicit := false, required_by := 0, desired_state := .STOPPED, prop_release := true } := by
    rw [← hW3t, getS_add_prop_queue, getS_updS_self _ _ _ (by rw [hlen2]; exact hlen), hrec2]
    simp [hpr]
  have hlen3 : W3t.svcs.length = Y.svcs.length := by
    rw [← hW3t]
    rw [show (add_prop_queue (updS W2t i fun t => { t with prop_release := !(getS W2t i).prop_require }) i).svcs.length = W2t.svcs.length from by simp]
    exact hlen2
  have hedges3 : W3t.edges = Y.edges := by
    rw [← hW3t, edges_add_prop_queue, edges_updS]
    exact hedges2
  have hpq3 : W3t.prop_queue = [i] := by
    rw [← hW3t]
    refine prop_queue_add_of_nil _ _ ?_
    rw [prop_queue_updS]
    exact hpq2
  have htq3 : W3t.transition_queue = [] := by
    rw [← hW3t, transition_queue_add_prop_queue, transition_queue_updS]
    exact htq2
  obtain ⟨W5t, hW5t⟩ : ∃ Z, updS W3t i (fun t => { t with stop_reason := stopped_reason_t.NORMAL }) = Z := ⟨_, rfl⟩
  have hrec5 : getS W5t i = { getS Y i with start_explicit := false, required_by := 0, desired_state := .STOPPED, prop_release := true, stop_reason := .NORMAL } := by
    rw [← hW5t, getS_updS_self _ _ _ (by rw [hlen3]; exact hlen), hrec3]
  have hlen5 : W5t.svcs.length = Y.svcs.length := by
    rw [← hW5t, length_svcs_updS]
    exact hlen3
  have hedges5 : W5t.edges = Y.edges := by
    rw [← hW5t, edges_updS]
    exact hedges3
  have hpq5 : W5t.prop_queue = [i] := by
    rw [← hW5t, prop_queue_updS]
    exact hpq3
  have htq5 : W5t.transition_queue = [] := by
    rw [← hW5t, transition_queue_updS]
    exact htq3
  have hred1 : stop Y i true = do_stop W5t i := by
    unfold stop
    try dsimp only
    rw [if_pos (show (getS Y i).start_explicit = true from hexp)]
    rw [hW1t, hW2t]
    rw [if_neg (show ¬((getS W2t i).pinned_started = true) by rw [hrec2]; simp [hpns])]
    have hc0 : ((getS W2t i).required_by == 0) = true := by
      rw [hrec2]
      simp
    rw [if_pos hc0]
    rw [if_pos hc0]
    rw [if_pos (show (!(getS W2t i).prop_require) = true by rw [hrec2]; simp [hpr])]
    rw [hW3t]
    rw [if_pos (show (true && ((getS W3t i).service_state != .STOPPED) && ((getS W3t i).service_state != .STOPPING)) = true by rw [hrec3]; simp [hst])]
    rw [hW5t]
  have hisoW5T : ∀ j, j < W5t.edges.length → (getE W5t j).eto ≠ i := by
    intro j hj
    rw [getE_congr hedges5 j]
    rw [hedges5] at hj
    exact hisoT j hj
  have hred2 : do_stop W5t i
      = add_transition_queue (updS W5t i fun t => { t with service_state := .STOPPING, waiting_for_deps := true }) i := by
    unfold do_stop
    try dsimp only
    rw [if_neg (show ¬((getS W5t i).pinned_started = true) by rw [hrec5]; simp [hpns])]
    rw [stop_dependents_iso W5t i hisoW5T]
    try dsimp only
    rw [if_neg (show ¬(((getS W5t i).service_state != .STARTED) = true) by rw [hrec5]; simp [hst])]
    first
      | rw [if_pos rfl]
      | rw [if_pos (show True from trivial)]
  have hfull := hred1.trans hred2
  rw [hfull]
  refine ⟨?_, ?_, ?_, ?_, ?_⟩
  · rw [getS_add_transition_queue, getS_updS_self _ _ _ (by rw [hlen5]; exact hlen), hrec5]
  · rw [prop_queue_add_transition_queue, prop_queue_updS]
    exact hpq5
  · refine transition_queue_add_of_nil _ _ ?_
    rw [transition_queue_updS]
    exact htq5
  · rw [edges_add_transition_queue, edges_updS]
    exact hedges5
  · rw [show (add_transition_queue (updS W5t i fun t => { t with service_state := .STOPPING, waiting_for_deps := true }) i).svcs.length = W5t.svcs.length from by simp]
    exact hlen5

/-- Round-trip phase 4: draining after `stop` runs the release propagation
(a no-op for an isolated service) and the STOPPING transition, which
brings the service down synchronously to STOPPED via the default
bring_down. -/
theorem c4_drain_down (fuel : Nat) (X : World) (i : Nat) (hlen : i < X.svcs.length)
    (hiso : ∀ j, j < X.edges.length → (getE X j).efrom ≠ i ∧ (getE X j).eto ≠ i)
    (hsst : (getS X i).service_state = .STOPPING)
    (hds : (getS X i).desired_state = .STOPPED)
    (hrb : (getS X i).required_by = 0)
    (hexp : (getS X i).start_explicit = false)
    (hpr : (getS X i).prop_require = false)
    (hprel : (getS X i).prop_release = true)
    (hpst : (getS X i).prop_start = false)
    (hpsp : (getS X i).prop_stop = false)
    (hpf : (getS X i).prop_failure = false)
    (hhc : (getS X i).have_console = false)
    (hsf : (getS X i).start_failed = false)
    (hpq : X.prop_queue = [i])
    (htq : X.transition_queue = [i]) :
    (getS (process_queues (fuel+1+1+1) X) i).service_state = .STOPPED
    ∧ (getS (process_queues (fuel+1+1+1) X) i).required_by = 0 := by
  obtain ⟨Y1, hY1⟩ : ∃ Z, ({ X with prop_queue := [] } : World) = Z := ⟨_, rfl⟩
  have hY1s : getS Y1 i = getS X i := by rw [← hY1]; rfl
  have hY1edges : Y1.edges = X.edges := by rw [← hY1]
  have hY1lenE : Y1.svcs.length = X.svcs.length := by rw [← hY1]
  have hY1pq : Y1.prop_queue = [] := by rw [← hY1]
  have hY1tq : Y1.transition_queue = [i] := by rw [← hY1]; exact htq
  have h1 : process_queues (fuel+1+1+1) X
      = process_queues (fuel+1+1) (do_propagation (fuel+1+1) Y1 i) := by
    rw [process_queues_cons_prop (fuel+1+1) X i [] hpq, hY1]
  have hisoY1F : ∀ j, j < Y1.edges.length → (getE Y1 j).efrom ≠ i := by
    intro j hj
    rw [getE_congr hY1edges j]
    rw [hY1edges] at hj
    exact (hiso j hj).1
  obtain ⟨Z1, hZ1⟩ : ∃ Z, updS Y1 i (fun t => { t with prop_release := false }) = Z := ⟨_, rfl⟩
  have hZ1rec : getS Z1 i = { getS X i with prop_release := false } := by
    rw [← hZ1, getS_updS_self _ _ _ (by rw [hY1lenE]; exact hlen), hY1s]
  have h2 : do_propagation (fuel+1+1) Y1 i = Z1 := by
    unfold do_propagation
    try dsimp only
    rw [if_neg (show ¬((getS Y1 i).prop_require = true) by rw [hY1s]; simp [hpr])]
    rw [if_pos (show (getS Y1 i).prop_release = true by rw [hY1s]; exact hprel)]
    rw [release_dependencies_iso Y1 i hisoY1F]
    rw [hZ1]
    rw [if_neg (show ¬((getS Z1 i).prop_failure = true) by rw [hZ1rec]; simp [hpf])]
    rw [if_neg (show ¬((getS Z1 i).prop_start = true) by rw [hZ1rec]; simp [hpst])]
    rw [if_neg (show ¬((getS Z1 i).prop_stop = true) by rw [hZ1rec]; simp [hpsp])]
  have hZ1pq : Z1.prop_queue = [] := by
    rw [← hZ1, prop_queue_updS]
    exact hY1pq
  have hZ1tq : Z1.transition_queue = [i] := by
    rw [← hZ1, transition_queue_updS]
    exact hY1tq
  have hZ1edges : Z1.edges = X.edges := by
    rw [← hZ1, edges_updS]
    exact hY1edges
  have hZ1len : Z1.svcs.length = X.svcs.length := by
    rw [← hZ1, length_svcs_updS]
    exact hY1lenE
  obtain ⟨V, hV⟩ : ∃ Z, ({ Z1 with transition_queue := [] } : World) = Z := ⟨_, rfl⟩
  have hVrec : getS V i = { getS X i with prop_release := false } := by
    rw [← hV]
    exact hZ1rec
  have hVedges : V.edges = X.edges := by
    rw [← hV]
    exact hZ1edges
  have hVlen : V.svcs.length = X.svcs.length := by
    rw [← hV]
    exact hZ1len
  have h3 : process_queues (fuel+1+1) Z1
      = process_queues (fuel+1) (execute_transition (fuel+1) V i) := by
    rw [process_queues_cons_trans (fuel+1) Z1 i [] hZ1pq hZ1tq, hV]
  have hisoVT : ∀ j, j < V.edges.length → (getE V j).eto ≠ i := by
    intro j hj
    rw [getE_congr hVedges j]
    rw [hVedges] at hj
    exact (hiso j hj).2
  obtain ⟨W1d, hW1d⟩ : ∃ Z, updS V i (fun t => { t with waiting_for_deps := false }) = Z := ⟨_, rfl⟩
  have hW1rec : getS W1d i = { getS X i with prop_release := false, waiting_for_deps := false } := by
    rw [← hW1d, getS_updS_self _ _ _ (by rw [hVlen]; exact hlen), hVrec]
  have hW1len : W1d.svcs.length = X.svcs.length := by
    rw [← hW1d, length_svcs_updS]
    exact hVlen
  have h4 : execute_transition (fuel+1) V i = bring_down (fuel+1) W1d i := by
    unfold execute_transition
    try dsimp only
    rw [if_neg (show ¬(((getS V i).service_state == .STARTING || ((getS V i).service_state == .STARTED && (getS V i).restarting)) = true) by rw [hVrec]; simp [hsst])]
    rw [if_pos (show ((getS V i).service_state == .STOPPING) = true by rw [hVrec]; simp [hsst])]
    rw [if_pos (stop_check_dependents_iso V i hisoVT)]
    rw [hW1d]
    rw [if_neg (show ¬(((getS W1d i).start_explicit && !(getS W1d i).auto_restart && !(getS W1d i).restarting) = true) by rw [hW1rec]; simp [hexp])]
  obtain ⟨W2d, hW2d⟩ : ∃ Z, updS W1d i (fun t => { t with waiting_for_deps := false }) = Z := ⟨_, rfl⟩
  have hW2rec : getS W2d i = { getS X i with prop_release := false, waiting_for_deps := false } := by
    rw [← hW2d, getS_updS_self _ _ _ (by rw [hW1len]; exact hlen), hW1rec]
  have hW2len : W2d.svcs.length = X.svcs.length := by
    rw [← hW2d, length_svcs_updS]
    exact hW1len
  have hW2edges : W2d.edges = X.edges := by
    rw [← hW2d, edges_updS, ← hW1d, edges_updS]
    exact hVedges
  have hW2pq : W2d.prop_queue = [] := by
    rw [← hW2d, prop_queue_updS, ← hW1d, prop_queue_updS, ← hV]
    exact hZ1pq
  have hW2tq : W2d.transition_queue = [] := by
    rw [← hW2d, transition_queue_updS, ← hW1d, transition_queue_updS, ← hV]
  have h5 : bring_down (fuel+1) W1d i = stopped (fuel+1) W2d i := by
    unfold bring_down
    rw [hW2d]
  obtain ⟨W3d, hW3d⟩ : ∃ Z, updS W2d i (fun t => { t with force_stop := false }) = Z := ⟨_, rfl⟩
  have hW3rec : getS W3d i = { getS X i with prop_release := false, waiting_for_deps := false, force_stop := false } := by
    rw [← hW3d, getS_updS_self _ _ _ (by rw [hW2len]; exact hlen), hW2rec]
  have hW3len : W3d.svcs.length = X.svcs.length := by
    rw [← hW3d, length_svcs_updS]
    exact hW2len
  have hW3edges : W3d.edges = X.edges := by
    rw [← hW3d, edges_updS]
    exact hW2edges
  obtain ⟨W4d, hW4d⟩ : ∃ Z, updS W3d i (fun t => { t with restarting := false }) = Z := ⟨_, rfl⟩
  have hW4rec : getS W4d i = { getS X i with prop_release := false, waiting_for_deps := false, force_stop := false, restarting := false } := by
    rw [← hW4d, getS_updS_self _ _ _ (by rw [hW3len]; exact hlen), hW3rec]
  have hW4len : W4d.svcs.length = X.svcs.length := by
    rw [← hW4d, length_svcs_updS]
    exact hW3len
  have hW4edges : W4d.edges = X.edges := by
    rw [← hW4d, edges_updS]
    exact hW3edges
  have hisoW4T : ∀ j, j < W4d.edges.length → (getE W4d j).eto ≠ i := by
    intro j hj
    rw [getE_congr hW4edges j]
    rw [hW4edges] at hj
    exact (hiso j hj).2
  have hisoW4F : ∀ j, j < W4d.edges.length → (getE W4d j).efrom ≠ i := by
    intro j hj
    rw [getE_congr hW4edges j]
    rw [hW4edges] at hj
    exact (hiso j hj).1
  obtain ⟨W6d, hW6d⟩ : ∃ Z, updS W4d i (fun t => { t with service_state := .STOPPED }) = Z := ⟨_, rfl⟩
  have hW6rec : getS W6d i = { getS X i with prop_release := false, waiting_for_deps := false, force_stop := false, restarting := false, service_state := .STOPPED } := by
    rw [← hW6d, getS_updS_self _ _ _ (by rw [hW4len]; exact hlen), hW4rec]
  have hbreak : stopped_break_deps W3d i ((getS W3d i).desired_state == service_state_t.STARTED && !(getS W3d i).pinned_stopped) = W6d := by
    unfold stopped_break_deps
    try dsimp only
    rw [hW4d]
    rw [if_pos (show (!((getS W3d i).desired_state == service_state_t.STARTED && !(getS W3d i).pinned_stopped)) = true by rw [hW3rec]; simp [hds])]
    rw [softbreak_fold_iso W4d i hisoW4T]
    rw [depstop_fold_iso W4d i hisoW4F]
    rw [hW6d]
  have hdeact : stopped_deactivate W6d i = service_inactive W6d i := by
    unfold stopped_deactivate
    try dsimp only
    rw [becoming_inactive_eq]
    rw [if_neg (show ¬((getS W6d i).start_explicit = true) by rw [hW6rec]; simp [hexp])]
    rw [if_pos (show ((getS W6d i).required_by == 0) = true by rw [hW6rec]; simp [hrb])]
  have h6 : stopped (fuel+1) W2d i
      = notify_listeners (service_inactive W6d i) i .STOPPED := by
    simp only [stopped]
    try dsimp only
    rw [if_neg (show ¬((getS W2d i).have_console = true) by rw [hW2rec]; simp [hhc])]
    rw [hW3d]
    rw [hbreak]
    rw [if_neg (show ¬(((getS W3d i).desired_state == service_state_t.STARTED && !(getS W3d i).pinned_stopped) = true) by rw [hW3rec]; simp [hds])]
    rw [hdeact]
    rw [if_pos (show (!(getS (service_inactive W6d i) i).start_failed) = true by rw [getS_service_inactive, hW6rec]; simp [hsf])]
    rw [if_neg (show ¬((did_finish (getS (service_inactive W6d i) i).stop_reason && get_exit_status (service_inactive W6d i) i == 0 && !((getS W3d i).desired_state == service_state_t.STARTED && !(getS W3d i).pinned_stopped) && (getS (service_inactive W6d i) i).start_on_completion != "" && !(is_shutting_down (service_inactive W6d i))) = true) by simp [did_finish])]
  have hfin : getS (process_queues (fuel+1+1+1) X) i
      = { getS X i with prop_release := false, waiting_for_deps := false, force_stop := false, restarting := false, service_state := .STOPPED } := by
    rw [h1, h2, h3, h4, h5, h6]
    have hpqf : (notify_listeners (service_inactive W6d i) i service_event_t.STOPPED).prop_queue = [] := by
      rw [prop_queue_notify, prop_queue_service_inactive, ← hW6d, prop_queue_updS,
          ← hW4d, prop_queue_updS, ← hW3d, prop_queue_updS]
      exact hW2pq
    have htqf : (notify_listeners (service_inactive W6d i) i service_event_t.STOPPED).transition_queue = [] := by
      rw [transition_queue_notify, transition_queue_service_inactive, ← hW6d,
          transition_queue_updS, ← hW4d, transition_queue_updS, ← hW3d,
          transition_queue_updS]
      exact hW2tq
    rw [process_queues_nil fuel _ hpqf htqf]
    rw [getS_notify_listeners, getS_service_inactive]
    exact hW6rec
  constructor
  · rw [hfin]
  · rw [hfin]
    exact hrb

/-- **C4**: the round trip — `start()`, drain the queues, `stop(true)`,
drain the queues — returns an isolated service (no incoming or outgoing
dependency edges) from a fully-at-rest STOPPED record with
`required_by = 0` back to STOPPED with `required_by = 0`; the default
bring_up/bring_down complete the transitions synchronously within the
drains. -/
theorem c4_round_trip :
    ∀ fuel w i, i < w.svcs.length →
      (∀ j, j < w.edges.length → (getE w j).efrom ≠ i ∧ (getE w j).eto ≠ i) →
      (getS w i).service_state = .STOPPED →
      (getS w i).required_by = 0 →
      (getS w i).start_explicit = false →
      (getS w i).pinned_started = false →
      (getS w i).pinned_stopped = false →
      (getS w i).prop_release = false →
      (getS w i).prop_start = false →
      (getS w i).prop_stop = false →
      (getS w i).prop_failure = false →
      (getS w i).force_stop = false →
      (getS w i).have_console = false →
      (getS w i).onstart_flags.starts_on_console = false →
      w.prop_queue = [] →
      w.transition_queue = [] →
      (getS (process_queues (fuel+1+1+1) (stop (process_queues (fuel+1+1+1+1+1) (start (fuel+1+1) w i)) i true)) i).service_state = .STOPPED
      ∧ (getS (process_queues (fuel+1+1+1) (stop (process_queues (fuel+1+1+1+1+1) (start (fuel+1+1) w i)) i true)) i).required_by = 0 := by
  intro fuel w i hlen0 hiso0 hst0 hrb0 hexp0 hpns0 hps0 hprel0 hpst0 hpsp0 hpf0 hfs0 hhc0 hsoc0 hpq0 htq0
  obtain ⟨hA1, hA2, hA3, hA4, hA5⟩ :=
    c4_start fuel w i hlen0 (fun j hj => (hiso0 j hj).1) hst0 hps0 hexp0 hprel0 hpq0 htq0
  have hlenX : i < (start (fuel+1+1) w i).svcs.length := by
    rw [hA5]
    exact hlen0
  have hisoX : ∀ j, j < (start (fuel+1+1) w i).edges.length →
      (getE (start (fuel+1+1) w i) j).efrom ≠ i ∧ (getE (start (fuel+1+1) w i) j).eto ≠ i := by
    intro j hj
    rw [getE_congr hA4 j]
    rw [hA4] at hj
    exact hiso0 j hj
  obtain ⟨hB1, hB2, hB3, hB4, hB5⟩ :=
    c4_drain_up fuel (start (fuel+1+1) w i) i hlenX hisoX
      (by rw [hA1]) (by rw [hA1]) (by rw [hA1]) (by rw [hA1])
      (by rw [hA1]; exact hpst0) (by rw [hA1]; exact hpsp0) (by rw [hA1]; exact hpf0)
      (by rw [hA1]; exact hhc0) (by rw [hA1]; exact hfs0) (by rw [hA1]; exact hsoc0)
      hA2 hA3
  have hlenY : i < (process_queues (fuel+1+1+1+1+1) (start (fuel+1+1) w i)).svcs.length := by
    rw [hB5]
    exact hlenX
  have hisoY : ∀ j, j < (process_queues (fuel+1+1+1+1+1) (start (fuel+1+1) w i)).edges.length →
      (getE (process_queues (fuel+1+1+1+1+1) (start (fuel+1+1) w i)) j).efrom ≠ i
      ∧ (getE (process_queues (fuel+1+1+1+1+1) (start (fuel+1+1) w i)) j).eto ≠ i := by
    intro j hj
    rw [getE_congr hB4 j]
    rw [hB4] at hj
    exact hisoX j hj
  obtain ⟨hC1, hC2, hC3, hC4, hC5⟩ :=
    c4_stop (process_queues (fuel+1+1+1+1+1) (start (fuel+1+1) w i)) i hlenY
      (fun j hj => (hisoY j hj).2)
      (by rw [hB1]) (by rw [hB1, hA1]) (by rw [hB1, hA1]; simp [hrb0])
      (by rw [hB1, hA1]; exact hpns0) (by rw [hB1]) hB2 hB3
  have hlenZ : i < (stop (process_queues (fuel+1+1+1+1+1) (start (fuel+1+1) w i)) i true).svcs.length := by
    rw [hC5]
    exact hlenY
  have hisoZ : ∀ j, j < (stop (process_queues (fuel+1+1+1+1+1) (start (fuel+1+1) w i)) i true).edges.length →
      (getE (stop (process_queues (fuel+1+1+1+1+1) (start (fuel+1+1) w i)) i true) j).efrom ≠ i
      ∧ (getE (stop (process_queues (fuel+1+1+1+1+1) (start (fuel+1+1) w i)) i true) j).eto ≠ i := by
    intro j hj
    rw [getE_congr hC4 j]
    rw [hC4] at hj
    exact hisoY j hj
  exact c4_drain_down fuel (stop (process_queues (fuel+1+1+1+1+1) (start (fuel+1+1) w i)) i true) i
    hlenZ hisoZ
    (by rw [hC1]) (by rw [hC1]) (by rw [hC1]) (by rw [hC1])
    (by rw [hC1, hB1]) (by rw [hC1])
    (by rw [hC1, hB1, hA1]; exact hpst0) (by rw [hC1, hB1, hA1]; exact hpsp0)
    (by rw [hC1, hB1, hA1]; exact hpf0) (by rw [hC1, hB1, hA1]; exact hhc0)
    (by rw [hC1, hB1, hA1]) hC2 hC3

/-- **C4** witness: a one-service world round-tripped through
start/drain/stop/drain. -/
theorem c4_witness :
    (getS (process_queues 3 (stop (process_queues 5 (start 2 { svcs := [{}] } 0)) 0 true)) 0).service_state = .STOPPED
    ∧ (getS (process_queues 3 (stop (process_queues 5 (start 2 { svcs := [{}] } 0)) 0 true)) 0).required_by = 0 :=
  c4_round_trip 0 { svcs := [{}] } 0 (by decide)
    (fun j hj => absurd hj (Nat.not_lt_zero j))
    (by decide) (by decide) (by decide) (by decide) (by decide) (by decide)
    (by decide) (by decide) (by decide) (by decide) (by decide) (by decide)
    rfl rfl

end Dinit
